import Mathlib

/-!
# ERP data manager: cache, retry, sync queue

A shallow embedding of `src/frontend/js/erp-data-manager.js` (class `ERPDataManager`).

The asynchronous methods are run to completion one at a time (no interleaving at the
suspension points).  The environment is explicit:

* the transport (`fetch`) is a function of the number of transport calls made so far and of
  the request, so every sequence of outcomes is some `Env`;
* `Date.now()` is a function of the number of clock reads made so far;
* `localStorage.setItem` fails or not depending on the number of writes made so far.

Every effect is recorded in a `World`: the transport calls, the delays slept, the callback
invocations, the console lines, the stored snapshot.  The values the manager handles (what
`response.json()` returns, what callers pass as payload) are a type parameter `V`; what such
a value reads back as from its JSON text is the function `jsonRoundTrip` of the `Env`.
-/

namespace ERP

/-! ## JavaScript strings and `Map` -/

/-- JavaScript `s.includes(t)`: `t` occurs in `s` as a contiguous run of characters. -/
def includes (s t : String) : Bool :=
  decide (t.data <:+: s.data)

/-- Pieces of `cs` between the occurrences of `sep`, as `split` returns them for a
one-character separator (the empty text gives one empty piece). -/
def splitChars (sep : Char) : List Char → List (List Char)
  | [] => [[]]
  | c :: cs =>
    if c = sep then [] :: splitChars sep cs
    else
      match splitChars sep cs with
      | [] => [[c]]
      | seg :: rest => (c :: seg) :: rest

/-- The text `key.split(':')[1]` as `includes` receives it: the second piece, and the text
`undefined` when the key has no colon. -/
def endpointSegment (key : String) : String :=
  match splitChars ':' key.data with
  | _ :: seg :: _ => String.mk seg
  | _ => "undefined"

/-- A JavaScript `Map` with string keys, as the list of its entries in insertion order. -/
abbrev JsMap (β : Type) := List (String × β)

namespace JsMap

variable {β : Type}

/-- `map.get(key)`, `none` for `undefined`. -/
def get (m : JsMap β) (key : String) : Option β :=
  (m.find? (fun e => e.1 == key)).map (fun e => e.2)

/-- `map.has(key)`. -/
def has (m : JsMap β) (key : String) : Bool :=
  (m.get key).isSome

/-- `map.set(key, value)`: an existing key keeps its position, a new key goes last. -/
def set (m : JsMap β) (key : String) (value : β) : JsMap β :=
  if m.has key then m.map (fun e => if e.1 == key then (key, value) else e)
  else m ++ [(key, value)]

/-- `new Map(entries)`. -/
def ofEntries (entries : List (String × β)) : JsMap β :=
  entries.foldl (fun m e => m.set e.1 e.2) []

end JsMap

/-! ## Data model -/

/-- HTTP method of a request; `GET` is what `fetch` uses when `options` has no method. -/
inductive Method
  | GET | POST | PUT | DELETE
  deriving DecidableEq, Repr

/-- The `type` of a queued operation: the three literals the mutation methods write. -/
inductive OpType
  | POST | PUT | DELETE
  deriving DecidableEq, Repr

/-- The `options` argument of `fetchWithRetry`; the default value is `{}`.  The body holds the
value given to `JSON.stringify`. -/
structure FetchOptions (V : Type) where
  method : Method := .GET
  headers : List (String × String) := []
  body : Option V := none
  deriving DecidableEq, Repr

/-- One transport call `fetch(url, { ...options, timeout: 5000 })`. -/
structure Request (V : Type) where
  url : String
  options : FetchOptions V
  timeout : Nat := 5000
  deriving DecidableEq, Repr

/-- A response of the transport; `body = none` when `response.json()` rejects. -/
structure Response (V : Type) where
  status : Nat
  statusText : String
  body : Option V
  deriving DecidableEq, Repr

/-- The `ok` flag of a response: status in the range 200 to 299. -/
def Response.ok {V : Type} (r : Response V) : Bool :=
  decide (200 ≤ r.status) && decide (r.status ≤ 299)

/-- What one call of `fetch` settles to. -/
inductive FetchOutcome (V : Type)
  | rejected (msg : String)
  | resolved (response : Response V)
  deriving DecidableEq, Repr

/-- The values the manager throws. -/
inductive Failure
  /-- The rejection of `fetch` itself. -/
  | network (msg : String)
  /-- Thrown as `new Error("HTTP <status>: <statusText>")` for a response that is not ok. -/
  | http (status : Nat) (statusText : String)
  /-- The rejection of `response.json()`. -/
  | parse
  /-- Thrown as `new Error('Offline and no cached data available')`. -/
  | offline
  deriving DecidableEq, Repr

/-- An entry of the sync queue. -/
structure Operation (V : Type) where
  type : OpType
  endpoint : String
  payload : Option V
  timestamp : Nat
  deriving DecidableEq, Repr

/-- A subscriber.  `id` is the identity of the function (what `indexOf` compares);
`unsubscribes` lists the unsubscribe handles it calls when invoked, each given by the
endpoint and the callback of the `subscribe` call that returned it; `throws` tells whether
it then raises. -/
structure Callback where
  id : Nat
  unsubscribes : List (String × Nat) := []
  throws : Bool := false
  deriving DecidableEq, Repr

/-- A line written to the console. -/
inductive ConsoleMsg
  | onlineSyncing
  | offlineQueueing
  | loadError
  | saveError
  | offlineCached (endpoint : String)
  | fetchError (endpoint : String)
  | queuedOffline (endpoint : String)
  | mutationError (type : OpType) (endpoint : String)
  | processing (count : Nat)
  | syncError
  | stillPending (count : Nat)
  | allSynced
  | listenerError
  | fetcherError (what : String)
  deriving DecidableEq, Repr

/-- An element of a stored array, as `new Map` reads it. -/
inductive StoredElement (V : Type)
  /-- The value `null`, a boolean, a number or a string: not an object. -/
  | primitive
  /-- An array that starts with a string and a value, followed by further items. -/
  | row (key : String) (value : V) (more : List V)
  deriving DecidableEq, Repr

/-- What `JSON.parse` returns for a stored text, as far as `new Map` looks into it. -/
inductive Parsed (V : Type)
  | null
  /-- A boolean or a number. -/
  | scalar
  /-- A string. -/
  | text (s : String)
  /-- An object that is not an array. -/
  | object
  | array (elements : List (StoredElement V))
  deriving DecidableEq, Repr

/-- The text stored under the key `erp_data_cache`. -/
inductive StorageItem (V : Type)
  /-- The JSON text of an array of key and value pairs, given by the pairs it decodes to. -/
  | snapshot (entries : List (String × V))
  /-- A text that is empty, or that `JSON.parse` or `new Map` rejects. -/
  | other (text : String)
  /-- Any other valid JSON text, given by what `JSON.parse` returns for it. -/
  | parsed (value : Parsed V)
  deriving DecidableEq, Repr

/-- The fields of an `ERPDataManager` instance. -/
structure ERPDataManager (V : Type) where
  apiBaseUrl : String
  isOnline : Bool
  dataCache : JsMap V
  listeners : JsMap (List Callback)
  syncQueue : List (Operation V)
  retryAttempts : Nat
  retryDelay : Nat
  deriving DecidableEq, Repr

/-- A call of one of `createData`, `updateData`, `deleteData`. -/
structure MutationCall (V : Type) where
  type : OpType
  endpoint : String
  payload : Option V
  deriving DecidableEq, Repr

/-- Everything outside the instance that the methods act on, each list oldest first. -/
structure World (V : Type) where
  /-- Transport calls made. -/
  fetchLog : List (Request V) := []
  /-- Delays waited for with `setTimeout`. -/
  sleeps : List Nat := []
  /-- Callback invocations: the callback and the data it received. -/
  delivered : List (Nat × V) := []
  /-- Console lines. -/
  console : List ConsoleMsg := []
  /-- Content of `localStorage` under `erp_data_cache`. -/
  storage : Option (StorageItem V) := none
  /-- Number of `setItem` calls made. -/
  storageWrites : Nat := 0
  /-- Number of `Date.now()` reads made. -/
  clockReads : Nat := 0
  /-- Trace of the mutation methods entered. -/
  mutationCalls : List (MutationCall V) := []
  deriving DecidableEq, Repr

/-- The behaviour of the environment. -/
structure Env (V : Type) where
  /-- Outcome of a transport call, given how many calls came before it. -/
  fetch : Nat → Request V → FetchOutcome V
  /-- Value of `Date.now()`, given how many reads came before it. -/
  now : Nat → Nat
  /-- Whether `setItem` raises, given how many writes came before it. -/
  setItemThrows : Nat → Bool
  /-- The value `JSON.parse(JSON.stringify(v))`: what a value reads back as from its JSON
  text.  The numbers `Infinity` and `NaN` read back as `null` and `-0` as `0`; a value that
  reads back as itself is JSON-compatible. -/
  jsonRoundTrip : V → V := fun v => v

/-- An instance together with its surroundings. -/
structure Sys (V : Type) where
  mgr : ERPDataManager V
  world : World V
  deriving DecidableEq, Repr

/-- What a mutation method resolves to: the `queued` acknowledgement or the server result. -/
inductive MutationResult (V : Type)
  | queued (id : Nat)
  | result (r : V)
  deriving DecidableEq, Repr

deriving instance DecidableEq for Except

variable {V : Type}

/-! ## Small effects -/

/-- Write one console line. -/
def Sys.log (s : Sys V) (msg : ConsoleMsg) : Sys V :=
  { s with world := { s.world with console := s.world.console ++ [msg] } }

/-- Append to the sync queue: `this.syncQueue.push(operation)`. -/
def Sys.push (s : Sys V) (operation : Operation V) : Sys V :=
  { s with mgr := { s.mgr with syncQueue := s.mgr.syncQueue ++ [operation] } }

/-- Read the clock: `Date.now()`. -/
def dateNow (env : Env V) (s : Sys V) : Nat × Sys V :=
  (env.now s.world.clockReads,
    { s with world := { s.world with clockReads := s.world.clockReads + 1 } })

/-! ## Durable storage -/

/-- The pairs the text `JSON.stringify(Array.from(cache))` decodes to: the entries of the
cache in their order, each value as it reads back from its JSON text. -/
def snapshotOf (env : Env V) (cache : JsMap V) : List (String × V) :=
  cache.map (fun e => (e.1, env.jsonRoundTrip e.2))

/-- The method `saveToLocalStorage`: write the whole cache as the JSON text of an array of
pairs; a failing write is caught and logged. -/
def saveToLocalStorage (env : Env V) (s : Sys V) : Sys V :=
  if env.setItemThrows s.world.storageWrites then
    ({ s with world := { s.world with storageWrites := s.world.storageWrites + 1 } }).log
      .saveError
  else
    { s with world := { s.world with
        storageWrites := s.world.storageWrites + 1
        storage := some (.snapshot (snapshotOf env s.mgr.dataCache)) } }

/-- The entry `new Map` reads from one element of its argument; `none` when it raises. -/
def StoredElement.entry : StoredElement V → Option (String × V)
  | .primitive => none
  | .row key value _ => some (key, value)

/-- The constructor call `new Map(value)` on a parsed text; `none` when it raises.  The value
`null` and the empty string give an empty map; a boolean, a number and an object are not
iterable; a string that is not empty yields characters, which are not objects; an array is
read element by element, the first two items of each. -/
def newMap : Parsed V → Option (JsMap V)
  | .null => some []
  | .scalar => none
  | .text s => if s = "" then some [] else none
  | .object => none
  | .array elements => (elements.mapM StoredElement.entry).map JsMap.ofEntries

/-- The method `loadFromLocalStorage`: rebuild the cache from a stored array of pairs. -/
def loadFromLocalStorage (s : Sys V) : Sys V :=
  match s.world.storage with
  | none => s
  | some (.snapshot entries) => { s with mgr := { s.mgr with dataCache := JsMap.ofEntries entries } }
  | some (.other text) => if text = "" then s else s.log .loadError
  | some (.parsed value) =>
    match newMap value with
    | some map => { s with mgr := { s.mgr with dataCache := map } }
    | none => s.log .loadError

/-- The constructor, run in the world `w`. -/
def ERPDataManager.new (w : World V) (apiBaseUrl : String := "http://localhost:5000/api") :
    Sys V :=
  loadFromLocalStorage
    { mgr :=
        { apiBaseUrl := apiBaseUrl
          isOnline := true
          dataCache := []
          listeners := []
          syncQueue := []
          retryAttempts := 3
          retryDelay := 1000 }
      world := w }

/-! ## Fetch with retry -/

/-- The `try` block of `fetchWithRetry`: one transport call, and the error thrown for a
response that is not ok. -/
def attemptOnce (env : Env V) (req : Request V) (w : World V) :
    Except Failure (Response V) × World V :=
  let w1 := { w with fetchLog := w.fetchLog ++ [req] }
  match env.fetch w.fetchLog.length req with
  | .rejected msg => (.error (.network msg), w1)
  | .resolved response =>
    if response.ok then (.ok response, w1)
    else (.error (.http response.status response.statusText), w1)

/-- The recursion of `fetchWithRetry`, by the number of retries still allowed
(`retryAttempts - attempt`). -/
def fetchRetrying (env : Env V) (req : Request V) (retryDelay : Nat) :
    Nat → World V → Except Failure (Response V) × World V
  | 0, w => attemptOnce env req w
  | remaining + 1, w =>
    match attemptOnce env req w with
    | (.ok response, w1) => (.ok response, w1)
    | (.error _, w1) =>
      fetchRetrying env req retryDelay remaining { w1 with sleeps := w1.sleeps ++ [retryDelay] }

/-- The method `fetchWithRetry(url, options = {}, attempt = 0)`. -/
def fetchWithRetry (env : Env V) (url : String) (options : FetchOptions V := {})
    (attempt : Nat := 0) (s : Sys V) : Except Failure (Response V) × Sys V :=
  let r := fetchRetrying env { url := url, options := options } s.mgr.retryDelay
    (s.mgr.retryAttempts - attempt) s.world
  (r.1, { s with world := r.2 })

/-! ## Subscriptions -/

/-- The method `subscribe(endpoint, callback)`; the handle it returns is `callHandle` at the
same endpoint and callback. -/
def subscribe (endpoint : String) (callback : Callback) (s : Sys V) : Sys V :=
  let listeners :=
    if s.mgr.listeners.has endpoint then s.mgr.listeners else s.mgr.listeners.set endpoint []
  { s with mgr := { s.mgr with
      listeners := listeners.set endpoint ((listeners.get endpoint).getD [] ++ [callback]) } }

/-- The unsubscribe handle returned by `subscribe(endpoint, callback)`: remove the first
occurrence of the callback from the list of the endpoint.  It raises (`none`) when the
endpoint has no list. -/
def callHandle (endpoint : String) (callbackId : Nat) (m : ERPDataManager V) :
    Option (ERPDataManager V) :=
  match m.listeners.get endpoint with
  | none => none
  | some callbacks =>
    some { m with
      listeners := m.listeners.set endpoint (callbacks.eraseP (fun c => c.id == callbackId)) }

/-- The handles a callback calls, in order, up to the first that raises. -/
def callHandles : List (String × Nat) → ERPDataManager V → Bool × ERPDataManager V
  | [], m => (false, m)
  | h :: hs, m =>
    match callHandle h.1 h.2 m with
    | none => (true, m)
    | some m1 => callHandles hs m1

/-- One iteration of the `forEach` in `notifyListeners`: the callback receives the data,
and what it raises is caught and logged. -/
def invokeCallback (callback : Callback) (data : V) (s : Sys V) : Sys V :=
  let s1 : Sys V :=
    { s with world := { s.world with delivered := s.world.delivered ++ [(callback.id, data)] } }
  let r := callHandles callback.unsubscribes s1.mgr
  let s2 : Sys V := { s1 with mgr := r.2 }
  if r.1 || callback.throws then s2.log .listenerError else s2

/-- The `forEach` of `notifyListeners`: indices `k, k+1, ...` of the list of the endpoint as
it is when each index is reached, for `count` indices. -/
def notifyLoop (endpoint : String) (data : V) : Nat → Nat → Sys V → Sys V
  | 0, _, s => s
  | count + 1, k, s =>
    match (s.mgr.listeners.get endpoint).bind (fun callbacks => callbacks[k]?) with
    | none => notifyLoop endpoint data count (k + 1) s
    | some callback => notifyLoop endpoint data count (k + 1) (invokeCallback callback data s)

/-- The method `notifyListeners(endpoint, data)`. -/
def notifyListeners (endpoint : String) (data : V) (s : Sys V) : Sys V :=
  match s.mgr.listeners.get endpoint with
  | none => s
  | some callbacks => notifyLoop endpoint data callbacks.length 0 s

/-! ## Cache management -/

/-- The test of `invalidateCache` on one key. -/
def invalidates (endpoint key : String) : Bool :=
  includes key endpoint || includes endpoint (endpointSegment key)

/-- The method `invalidateCache(endpoint)`. -/
def invalidateCache (env : Env V) (endpoint : String) (s : Sys V) : Sys V :=
  saveToLocalStorage env
    { s with mgr := { s.mgr with
        dataCache := s.mgr.dataCache.filter (fun e => !invalidates endpoint e.1) } }

/-- The method `clearCache()`. -/
def clearCache (env : Env V) (s : Sys V) : Sys V :=
  saveToLocalStorage env { s with mgr := { s.mgr with dataCache := [] } }

/-! ## Data retrieval -/

/-- The `catch` block of `getData`. -/
def getDataCatch (endpoint : String) (error : Failure) (s : Sys V) : Except Failure V × Sys V :=
  let s1 := s.log (.fetchError endpoint)
  match s1.mgr.dataCache.get ("GET:" ++ endpoint) with
  | some v => (.ok v, s1)
  | none => (.error error, s1)

/-- The method `getData(endpoint, useCache = true)`. -/
def getData (env : Env V) (endpoint : String) (useCache : Bool := true) (s : Sys V) :
    Except Failure V × Sys V :=
  let cacheKey := "GET:" ++ endpoint
  match (if useCache then s.mgr.dataCache.get cacheKey else none) with
  | some v => (.ok v, s)
  | none =>
    if !s.mgr.isOnline then
      match s.mgr.dataCache.get cacheKey with
      | some v => (.ok v, s.log (.offlineCached endpoint))
      | none => (.error .offline, s)
    else
      match fetchWithRetry env (s.mgr.apiBaseUrl ++ endpoint) {} 0 s with
      | (.ok response, s1) =>
        match response.body with
        | some data =>
          let s2 : Sys V :=
            { s1 with mgr := { s1.mgr with dataCache := s1.mgr.dataCache.set cacheKey data } }
          (.ok data, notifyListeners endpoint data (saveToLocalStorage env s2))
        | none => getDataCatch endpoint .parse s1
      | (.error error, s1) => getDataCatch endpoint error s1

/-! ## Data mutation -/

/-- The common body of `createData`, `updateData` and `deleteData`, which differ in the type
of the operation, in whether there is a payload, and in the request options. -/
def mutate (env : Env V) (type : OpType) (endpoint : String) (payload : Option V)
    (options : FetchOptions V) (s : Sys V) : Except Failure (MutationResult V) × Sys V :=
  let s0 : Sys V := { s with world := { s.world with
    mutationCalls := s.world.mutationCalls ++ [⟨type, endpoint, payload⟩] } }
  let (timestamp, s1) := dateNow env s0
  let operation : Operation V := ⟨type, endpoint, payload, timestamp⟩
  if !s1.mgr.isOnline then
    let (id, s2) := dateNow env ((s1.push operation).log (.queuedOffline endpoint))
    (.ok (.queued id), s2)
  else
    match fetchWithRetry env (s1.mgr.apiBaseUrl ++ endpoint) options 0 s1 with
    | (.ok response, s2) =>
      match response.body with
      | some result =>
        (.ok (.result result), notifyListeners endpoint result (invalidateCache env endpoint s2))
      | none => (.error .parse, (s2.log (.mutationError type endpoint)).push operation)
    | (.error error, s2) => (.error error, (s2.log (.mutationError type endpoint)).push operation)

/-- Request options of `createData` and `updateData`. -/
def jsonOptions (method : Method) (payload : Option V) : FetchOptions V :=
  { method := method, headers := [("Content-Type", "application/json")], body := payload }

/-- The method `createData(endpoint, payload)`. -/
def createData (env : Env V) (endpoint : String) (payload : Option V) (s : Sys V) :
    Except Failure (MutationResult V) × Sys V :=
  mutate env .POST endpoint payload (jsonOptions .POST payload) s

/-- The method `updateData(endpoint, payload)`. -/
def updateData (env : Env V) (endpoint : String) (payload : Option V) (s : Sys V) :
    Except Failure (MutationResult V) × Sys V :=
  mutate env .PUT endpoint payload (jsonOptions .PUT payload) s

/-- The method `deleteData(endpoint)`. -/
def deleteData (env : Env V) (endpoint : String) (s : Sys V) :
    Except Failure (MutationResult V) × Sys V :=
  mutate env .DELETE endpoint none { method := .DELETE } s

/-! ## Sync queue -/

/-- The method call the loop of `processSyncQueue` makes for one operation. -/
def replayCall (env : Env V) (operation : Operation V) (s : Sys V) :
    Except Failure (MutationResult V) × Sys V :=
  match operation.type with
  | .POST => createData env operation.endpoint operation.payload s
  | .PUT => updateData env operation.endpoint operation.payload s
  | .DELETE => deleteData env operation.endpoint s

/-- One iteration of the loop of `processSyncQueue`: the `try` block and its `catch`. -/
def replay (env : Env V) (s : Sys V) (operation : Operation V) : Sys V :=
  match replayCall env operation s with
  | (.ok _, s1) => s1
  | (.error _, s1) => (s1.log .syncError).push operation

/-- The method `processSyncQueue()`. -/
def processSyncQueue (env : Env V) (s : Sys V) : Sys V :=
  if s.mgr.syncQueue.length = 0 then s
  else
    let queue := s.mgr.syncQueue
    let s1 : Sys V :=
      { (s.log (.processing s.mgr.syncQueue.length)) with mgr := { s.mgr with syncQueue := [] } }
    let s2 := queue.foldl (replay env) s1
    if s2.mgr.syncQueue.length > 0 then s2.log (.stillPending s2.mgr.syncQueue.length)
    else s2.log .allSynced

/-! ## Connectivity signals and status -/

/-- The listener registered for the `online` event by `initializeOnlineDetection`. -/
def onOnline (env : Env V) (s : Sys V) : Sys V :=
  processSyncQueue env (({ s with mgr := { s.mgr with isOnline := true } } : Sys V).log
    .onlineSyncing)

/-- The listener registered for the `offline` event by `initializeOnlineDetection`. -/
def onOffline (s : Sys V) : Sys V :=
  ({ s with mgr := { s.mgr with isOnline := false } } : Sys V).log .offlineQueueing

/-- The object `getStatus()` returns, without its timestamp text. -/
structure Status where
  isOnline : Bool
  cacheSize : Nat
  queuedOperations : Nat
  deriving DecidableEq, Repr

/-- The method `getStatus()`. -/
def getStatus (s : Sys V) : Status :=
  { isOnline := s.mgr.isOnline
    cacheSize := s.mgr.dataCache.length
    queuedOperations := s.mgr.syncQueue.length }

/-- The method `getStatus()` with its effect: the clock is read for the timestamp
(`new Date()`), returned here as the time read. -/
def getStatusStep (env : Env V) (s : Sys V) : (Status × Nat) × Sys V :=
  ((getStatus s, (dateNow env s).1), (dateNow env s).2)

/-! ## High-level fetchers -/

/-- The common body of the `fetch...` methods: `getData` on the path followed by `?` and
`params`, the text of `new URLSearchParams(filters)` (empty for the default `filters = {}`);
when the read raises, the error is logged and `fallback` is returned. -/
def fetchOrFallback (env : Env V) (what path : String) (fallback : V) (params : String)
    (s : Sys V) : V × Sys V :=
  match getData env (path ++ "?" ++ params) true s with
  | (.ok v, s1) => (v, s1)
  | (.error _, s1) => (fallback, s1.log (.fetcherError what))

/-- The method `fetchPurchaseOrders(filters = {})`; `emptyArray` is the JSON value `[]`. -/
def fetchPurchaseOrders (env : Env V) (emptyArray : V) (params : String) (s : Sys V) :
    V × Sys V :=
  fetchOrFallback env "purchase orders" "/procurement/purchase-orders" emptyArray params s

/-- The method `fetchInventory(filters = {})`. -/
def fetchInventory (env : Env V) (emptyArray : V) (params : String) (s : Sys V) : V × Sys V :=
  fetchOrFallback env "inventory" "/inventory/materials" emptyArray params s

/-- The method `fetchWorkOrders(filters = {})`. -/
def fetchWorkOrders (env : Env V) (emptyArray : V) (params : String) (s : Sys V) : V × Sys V :=
  fetchOrFallback env "work orders" "/production/work-orders" emptyArray params s

/-- The method `fetchCustomers(filters = {})`. -/
def fetchCustomers (env : Env V) (emptyArray : V) (params : String) (s : Sys V) : V × Sys V :=
  fetchOrFallback env "customers" "/sales/customers" emptyArray params s

/-- The method `fetchSalesOrders(filters = {})`. -/
def fetchSalesOrders (env : Env V) (emptyArray : V) (params : String) (s : Sys V) : V × Sys V :=
  fetchOrFallback env "sales orders" "/sales/orders" emptyArray params s

/-- The method `fetchQCData(filters = {})`. -/
def fetchQCData (env : Env V) (emptyArray : V) (params : String) (s : Sys V) : V × Sys V :=
  fetchOrFallback env "QC data" "/quality/logs" emptyArray params s

/-- The method `fetchReports(reportType, filters = {})`; `nullValue` is the JSON value
`null`. -/
def fetchReports (env : Env V) (nullValue : V) (reportType params : String) (s : Sys V) :
    V × Sys V :=
  fetchOrFallback env (reportType ++ " report") ("/reports/" ++ reportType) nullValue params s

/-! ## Between two turns of the event loop

The definitions above run every asynchronous method to its end.  The ones below stop a
method at its first `await`, to speak of what runs while a drain is suspended. -/

/-- A drain suspended at an `await`: the operation whose replay it waits for and the rest
of its snapshot of the queue. -/
structure SuspendedDrain (V : Type) where
  current : Operation V
  remaining : List (Operation V)
  deriving DecidableEq, Repr

/-- The manager between two turns of the event loop: its state and the drains that are
suspended, oldest first. -/
structure EventLoop (V : Type) where
  sys : Sys V
  drains : List (SuspendedDrain V)
  deriving DecidableEq, Repr

/-- The part of a mutation method that runs before its first `await`: offline the whole
method, which returns without waiting; online up to the transport call of the first attempt
of `fetchWithRetry`, whose answer it then waits for. -/
def mutateStart (env : Env V) (type : OpType) (endpoint : String) (payload : Option V)
    (options : FetchOptions V) (s : Sys V) : Sys V :=
  if !s.mgr.isOnline then (mutate env type endpoint payload options s).2
  else
    let s0 : Sys V := { s with world := { s.world with
      mutationCalls := s.world.mutationCalls ++ [⟨type, endpoint, payload⟩] } }
    let s1 := (dateNow env s0).2
    { s1 with world := { s1.world with
        fetchLog := s1.world.fetchLog ++
          [{ url := s1.mgr.apiBaseUrl ++ endpoint, options := options }] } }

/-- The part of the first iteration of the loop of `processSyncQueue` that runs before its
`await`. -/
def replayStart (env : Env V) (operation : Operation V) (s : Sys V) : Sys V :=
  match operation.type with
  | .POST =>
    mutateStart env .POST operation.endpoint operation.payload
      (jsonOptions .POST operation.payload) s
  | .PUT =>
    mutateStart env .PUT operation.endpoint operation.payload
      (jsonOptions .PUT operation.payload) s
  | .DELETE => mutateStart env .DELETE operation.endpoint none { method := .DELETE } s

/-- The part of `processSyncQueue()` that runs before its first `await`: the test of the
queue, the snapshot, the emptying of the queue and the start of the first replay.  It gives
the drain it leaves suspended, if any. -/
def processSyncQueueStart (env : Env V) (s : Sys V) : Sys V × Option (SuspendedDrain V) :=
  match s.mgr.syncQueue with
  | [] => (s, none)
  | operation :: rest =>
    (replayStart env operation
      { (s.log (.processing s.mgr.syncQueue.length)) with
        mgr := { s.mgr with syncQueue := [] } },
     some ⟨operation, rest⟩)

/-- The turn of the event loop that handles the `online` event. -/
def EventLoop.online (env : Env V) (l : EventLoop V) : EventLoop V :=
  { sys := (processSyncQueueStart env
      (({ l.sys with mgr := { l.sys.mgr with isOnline := true } } : Sys V).log
        .onlineSyncing)).1
    drains := l.drains ++ (processSyncQueueStart env
      (({ l.sys with mgr := { l.sys.mgr with isOnline := true } } : Sys V).log
        .onlineSyncing)).2.toList }

/-- The turn of the event loop that handles the `offline` event. -/
def EventLoop.offline (l : EventLoop V) : EventLoop V :=
  { l with sys := onOffline l.sys }

/-- A turn of the event loop in which the page calls `createData(endpoint, payload)`, up to
the first `await` of the call. -/
def EventLoop.createData (env : Env V) (endpoint : String) (payload : Option V)
    (l : EventLoop V) : EventLoop V :=
  { sys := mutateStart env .POST endpoint payload (jsonOptions .POST payload) l.sys
    drains := l.drains }

/-! ## Vocabulary for the theorems -/

/-- The error one transport call makes `fetchWithRetry` catch, if any. -/
def FetchOutcome.failure : FetchOutcome V → Option Failure
  | .rejected msg => some (.network msg)
  | .resolved response =>
    if response.ok then none else some (.http response.status response.statusText)

/-- The request `fetchWithRetry(url, options)` hands to the transport. -/
def requestOf (url : String) (options : FetchOptions V) : Request V :=
  { url := url, options := options }

/-- A transport that rejects every call with the same network error. -/
def envAlwaysRejects (V : Type) (msg : String) : Env V :=
  { fetch := fun _ _ => .rejected msg, now := fun k => k, setItemThrows := fun _ => false }

/-- A transport that answers every call with the same response. -/
def envAlwaysResponds (response : Response V) : Env V :=
  { fetch := fun _ _ => .resolved response, now := fun k => k, setItemThrows := fun _ => false }

/-- What one transport call makes the `try` block of `fetchWithRetry` produce. -/
def FetchOutcome.result : FetchOutcome V → Except Failure (Response V)
  | .rejected msg => .error (.network msg)
  | .resolved response =>
    if response.ok then .ok response else .error (.http response.status response.statusText)

/-- Result of the retry recursion and the number of retries it makes, when `start` transport
calls were made before it and `remaining` retries are allowed. -/
def retryOutcome (env : Env V) (req : Request V) :
    Nat → Nat → Except Failure (Response V) × Nat
  | 0, start => ((env.fetch start req).result, 0)
  | remaining + 1, start =>
    match (env.fetch start req).result with
    | .ok response => (.ok response, 0)
    | .error _ =>
      ((retryOutcome env req remaining (start + 1)).1,
        (retryOutcome env req remaining (start + 1)).2 + 1)

/-- The payload a replay of the operation passes on: `deleteData` takes none. -/
def Operation.replayPayload (o : Operation V) : Option V :=
  match o.type with
  | .DELETE => none
  | _ => o.payload

/-- The method call that replays a queued operation. -/
def Operation.call (o : Operation V) : MutationCall V :=
  ⟨o.type, o.endpoint, o.replayPayload⟩

/-- Request options the mutation method for an operation type passes to `fetchWithRetry`. -/
def optionsFor (type : OpType) (payload : Option V) : FetchOptions V :=
  match type with
  | .POST => jsonOptions .POST payload
  | .PUT => jsonOptions .PUT payload
  | .DELETE => { method := .DELETE }

/-- The request a replay of the operation sends. -/
def Operation.request (apiBaseUrl : String) (o : Operation V) : Request V :=
  requestOf (apiBaseUrl ++ o.endpoint) (optionsFor o.type o.payload)

/-- The state in which `fetchWithRetry` leaves a mutation method: the call traced, the clock
read once, the transport calls and delays of the retry recursion recorded. -/
def afterFetch (env : Env V) (type : OpType) (endpoint : String) (payload : Option V)
    (options : FetchOptions V) (s : Sys V) : Sys V :=
  { s with world := { s.world with
      mutationCalls := s.world.mutationCalls ++ [⟨type, endpoint, payload⟩]
      clockReads := s.world.clockReads + 1
      fetchLog := s.world.fetchLog ++ List.replicate
        ((retryOutcome env (requestOf (s.mgr.apiBaseUrl ++ endpoint) options)
          s.mgr.retryAttempts s.world.fetchLog.length).2 + 1)
        (requestOf (s.mgr.apiBaseUrl ++ endpoint) options)
      sleeps := s.world.sleeps ++ List.replicate
        (retryOutcome env (requestOf (s.mgr.apiBaseUrl ++ endpoint) options)
          s.mgr.retryAttempts s.world.fetchLog.length).2 s.mgr.retryDelay } }

/-- The state in which the loop of `processSyncQueue` starts: the queue emptied. -/
def drainStart (s : Sys V) : Sys V :=
  { (s.log (.processing s.mgr.syncQueue.length)) with mgr := { s.mgr with syncQueue := [] } }

/-- The operations of `queue` whose replay raises, when the loop of `processSyncQueue` runs
over `queue` from the state `s`. -/
def drainFailures (env : Env V) : List (Operation V) → Sys V → List (Operation V)
  | [], _ => []
  | o :: rest, s =>
    match (replayCall env o s).1 with
    | .ok _ => drainFailures env rest (replay env s o)
    | .error _ => o :: drainFailures env rest (replay env s o)

/-- A call of the mutation interface. -/
inductive Mutation (V : Type)
  | create (endpoint : String) (payload : Option V)
  | update (endpoint : String) (payload : Option V)
  | remove (endpoint : String)
  deriving DecidableEq, Repr

/-- Run the method a call names. -/
def Mutation.run (env : Env V) : Mutation V → Sys V → Except Failure (MutationResult V) × Sys V
  | .create endpoint payload, s => createData env endpoint payload s
  | .update endpoint payload, s => updateData env endpoint payload s
  | .remove endpoint, s => deleteData env endpoint s

/-- The operation a call queues, with the timestamp it gets. -/
def Mutation.operation : Mutation V → Nat → Operation V
  | .create endpoint payload, timestamp => ⟨.POST, endpoint, payload, timestamp⟩
  | .update endpoint payload, timestamp => ⟨.PUT, endpoint, payload, timestamp⟩
  | .remove endpoint, timestamp => ⟨.DELETE, endpoint, none, timestamp⟩

/-- Issue the calls one after the other, ignoring what they return. -/
def issueAll (env : Env V) (calls : List (Mutation V)) (s : Sys V) : Sys V :=
  calls.foldl (fun acc m => (m.run env acc).2) s

/-- A manager as the constructor builds it, then taken offline. -/
def offlineManager : Sys Nat :=
  onOffline (ERPDataManager.new {})

/-- The offline manager after `createData('/sales/orders', 100)`. -/
def queuedOrder : Sys Nat :=
  (createData (envAlwaysRejects Nat "down") "/sales/orders" (some 100) offlineManager).2

/-- The endpoint a call names. -/
def Mutation.endpoint : Mutation V → String
  | .create endpoint _ => endpoint
  | .update endpoint _ => endpoint
  | .remove endpoint => endpoint

/-- The request options the method of a call passes to `fetchWithRetry`. -/
def Mutation.options : Mutation V → FetchOptions V
  | .create _ payload => jsonOptions .POST payload
  | .update _ payload => jsonOptions .PUT payload
  | .remove _ => { method := .DELETE }

/-- A transport that answers every call with status 200 and the body `7`. -/
def envAlwaysOk : Env Nat :=
  envAlwaysResponds ⟨200, "OK", some 7⟩

/-- A subscriber that calls its own unsubscribe handle when notified. -/
def selfRemoving (endpoint : String) (id : Nat) : Callback :=
  { id := id, unsubscribes := [(endpoint, id)] }

/-- The constructor's manager with two subscribers of `/inventory/materials`, the first of
which removes itself when notified, and a cached list under a query key. -/
def twoSubscribers : Sys Nat :=
  let s := subscribe "/inventory/materials" { id := 2 }
    (subscribe "/inventory/materials" (selfRemoving "/inventory/materials" 1)
      (ERPDataManager.new {}))
  { s with mgr := { s.mgr with
      dataCache := [("GET:/inventory/materials?category=fabric", 3), ("GET:/sales/orders", 4)] } }

/-- The constructor's manager with one subscriber of `/inventory/materials`, which calls no
unsubscribe handle, and the same cache. -/
def oneSubscriber : Sys Nat :=
  let s := subscribe "/inventory/materials" { id := 2 } (ERPDataManager.new {})
  { s with mgr := { s.mgr with
      dataCache := [("GET:/inventory/materials?category=fabric", 3), ("GET:/sales/orders", 4)] } }

/-- The state in which `fetchWithRetry` leaves `getData`: the transport calls and delays of
the retry recursion recorded. -/
def afterRead (env : Env V) (endpoint : String) (s : Sys V) : Sys V :=
  { s with world := { s.world with
      fetchLog := s.world.fetchLog ++ List.replicate
        ((retryOutcome env (requestOf (s.mgr.apiBaseUrl ++ endpoint) {})
          s.mgr.retryAttempts s.world.fetchLog.length).2 + 1)
        (requestOf (s.mgr.apiBaseUrl ++ endpoint) {})
      sleeps := s.world.sleeps ++ List.replicate
        (retryOutcome env (requestOf (s.mgr.apiBaseUrl ++ endpoint) {})
          s.mgr.retryAttempts s.world.fetchLog.length).2 s.mgr.retryDelay } }

/-- A manager whose cache holds a report keyed by a query with a time of day. -/
def timedReport : Sys Nat :=
  { ERPDataManager.new {} with
    mgr := { (ERPDataManager.new ({} : World Nat)).mgr with
      dataCache := [("GET:/reports/daily?at=10:30", 1)] } }

/-- Whether an element is a pair: an array of exactly a key and a value. -/
def StoredElement.isPair : StoredElement V → Bool
  | .row _ _ [] => true
  | _ => false

/-- Whether a parsed text is an array of key and value pairs. -/
def Parsed.isPairArray : Parsed V → Bool
  | .array elements => elements.all StoredElement.isPair
  | _ => false

/-- A world whose storage holds `[["GET:/inventory/materials", 1, 2]]`. -/
def paddedStorage : World Nat :=
  { storage := some (.parsed (.array [.row "GET:/inventory/materials" 1 [2]])) }

/-- A transport that rejects its first three calls and answers 503 from then on. -/
def envDegrading : Env Nat :=
  { fetch := fun i _ =>
      if i < 3 then .rejected "timeout" else .resolved ⟨503, "Service Unavailable", none⟩
    now := fun k => k
    setItemThrows := fun _ => false }

/-- The high-level fetchers. -/
inductive Fetcher
  | purchaseOrders
  | inventory
  | workOrders
  | customers
  | salesOrders
  | qcData
  | reports (reportType : String)
  deriving DecidableEq, Repr

/-- Run the method a fetcher names, with the text of its `URLSearchParams`. -/
def Fetcher.run (env : Env V) (emptyArray nullValue : V) :
    Fetcher → String → Sys V → V × Sys V
  | .purchaseOrders, params, s => fetchPurchaseOrders env emptyArray params s
  | .inventory, params, s => fetchInventory env emptyArray params s
  | .workOrders, params, s => fetchWorkOrders env emptyArray params s
  | .customers, params, s => fetchCustomers env emptyArray params s
  | .salesOrders, params, s => fetchSalesOrders env emptyArray params s
  | .qcData, params, s => fetchQCData env emptyArray params s
  | .reports reportType, params, s => fetchReports env nullValue reportType params s

/-- The path a fetcher puts before the `?`. -/
def Fetcher.path : Fetcher → String
  | .purchaseOrders => "/procurement/purchase-orders"
  | .inventory => "/inventory/materials"
  | .workOrders => "/production/work-orders"
  | .customers => "/sales/customers"
  | .salesOrders => "/sales/orders"
  | .qcData => "/quality/logs"
  | .reports reportType => "/reports/" ++ reportType

/-- The value a fetcher returns from its `catch` block. -/
def Fetcher.fallback (emptyArray nullValue : V) : Fetcher → V
  | .reports _ => nullValue
  | _ => emptyArray

/-- What the console line of the `catch` block of a fetcher names. -/
def Fetcher.what : Fetcher → String
  | .purchaseOrders => "purchase orders"
  | .inventory => "inventory"
  | .workOrders => "work orders"
  | .customers => "customers"
  | .salesOrders => "sales orders"
  | .qcData => "QC data"
  | .reports reportType => reportType ++ " report"

/-- The constructor's manager with three subscribers of `/inventory/materials` that call no
unsubscribe handle; the second one throws. -/
def throwingSubscribers : Sys Nat :=
  subscribe "/inventory/materials" { id := 3 }
    (subscribe "/inventory/materials" { id := 2, throws := true }
      (subscribe "/inventory/materials" { id := 1 } (ERPDataManager.new {})))

/-- The manager `twoSubscribers` with a third subscriber of `/inventory/materials`. -/
def threeSubscribers : Sys Nat :=
  subscribe "/inventory/materials" { id := 3 } twoSubscribers

/-- A transport that rejects its first two calls and answers 200 with the body `7` from then
on. -/
def envRecovering : Env Nat :=
  { fetch := fun i _ => if i < 2 then .rejected "timeout" else .resolved ⟨200, "OK", some 7⟩
    now := fun k => k
    setItemThrows := fun _ => false }

/-- A transport that answers every call with status 200 and a body that is no JSON. -/
def envUnparseable : Env Nat :=
  envAlwaysResponds ⟨200, "OK", none⟩

/-- The constructor's manager after `fetchSalesOrders()` without filters, answered with the
body `7`. -/
def afterSalesQuery : Sys Nat :=
  (fetchSalesOrders envAlwaysOk 0 "" (ERPDataManager.new {})).2

/-- The manager of `queuedOrder` after an `online` signal, an `offline` signal, an offline
`createData('/sales/customers', 200)` and a second `online` signal, all of them before the
request of the first drain is answered. -/
def twoSignals : EventLoop Nat :=
  (((EventLoop.online envAlwaysOk ⟨queuedOrder, []⟩).offline).createData envAlwaysOk
    "/sales/customers" (some 200)).online envAlwaysOk

/-- A few of the values `response.json()` returns: `null`, an integer, and the number
`Infinity`, which the text `1e999` parses to. -/
inductive JsValue
  | null
  | number (n : Int)
  | infinity
  deriving DecidableEq, Repr

/-- What `JSON.parse(JSON.stringify(v))` gives for these values: `JSON.stringify` writes
`Infinity` as `null`. -/
def JsValue.roundTrip : JsValue → JsValue
  | .infinity => .null
  | v => v

/-- A transport that answers every call with status 200 and the body `1e999`. -/
def envInfinity : Env JsValue :=
  { fetch := fun _ _ => .resolved ⟨200, "OK", some .infinity⟩
    now := fun k => k
    setItemThrows := fun _ => false
    jsonRoundTrip := JsValue.roundTrip }

/-- A transport that answers its call number `i` with status 200 and the body `7 + i`. -/
def envChanging : Env Nat :=
  { fetch := fun i _ => .resolved ⟨200, "OK", some (7 + i)⟩
    now := fun k => k
    setItemThrows := fun _ => false }

/-- An operation on the manager: a call of one of its methods, of an unsubscribe handle, or
a connectivity signal. -/
inductive Action (V : Type)
  | getData (endpoint : String) (useCache : Bool)
  | mutation (m : Mutation V)
  | subscribe (endpoint : String) (callback : Callback)
  | unsubscribe (endpoint : String) (callbackId : Nat)
  | notifyListeners (endpoint : String) (data : V)
  | getStatus
  | online
  | offline

/-- The state an operation leaves; a handle that raises leaves the state as it is. -/
def Action.run (env : Env V) : Action V → Sys V → Sys V
  | .getData endpoint useCache, s => (ERP.getData env endpoint useCache s).2
  | .mutation m, s => (m.run env s).2
  | .subscribe endpoint callback, s => ERP.subscribe endpoint callback s
  | .unsubscribe endpoint callbackId, s =>
    { s with mgr := (callHandle endpoint callbackId s.mgr).getD s.mgr }
  | .notifyListeners endpoint data, s => ERP.notifyListeners endpoint data s
  | .getStatus, s => (getStatusStep env s).2
  | .online, s => onOnline env s
  | .offline, s => onOffline s

/-- Whether an operation run in the state `s` is one of those that cannot touch a cached
entry of `endpoint`: a read of another endpoint, a read of `endpoint` that may use the cache,
a mutation that is queued or raises, an `online` signal that finds the queue empty, and
every operation on the subscriptions, the status and the `offline` signal. -/
def Action.spares (env : Env V) (endpoint : String) (s : Sys V) : Action V → Bool
  | .getData other useCache => useCache || other != endpoint
  | .mutation m =>
    match (m.run env s).1 with
    | .ok (.result _) => false
    | _ => true
  | .online => s.mgr.syncQueue.isEmpty
  | _ => true

/-- Run the operations one after the other. -/
def runAll (env : Env V) : List (Action V) → Sys V → Sys V
  | [], s => s
  | a :: rest, s => runAll env rest (a.run env s)

/-- Whether every operation of the list, run in the state it finds, spares the cached entry
of `endpoint`. -/
def allSpare (env : Env V) (endpoint : String) : List (Action V) → Sys V → Bool
  | [], _ => true
  | a :: rest, s => a.spares env endpoint s && allSpare env endpoint rest (a.run env s)

/-- Operations that spare the cached entry of `/inventory/materials`: a read of another
endpoint that bypasses the cache, a read of the endpoint itself that may use the cache, a
subscription, the `offline` signal and a mutation that is queued. -/
def sparingActions : List (Action Nat) :=
  [.getData "/sales/orders" false, .getData "/inventory/materials" true,
   .subscribe "/inventory/materials" { id := 1 }, .offline,
   .mutation (.create "/sales/orders" (some 100))]

/-! ## Lemmas on `fetchWithRetry` -/

theorem attemptOnce_error (env : Env V) (req : Request V) (w : World V) (e : Failure)
    (h : (env.fetch w.fetchLog.length req).failure = some e) :
    attemptOnce env req w = (.error e, { w with fetchLog := w.fetchLog ++ [req] }) := by
  unfold attemptOnce
  cases hf : env.fetch w.fetchLog.length req with
  | rejected msg =>
    rw [hf] at h
    simp only [FetchOutcome.failure, Option.some.injEq] at h
    simp [h]
  | resolved response =>
    rw [hf] at h
    by_cases hok : response.ok
    · simp [FetchOutcome.failure, hok] at h
    · simp only [FetchOutcome.failure, hok, Bool.false_eq_true, if_false,
        Option.some.injEq] at h
      simp [hok, h]

/-- The recursion equation of `fetchWithRetry`, in the shape of the source: one attempt, and
on an error a delay and a further call with `attempt + 1` while
`attempt < this.retryAttempts`. -/
theorem fetchWithRetry_eq (env : Env V) (url : String) (options : FetchOptions V)
    (attempt : Nat) (s : Sys V) :
    fetchWithRetry env url options attempt s =
      match attemptOnce env (requestOf url options) s.world with
      | (.ok response, w1) => (.ok response, { s with world := w1 })
      | (.error error, w1) =>
        if attempt < s.mgr.retryAttempts then
          fetchWithRetry env url options (attempt + 1)
            { s with world := { w1 with sleeps := w1.sleeps ++ [s.mgr.retryDelay] } }
        else (.error error, { s with world := w1 }) := by
  unfold fetchWithRetry requestOf
  by_cases h : attempt < s.mgr.retryAttempts
  · obtain ⟨r, hr⟩ : ∃ r, s.mgr.retryAttempts - attempt = r + 1 :=
      ⟨s.mgr.retryAttempts - attempt - 1, by omega⟩
    have hr2 : s.mgr.retryAttempts - (attempt + 1) = r := by omega
    simp only [hr, fetchRetrying, h, if_true, hr2]
    rcases attemptOnce env _ s.world with ⟨_ | _, w1⟩ <;> rfl
  · have hr : s.mgr.retryAttempts - attempt = 0 := by omega
    simp only [hr, fetchRetrying, h, if_false]
    rcases attemptOnce env _ s.world with ⟨_ | _, w1⟩ <;> rfl

/-- When every call of the transport fails, `n` allowed retries give `n + 1` calls of the
same request and `n` delays, and the error raised is that of the last call. -/
theorem fetchRetrying_all_fail (env : Env V) (req : Request V) (delay : Nat)
    (hfail : ∀ i, (env.fetch i req).failure ≠ none) (n : Nat) (w : World V) :
    ∃ e, (env.fetch (w.fetchLog.length + n) req).failure = some e ∧
      fetchRetrying env req delay n w =
        (.error e, { w with
          fetchLog := w.fetchLog ++ List.replicate (n + 1) req
          sleeps := w.sleeps ++ List.replicate n delay }) := by
  induction n generalizing w with
  | zero =>
    obtain ⟨e, he⟩ := Option.ne_none_iff_exists'.mp (hfail w.fetchLog.length)
    exact ⟨e, he, by simp [fetchRetrying, attemptOnce_error env req w e he]⟩
  | succ n ih =>
    obtain ⟨e, he⟩ := Option.ne_none_iff_exists'.mp (hfail w.fetchLog.length)
    obtain ⟨e2, he2, hrun⟩ :=
      ih { w with fetchLog := w.fetchLog ++ [req], sleeps := w.sleeps ++ [delay] }
    refine ⟨e2, ?_, ?_⟩
    · simpa [Nat.add_assoc, Nat.add_comm 1 n] using he2
    · simp only [fetchRetrying, attemptOnce_error env req w e he, hrun]
      simp [List.replicate_succ, List.append_assoc]

/-- With every call failing, `fetchWithRetry` from `attempt = 0` makes `retryAttempts + 1`
calls and sleeps `retryAttempts` times. -/
theorem fetchWithRetry_all_fail (env : Env V) (url : String) (options : FetchOptions V)
    (s : Sys V) (hfail : ∀ i, (env.fetch i (requestOf url options)).failure ≠ none) :
    ∃ e, (env.fetch (s.world.fetchLog.length + s.mgr.retryAttempts)
        (requestOf url options)).failure = some e ∧
      fetchWithRetry env url options 0 s =
        (.error e, { s with world := { s.world with
          fetchLog := s.world.fetchLog ++
            List.replicate (s.mgr.retryAttempts + 1) (requestOf url options)
          sleeps := s.world.sleeps ++ List.replicate s.mgr.retryAttempts s.mgr.retryDelay } }) := by
  obtain ⟨e, he, hrun⟩ :=
    fetchRetrying_all_fail env (requestOf url options) s.mgr.retryDelay hfail
      s.mgr.retryAttempts s.world
  refine ⟨e, he, ?_⟩
  unfold fetchWithRetry
  simp only [Nat.sub_zero]
  unfold requestOf at hrun
  rw [hrun]
  rfl

theorem attemptOnce_eq (env : Env V) (req : Request V) (w : World V) :
    attemptOnce env req w =
      ((env.fetch w.fetchLog.length req).result, { w with fetchLog := w.fetchLog ++ [req] }) := by
  unfold attemptOnce FetchOutcome.result
  cases env.fetch w.fetchLog.length req with
  | rejected msg => rfl
  | resolved response => by_cases h : response.ok <;> simp [h]

theorem retryOutcome_le (env : Env V) (req : Request V) (n start : Nat) :
    (retryOutcome env req n start).2 ≤ n := by
  induction n generalizing start with
  | zero => simp [retryOutcome]
  | succ n ih =>
    simp only [retryOutcome]
    cases (env.fetch start req).result with
    | ok r => simp
    | error e => simpa using ih (start + 1)

theorem fetchRetrying_eq (env : Env V) (req : Request V) (delay n : Nat) (w : World V) :
    fetchRetrying env req delay n w =
      ((retryOutcome env req n w.fetchLog.length).1,
        { w with
          fetchLog := w.fetchLog ++
            List.replicate ((retryOutcome env req n w.fetchLog.length).2 + 1) req
          sleeps := w.sleeps ++
            List.replicate (retryOutcome env req n w.fetchLog.length).2 delay }) := by
  induction n generalizing w with
  | zero => simp [fetchRetrying, retryOutcome, attemptOnce_eq]
  | succ n ih =>
    simp only [fetchRetrying, retryOutcome, attemptOnce_eq]
    cases (env.fetch w.fetchLog.length req).result with
    | ok r => simp
    | error e =>
      simp only [ih]
      simp [List.replicate_succ, List.append_assoc]

theorem fetchWithRetry_eq_outcome (env : Env V) (url : String) (options : FetchOptions V)
    (s : Sys V) :
    fetchWithRetry env url options 0 s =
      ((retryOutcome env (requestOf url options) s.mgr.retryAttempts s.world.fetchLog.length).1,
        { s with world := { s.world with
          fetchLog := s.world.fetchLog ++ List.replicate
            ((retryOutcome env (requestOf url options) s.mgr.retryAttempts
              s.world.fetchLog.length).2 + 1) (requestOf url options)
          sleeps := s.world.sleeps ++ List.replicate
            (retryOutcome env (requestOf url options) s.mgr.retryAttempts
              s.world.fetchLog.length).2 s.mgr.retryDelay } }) := by
  unfold fetchWithRetry requestOf
  simp only [Nat.sub_zero, fetchRetrying_eq]

/-! ## Frame lemmas and the mutation methods -/

theorem callHandles_frame (hs : List (String × Nat)) (m : ERPDataManager V) :
    ∃ L, (callHandles hs m).2 = { m with listeners := L } := by
  induction hs generalizing m with
  | nil => exact ⟨m.listeners, rfl⟩
  | cons h hs ih =>
    unfold callHandles
    cases hc : callHandle h.1 h.2 m with
    | none => exact ⟨m.listeners, rfl⟩
    | some m1 =>
      have hm1 : ∃ L, m1 = { m with listeners := L } := by
        unfold callHandle at hc
        cases hg : m.listeners.get h.1 with
        | none => simp [hg] at hc
        | some cbs =>
          simp only [hg, Option.some.injEq] at hc
          exact ⟨_, hc.symm⟩
      obtain ⟨L1, hL1⟩ := hm1
      obtain ⟨L2, hL2⟩ := ih m1
      exact ⟨L2, by rw [hL2, hL1]⟩

theorem invokeCallback_frame (cb : Callback) (data : V) (s : Sys V) :
    ∃ L C, invokeCallback cb data s =
      { mgr := { s.mgr with listeners := L }
        world := { s.world with
          delivered := s.world.delivered ++ [(cb.id, data)], console := C } } := by
  obtain ⟨L, hL⟩ := callHandles_frame cb.unsubscribes s.mgr
  unfold invokeCallback
  simp only [hL]
  by_cases h : ((callHandles cb.unsubscribes s.mgr).1 || cb.throws) = true
  · exact ⟨L, s.world.console ++ [.listenerError], by simp [h, Sys.log]⟩
  · exact ⟨L, s.world.console, by simp [h]⟩

theorem notifyLoop_frame (endpoint : String) (data : V) (count k : Nat) (s : Sys V) :
    ∃ L D C, notifyLoop endpoint data count k s =
      { mgr := { s.mgr with listeners := L }
        world := { s.world with delivered := s.world.delivered ++ D, console := C } } := by
  induction count generalizing k s with
  | zero => exact ⟨s.mgr.listeners, [], s.world.console, by simp [notifyLoop]⟩
  | succ n ih =>
    unfold notifyLoop
    cases (s.mgr.listeners.get endpoint).bind (fun callbacks => callbacks[k]?) with
    | none => exact ih (k + 1) s
    | some cb =>
      obtain ⟨L1, C1, h1⟩ := invokeCallback_frame cb data s
      obtain ⟨L2, D2, C2, h2⟩ := ih (k + 1) (invokeCallback cb data s)
      refine ⟨L2, (cb.id, data) :: D2, C2, ?_⟩
      show notifyLoop endpoint data n (k + 1) (invokeCallback cb data s) = _
      rw [h2, h1]
      simp

theorem notifyListeners_frame (endpoint : String) (data : V) (s : Sys V) :
    ∃ L D C, notifyListeners endpoint data s =
      { mgr := { s.mgr with listeners := L }
        world := { s.world with delivered := s.world.delivered ++ D, console := C } } := by
  unfold notifyListeners
  cases s.mgr.listeners.get endpoint with
  | none => exact ⟨s.mgr.listeners, [], s.world.console, by simp⟩
  | some cbs => exact notifyLoop_frame endpoint data cbs.length 0 s

theorem saveToLocalStorage_frame (env : Env V) (s : Sys V) :
    ∃ S C, saveToLocalStorage env s =
      { mgr := s.mgr
        world := { s.world with
          storage := S, storageWrites := s.world.storageWrites + 1, console := C } } := by
  unfold saveToLocalStorage
  by_cases h : env.setItemThrows s.world.storageWrites = true
  · exact ⟨s.world.storage, s.world.console ++ [.saveError], by simp [h, Sys.log]⟩
  · exact ⟨some (.snapshot (snapshotOf env s.mgr.dataCache)), s.world.console, by simp [h]⟩

theorem invalidateCache_frame (env : Env V) (endpoint : String) (s : Sys V) :
    ∃ S C, invalidateCache env endpoint s =
      { mgr := { s.mgr with
          dataCache := s.mgr.dataCache.filter (fun e => !invalidates endpoint e.1) }
        world := { s.world with
          storage := S, storageWrites := s.world.storageWrites + 1, console := C } } := by
  unfold invalidateCache
  exact saveToLocalStorage_frame env _

@[simp]
theorem notifyListeners_apiBaseUrl (endpoint : String) (data : V) (s : Sys V) :
    (notifyListeners endpoint data s).mgr.apiBaseUrl = s.mgr.apiBaseUrl := by
  obtain ⟨_, _, _, h⟩ := notifyListeners_frame endpoint data s
  rw [h]

@[simp]
theorem notifyListeners_isOnline (endpoint : String) (data : V) (s : Sys V) :
    (notifyListeners endpoint data s).mgr.isOnline = s.mgr.isOnline := by
  obtain ⟨_, _, _, h⟩ := notifyListeners_frame endpoint data s
  rw [h]

@[simp]
theorem notifyListeners_dataCache (endpoint : String) (data : V) (s : Sys V) :
    (notifyListeners endpoint data s).mgr.dataCache = s.mgr.dataCache := by
  obtain ⟨_, _, _, h⟩ := notifyListeners_frame endpoint data s
  rw [h]

@[simp]
theorem notifyListeners_syncQueue (endpoint : String) (data : V) (s : Sys V) :
    (notifyListeners endpoint data s).mgr.syncQueue = s.mgr.syncQueue := by
  obtain ⟨_, _, _, h⟩ := notifyListeners_frame endpoint data s
  rw [h]

@[simp]
theorem notifyListeners_retryAttempts (endpoint : String) (data : V) (s : Sys V) :
    (notifyListeners endpoint data s).mgr.retryAttempts = s.mgr.retryAttempts := by
  obtain ⟨_, _, _, h⟩ := notifyListeners_frame endpoint data s
  rw [h]

@[simp]
theorem notifyListeners_retryDelay (endpoint : String) (data : V) (s : Sys V) :
    (notifyListeners endpoint data s).mgr.retryDelay = s.mgr.retryDelay := by
  obtain ⟨_, _, _, h⟩ := notifyListeners_frame endpoint data s
  rw [h]

@[simp]
theorem notifyListeners_fetchLog (endpoint : String) (data : V) (s : Sys V) :
    (notifyListeners endpoint data s).world.fetchLog = s.world.fetchLog := by
  obtain ⟨_, _, _, h⟩ := notifyListeners_frame endpoint data s
  rw [h]

@[simp]
theorem notifyListeners_sleeps (endpoint : String) (data : V) (s : Sys V) :
    (notifyListeners endpoint data s).world.sleeps = s.world.sleeps := by
  obtain ⟨_, _, _, h⟩ := notifyListeners_frame endpoint data s
  rw [h]

@[simp]
theorem notifyListeners_storage (endpoint : String) (data : V) (s : Sys V) :
    (notifyListeners endpoint data s).world.storage = s.world.storage := by
  obtain ⟨_, _, _, h⟩ := notifyListeners_frame endpoint data s
  rw [h]

@[simp]
theorem notifyListeners_storageWrites (endpoint : String) (data : V) (s : Sys V) :
    (notifyListeners endpoint data s).world.storageWrites = s.world.storageWrites := by
  obtain ⟨_, _, _, h⟩ := notifyListeners_frame endpoint data s
  rw [h]

@[simp]
theorem notifyListeners_clockReads (endpoint : String) (data : V) (s : Sys V) :
    (notifyListeners endpoint data s).world.clockReads = s.world.clockReads := by
  obtain ⟨_, _, _, h⟩ := notifyListeners_frame endpoint data s
  rw [h]

@[simp]
theorem notifyListeners_mutationCalls (endpoint : String) (data : V) (s : Sys V) :
    (notifyListeners endpoint data s).world.mutationCalls = s.world.mutationCalls := by
  obtain ⟨_, _, _, h⟩ := notifyListeners_frame endpoint data s
  rw [h]

@[simp]
theorem invalidateCache_apiBaseUrl (env : Env V) (endpoint : String) (s : Sys V) :
    (invalidateCache env endpoint s).mgr.apiBaseUrl = s.mgr.apiBaseUrl := by
  obtain ⟨_, _, h⟩ := invalidateCache_frame env endpoint s
  rw [h]

@[simp]
theorem invalidateCache_isOnline (env : Env V) (endpoint : String) (s : Sys V) :
    (invalidateCache env endpoint s).mgr.isOnline = s.mgr.isOnline := by
  obtain ⟨_, _, h⟩ := invalidateCache_frame env endpoint s
  rw [h]

@[simp]
theorem invalidateCache_listeners (env : Env V) (endpoint : String) (s : Sys V) :
    (invalidateCache env endpoint s).mgr.listeners = s.mgr.listeners := by
  obtain ⟨_, _, h⟩ := invalidateCache_frame env endpoint s
  rw [h]

@[simp]
theorem invalidateCache_syncQueue (env : Env V) (endpoint : String) (s : Sys V) :
    (invalidateCache env endpoint s).mgr.syncQueue = s.mgr.syncQueue := by
  obtain ⟨_, _, h⟩ := invalidateCache_frame env endpoint s
  rw [h]

@[simp]
theorem invalidateCache_retryAttempts (env : Env V) (endpoint : String) (s : Sys V) :
    (invalidateCache env endpoint s).mgr.retryAttempts = s.mgr.retryAttempts := by
  obtain ⟨_, _, h⟩ := invalidateCache_frame env endpoint s
  rw [h]

@[simp]
theorem invalidateCache_retryDelay (env : Env V) (endpoint : String) (s : Sys V) :
    (invalidateCache env endpoint s).mgr.retryDelay = s.mgr.retryDelay := by
  obtain ⟨_, _, h⟩ := invalidateCache_frame env endpoint s
  rw [h]

@[simp]
theorem invalidateCache_fetchLog (env : Env V) (endpoint : String) (s : Sys V) :
    (invalidateCache env endpoint s).world.fetchLog = s.world.fetchLog := by
  obtain ⟨_, _, h⟩ := invalidateCache_frame env endpoint s
  rw [h]

@[simp]
theorem invalidateCache_sleeps (env : Env V) (endpoint : String) (s : Sys V) :
    (invalidateCache env endpoint s).world.sleeps = s.world.sleeps := by
  obtain ⟨_, _, h⟩ := invalidateCache_frame env endpoint s
  rw [h]

@[simp]
theorem invalidateCache_delivered (env : Env V) (endpoint : String) (s : Sys V) :
    (invalidateCache env endpoint s).world.delivered = s.world.delivered := by
  obtain ⟨_, _, h⟩ := invalidateCache_frame env endpoint s
  rw [h]

@[simp]
theorem invalidateCache_clockReads (env : Env V) (endpoint : String) (s : Sys V) :
    (invalidateCache env endpoint s).world.clockReads = s.world.clockReads := by
  obtain ⟨_, _, h⟩ := invalidateCache_frame env endpoint s
  rw [h]

@[simp]
theorem invalidateCache_mutationCalls (env : Env V) (endpoint : String) (s : Sys V) :
    (invalidateCache env endpoint s).world.mutationCalls = s.world.mutationCalls := by
  obtain ⟨_, _, h⟩ := invalidateCache_frame env endpoint s
  rw [h]

@[simp]
theorem saveToLocalStorage_apiBaseUrl (env : Env V) (s : Sys V) :
    (saveToLocalStorage env s).mgr.apiBaseUrl = s.mgr.apiBaseUrl := by
  obtain ⟨_, _, h⟩ := saveToLocalStorage_frame env s
  rw [h]

@[simp]
theorem saveToLocalStorage_isOnline (env : Env V) (s : Sys V) :
    (saveToLocalStorage env s).mgr.isOnline = s.mgr.isOnline := by
  obtain ⟨_, _, h⟩ := saveToLocalStorage_frame env s
  rw [h]

@[simp]
theorem saveToLocalStorage_dataCache (env : Env V) (s : Sys V) :
    (saveToLocalStorage env s).mgr.dataCache = s.mgr.dataCache := by
  obtain ⟨_, _, h⟩ := saveToLocalStorage_frame env s
  rw [h]

@[simp]
theorem saveToLocalStorage_listeners (env : Env V) (s : Sys V) :
    (saveToLocalStorage env s).mgr.listeners = s.mgr.listeners := by
  obtain ⟨_, _, h⟩ := saveToLocalStorage_frame env s
  rw [h]

@[simp]
theorem saveToLocalStorage_syncQueue (env : Env V) (s : Sys V) :
    (saveToLocalStorage env s).mgr.syncQueue = s.mgr.syncQueue := by
  obtain ⟨_, _, h⟩ := saveToLocalStorage_frame env s
  rw [h]

@[simp]
theorem saveToLocalStorage_retryAttempts (env : Env V) (s : Sys V) :
    (saveToLocalStorage env s).mgr.retryAttempts = s.mgr.retryAttempts := by
  obtain ⟨_, _, h⟩ := saveToLocalStorage_frame env s
  rw [h]

@[simp]
theorem saveToLocalStorage_retryDelay (env : Env V) (s : Sys V) :
    (saveToLocalStorage env s).mgr.retryDelay = s.mgr.retryDelay := by
  obtain ⟨_, _, h⟩ := saveToLocalStorage_frame env s
  rw [h]

@[simp]
theorem saveToLocalStorage_fetchLog (env : Env V) (s : Sys V) :
    (saveToLocalStorage env s).world.fetchLog = s.world.fetchLog := by
  obtain ⟨_, _, h⟩ := saveToLocalStorage_frame env s
  rw [h]

@[simp]
theorem saveToLocalStorage_sleeps (env : Env V) (s : Sys V) :
    (saveToLocalStorage env s).world.sleeps = s.world.sleeps := by
  obtain ⟨_, _, h⟩ := saveToLocalStorage_frame env s
  rw [h]

@[simp]
theorem saveToLocalStorage_delivered (env : Env V) (s : Sys V) :
    (saveToLocalStorage env s).world.delivered = s.world.delivered := by
  obtain ⟨_, _, h⟩ := saveToLocalStorage_frame env s
  rw [h]

@[simp]
theorem saveToLocalStorage_clockReads (env : Env V) (s : Sys V) :
    (saveToLocalStorage env s).world.clockReads = s.world.clockReads := by
  obtain ⟨_, _, h⟩ := saveToLocalStorage_frame env s
  rw [h]

@[simp]
theorem saveToLocalStorage_mutationCalls (env : Env V) (s : Sys V) :
    (saveToLocalStorage env s).world.mutationCalls = s.world.mutationCalls := by
  obtain ⟨_, _, h⟩ := saveToLocalStorage_frame env s
  rw [h]

@[simp]
theorem invalidateCache_dataCache (env : Env V) (endpoint : String) (s : Sys V) :
    (invalidateCache env endpoint s).mgr.dataCache =
      s.mgr.dataCache.filter (fun e => !invalidates endpoint e.1) := by
  obtain ⟨_, _, h⟩ := invalidateCache_frame env endpoint s
  rw [h]

theorem mutate_offline (env : Env V) (type : OpType) (endpoint : String) (payload : Option V)
    (options : FetchOptions V) (s : Sys V) (h : s.mgr.isOnline = false) :
    mutate env type endpoint payload options s =
      (.ok (.queued (env.now (s.world.clockReads + 1))),
        { mgr := { s.mgr with
            syncQueue := s.mgr.syncQueue ++ [⟨type, endpoint, payload, env.now s.world.clockReads⟩] }
          world := { s.world with
            mutationCalls := s.world.mutationCalls ++ [⟨type, endpoint, payload⟩]
            clockReads := s.world.clockReads + 2
            console := s.world.console ++ [.queuedOffline endpoint] } }) := by
  simp [mutate, dateNow, h, Sys.push, Sys.log]

theorem mutate_online (env : Env V) (type : OpType) (endpoint : String) (payload : Option V)
    (options : FetchOptions V) (s : Sys V) (h : s.mgr.isOnline = true) :
    mutate env type endpoint payload options s =
      match (retryOutcome env (requestOf (s.mgr.apiBaseUrl ++ endpoint) options)
          s.mgr.retryAttempts s.world.fetchLog.length).1 with
      | .ok response =>
        match response.body with
        | some result =>
          (.ok (.result result), notifyListeners endpoint result
            (invalidateCache env endpoint (afterFetch env type endpoint payload options s)))
        | none =>
          (.error .parse,
            ((afterFetch env type endpoint payload options s).log
              (.mutationError type endpoint)).push
              ⟨type, endpoint, payload, env.now s.world.clockReads⟩)
      | .error error =>
        (.error error,
          ((afterFetch env type endpoint payload options s).log
            (.mutationError type endpoint)).push
            ⟨type, endpoint, payload, env.now s.world.clockReads⟩) := by
  simp only [mutate, dateNow, h, fetchWithRetry_eq_outcome, afterFetch]
  cases (retryOutcome env (requestOf (s.mgr.apiBaseUrl ++ endpoint) options)
      s.mgr.retryAttempts s.world.fetchLog.length).1 with
  | error e => simp
  | ok response =>
    rcases response with ⟨status, statusText, _ | r⟩ <;> rfl

/-- What a mutation method does to the trace, the transport log, the queue and the
configuration, whatever the transport answers. -/
theorem mutate_summary (env : Env V) (type : OpType) (endpoint : String) (payload : Option V)
    (options : FetchOptions V) (s : Sys V) :
    ∃ k t,
      (mutate env type endpoint payload options s).2.world.fetchLog =
        s.world.fetchLog ++ List.replicate k (requestOf (s.mgr.apiBaseUrl ++ endpoint) options) ∧
      (if s.mgr.isOnline then 1 ≤ k ∧ k ≤ s.mgr.retryAttempts + 1 else k = 0) ∧
      (mutate env type endpoint payload options s).2.world.mutationCalls =
        s.world.mutationCalls ++ [⟨type, endpoint, payload⟩] ∧
      (mutate env type endpoint payload options s).2.mgr.syncQueue = s.mgr.syncQueue ++ t ∧
      (∀ e, (mutate env type endpoint payload options s).1 = .error e →
        t = [⟨type, endpoint, payload, env.now s.world.clockReads⟩]) ∧
      (∀ r, (mutate env type endpoint payload options s).1 = .ok r →
        t = if s.mgr.isOnline then []
          else [⟨type, endpoint, payload, env.now s.world.clockReads⟩]) ∧
      (mutate env type endpoint payload options s).2.mgr.isOnline = s.mgr.isOnline ∧
      (mutate env type endpoint payload options s).2.mgr.retryAttempts = s.mgr.retryAttempts ∧
      (mutate env type endpoint payload options s).2.mgr.apiBaseUrl = s.mgr.apiBaseUrl := by
  by_cases h : s.mgr.isOnline = true
  · have hle := retryOutcome_le env (requestOf (s.mgr.apiBaseUrl ++ endpoint) options)
      s.mgr.retryAttempts s.world.fetchLog.length
    rw [mutate_online env type endpoint payload options s h]
    cases hout : (retryOutcome env (requestOf (s.mgr.apiBaseUrl ++ endpoint) options)
        s.mgr.retryAttempts s.world.fetchLog.length).1 with
    | error e =>
      refine ⟨(retryOutcome env (requestOf (s.mgr.apiBaseUrl ++ endpoint) options)
        s.mgr.retryAttempts s.world.fetchLog.length).2 + 1,
        [⟨type, endpoint, payload, env.now s.world.clockReads⟩], ?_⟩
      simp [afterFetch, Sys.log, Sys.push, h]
      omega
    | ok response =>
      rcases response with ⟨status, statusText, _ | r⟩
      · refine ⟨(retryOutcome env (requestOf (s.mgr.apiBaseUrl ++ endpoint) options)
        s.mgr.retryAttempts s.world.fetchLog.length).2 + 1,
        [⟨type, endpoint, payload, env.now s.world.clockReads⟩], ?_⟩
        simp [afterFetch, Sys.log, Sys.push, h]
        omega
      · refine ⟨(retryOutcome env (requestOf (s.mgr.apiBaseUrl ++ endpoint) options)
        s.mgr.retryAttempts s.world.fetchLog.length).2 + 1, [], ?_⟩
        simp [afterFetch, h]
        omega
  · have h2 : s.mgr.isOnline = false := by simpa using h
    rw [mutate_offline env type endpoint payload options s h2]
    refine ⟨0, [⟨type, endpoint, payload, env.now s.world.clockReads⟩], ?_⟩
    simp [h2]

theorem replayCall_eq_mutate (env : Env V) (o : Operation V) (s : Sys V) :
    replayCall env o s =
      mutate env o.type o.endpoint o.replayPayload (optionsFor o.type o.payload) s := by
  rcases o with ⟨type, endpoint, payload, timestamp⟩
  cases type <;> rfl

/-- What one iteration of the drain does, whatever the transport answers. -/
theorem replay_summary (env : Env V) (s : Sys V) (o : Operation V) :
    ∃ k t,
      (replay env s o).world.fetchLog =
        s.world.fetchLog ++ List.replicate k (o.request s.mgr.apiBaseUrl) ∧
      (if s.mgr.isOnline then 1 ≤ k ∧ k ≤ s.mgr.retryAttempts + 1 else k = 0) ∧
      (replay env s o).world.mutationCalls = s.world.mutationCalls ++ [o.call] ∧
      (replay env s o).mgr.syncQueue = s.mgr.syncQueue ++ t ∧
      (∀ e, (replayCall env o s).1 = .error e →
        t = [⟨o.type, o.endpoint, o.replayPayload, env.now s.world.clockReads⟩, o]) ∧
      (∀ r, (replayCall env o s).1 = .ok r →
        t = if s.mgr.isOnline then []
          else [⟨o.type, o.endpoint, o.replayPayload, env.now s.world.clockReads⟩]) ∧
      (replay env s o).mgr.isOnline = s.mgr.isOnline ∧
      (replay env s o).mgr.retryAttempts = s.mgr.retryAttempts ∧
      (replay env s o).mgr.apiBaseUrl = s.mgr.apiBaseUrl := by
  obtain ⟨k, t, hlog, hk, hcalls, hq, herr, hok, h1, h2, h3⟩ :=
    mutate_summary env o.type o.endpoint o.replayPayload (optionsFor o.type o.payload) s
  unfold replay
  rw [replayCall_eq_mutate]
  rcases hm : mutate env o.type o.endpoint o.replayPayload (optionsFor o.type o.payload) s
    with ⟨res, s1⟩
  rw [hm] at hlog hcalls hq herr hok h1 h2 h3
  cases res with
  | ok r =>
    refine ⟨k, t, hlog, hk, hcalls, hq, fun e he => by simp at he, fun _ _ => hok r rfl,
      h1, h2, h3⟩
  | error e =>
    refine ⟨k, t ++ [o], ?_, hk, ?_, ?_, ?_, fun r hr => by simp at hr, ?_, ?_, ?_⟩
    · simpa [Sys.log, Sys.push] using hlog
    · simpa [Sys.log, Sys.push] using hcalls
    · simp only [Sys.log, Sys.push] at hq ⊢
      rw [hq, List.append_assoc]
    · intro e2 _
      rw [herr e rfl]
      rfl
    · simpa [Sys.log, Sys.push] using h1
    · simpa [Sys.log, Sys.push] using h2
    · simpa [Sys.log, Sys.push] using h3

/-- The trace and the transport log of the loop of a drain. -/
theorem drain_trace (env : Env V) (queue : List (Operation V)) (s : Sys V) :
    (queue.foldl (replay env) s).world.mutationCalls =
        s.world.mutationCalls ++ queue.map Operation.call ∧
    (queue.foldl (replay env) s).mgr.isOnline = s.mgr.isOnline ∧
    (queue.foldl (replay env) s).mgr.retryAttempts = s.mgr.retryAttempts ∧
    (queue.foldl (replay env) s).mgr.apiBaseUrl = s.mgr.apiBaseUrl ∧
    (∃ t, (queue.foldl (replay env) s).mgr.syncQueue = s.mgr.syncQueue ++ t) ∧
    ∃ ks : List Nat, ks.length = queue.length ∧
      (∀ k ∈ ks, if s.mgr.isOnline then 1 ≤ k ∧ k ≤ s.mgr.retryAttempts + 1 else k = 0) ∧
      (queue.foldl (replay env) s).world.fetchLog = s.world.fetchLog ++
        (List.zipWith (fun o k => List.replicate k (o.request s.mgr.apiBaseUrl)) queue ks).flatten
    := by
  induction queue generalizing s with
  | nil => exact ⟨by simp, rfl, rfl, rfl, ⟨[], by simp⟩, [], rfl, by simp, by simp⟩
  | cons o rest ih =>
    obtain ⟨k, t, hlog, hk, hcalls, hq, -, -, h1, h2, h3⟩ := replay_summary env s o
    obtain ⟨ihc, ih1, ih2, ih3, ⟨t2, iht⟩, ks, hlen, hks, ihlog⟩ := ih (replay env s o)
    simp only [List.foldl_cons]
    refine ⟨?_, ?_, ?_, ?_, ⟨t ++ t2, ?_⟩, k :: ks, ?_, ?_, ?_⟩
    · rw [ihc, hcalls]; simp
    · rw [ih1, h1]
    · rw [ih2, h2]
    · rw [ih3, h3]
    · rw [iht, hq, List.append_assoc]
    · simp [hlen]
    · intro k2 hk2
      rcases List.mem_cons.mp hk2 with rfl | hmem
      · exact hk
      · have := hks k2 hmem
        rwa [h1, h2] at this
    · rw [ihlog, hlog, h3]
      simp [List.append_assoc]

theorem processSyncQueue_empty (env : Env V) (s : Sys V) (h : s.mgr.syncQueue = []) :
    processSyncQueue env s = s := by
  simp [processSyncQueue, h]

theorem processSyncQueue_nonempty (env : Env V) (s : Sys V) (h : s.mgr.syncQueue ≠ []) :
    processSyncQueue env s =
      (s.mgr.syncQueue.foldl (replay env) (drainStart s)).log
        (if (s.mgr.syncQueue.foldl (replay env) (drainStart s)).mgr.syncQueue.length > 0 then
          .stillPending (s.mgr.syncQueue.foldl (replay env) (drainStart s)).mgr.syncQueue.length
        else .allSynced) := by
  have hlen : ¬ s.mgr.syncQueue.length = 0 := by
    simpa using h
  unfold processSyncQueue
  simp only [hlen, if_false]
  by_cases hq : (s.mgr.syncQueue.foldl (replay env) (drainStart s)).mgr.syncQueue.length > 0
  · rw [if_pos hq]
    unfold drainStart at hq ⊢
    rw [if_pos hq]
  · rw [if_neg hq]
    unfold drainStart at hq ⊢
    rw [if_neg hq]

theorem drainFailures_cons_ok (env : Env V) (o : Operation V) (rest : List (Operation V))
    (s : Sys V) (r : MutationResult V) (h : (replayCall env o s).1 = .ok r) :
    drainFailures env (o :: rest) s = drainFailures env rest (replay env s o) := by
  simp only [drainFailures, h]

theorem drainFailures_cons_error (env : Env V) (o : Operation V) (rest : List (Operation V))
    (s : Sys V) (e : Failure) (h : (replayCall env o s).1 = .error e) :
    drainFailures env (o :: rest) s = o :: drainFailures env rest (replay env s o) := by
  simp only [drainFailures, h]

/-- An operation whose replay raises is in the queue when the loop ends. -/
theorem drainFailures_subset (env : Env V) (queue : List (Operation V)) (s : Sys V)
    (o : Operation V) (h : o ∈ drainFailures env queue s) :
    o ∈ (queue.foldl (replay env) s).mgr.syncQueue := by
  induction queue generalizing s with
  | nil => simp [drainFailures] at h
  | cons o1 rest ih =>
    simp only [List.foldl_cons]
    obtain ⟨-, -, -, -, ⟨t2, ht2⟩, -⟩ := drain_trace env rest (replay env s o1)
    cases hres : (replayCall env o1 s).1 with
    | ok r =>
      rw [drainFailures_cons_ok env o1 rest s r hres] at h
      exact ih _ h
    | error e =>
      rw [drainFailures_cons_error env o1 rest s e hres] at h
      rcases List.mem_cons.mp h with rfl | hmem
      · obtain ⟨k, t, -, -, -, hq, herr, -⟩ := replay_summary env s o
        rw [ht2, hq, herr e hres]
        simp
      · exact ih _ hmem

/-- The queue the loop of a drain leaves, up to timestamps, when the manager is online: two
entries for every operation whose replay raised. -/
theorem drain_queue_online (env : Env V) (queue : List (Operation V)) (s : Sys V)
    (honline : s.mgr.isOnline = true) :
    ((queue.foldl (replay env) s).mgr.syncQueue).map Operation.call =
      s.mgr.syncQueue.map Operation.call ++
        (drainFailures env queue s).flatMap (fun o => [o.call, o.call]) := by
  induction queue generalizing s with
  | nil => simp [drainFailures]
  | cons o rest ih =>
    obtain ⟨k, t, -, -, -, hq, herr, hok, h1, -⟩ := replay_summary env s o
    simp only [List.foldl_cons]
    rw [ih (replay env s o) (by rw [h1, honline]), hq]
    cases hres : (replayCall env o s).1 with
    | ok r =>
      rw [drainFailures_cons_ok env o rest s r hres]
      simp [hok r hres, honline]
    | error e =>
      rw [drainFailures_cons_error env o rest s e hres, herr e hres]
      simp only [List.map_append, List.map_cons, List.map_nil, List.flatMap_cons,
        List.append_assoc]
      congr 1
      simp only [List.cons_append, List.nil_append, List.cons.injEq, and_true, true_and]
      rcases o with ⟨type, endpoint, payload, timestamp⟩
      cases type <;> simp [Operation.call, Operation.replayPayload]

theorem Mutation.run_eq_mutate (env : Env V) (m : Mutation V) (s : Sys V) :
    m.run env s =
      mutate env (m.operation 0).type (m.operation 0).endpoint (m.operation 0).payload
        (optionsFor (m.operation 0).type (m.operation 0).payload) s := by
  cases m <;> rfl

theorem retryOutcome_success (env : Env V) (req : Request V) (n start : Nat)
    (response : Response V) (h : env.fetch start req = .resolved response)
    (hok : response.ok = true) :
    retryOutcome env req n start = (.ok response, 0) := by
  cases n <;> simp [retryOutcome, h, FetchOutcome.result, hok]

/-- With a transport that answers every call with a parseable 2xx response, one iteration of
the drain of an online manager sends one request and leaves the queue as it is. -/
theorem replay_success (env : Env V) (s : Sys V) (o : Operation V)
    (honline : s.mgr.isOnline = true)
    (hok : ∀ i r, ∃ response, env.fetch i r = .resolved response ∧ response.ok = true ∧
      response.body ≠ none) :
    (replay env s o).world.fetchLog = s.world.fetchLog ++ [o.request s.mgr.apiBaseUrl] ∧
    (replay env s o).mgr.syncQueue = s.mgr.syncQueue ∧
    (replay env s o).mgr.isOnline = true ∧
    (replay env s o).mgr.apiBaseUrl = s.mgr.apiBaseUrl := by
  obtain ⟨response, hresp, hrok, hbody⟩ := hok s.world.fetchLog.length (o.request s.mgr.apiBaseUrl)
  obtain ⟨r, hr⟩ := Option.ne_none_iff_exists'.mp hbody
  have hout := retryOutcome_success env (o.request s.mgr.apiBaseUrl) s.mgr.retryAttempts
    s.world.fetchLog.length response hresp hrok
  unfold Operation.request at hout
  unfold replay
  rw [replayCall_eq_mutate, mutate_online env _ _ _ _ s honline, hout]
  rcases response with ⟨status, statusText, body⟩
  simp only at hr
  subst hr
  simp [afterFetch, hout, honline, Operation.request]

theorem drain_success (env : Env V) (queue : List (Operation V)) (s : Sys V)
    (honline : s.mgr.isOnline = true)
    (hok : ∀ i r, ∃ response, env.fetch i r = .resolved response ∧ response.ok = true ∧
      response.body ≠ none) :
    (queue.foldl (replay env) s).world.fetchLog =
      s.world.fetchLog ++ queue.map (Operation.request s.mgr.apiBaseUrl) ∧
    (queue.foldl (replay env) s).mgr.syncQueue = s.mgr.syncQueue := by
  induction queue generalizing s with
  | nil => simp
  | cons o rest ih =>
    obtain ⟨hlog, hq, h1, h3⟩ := replay_success env s o honline hok
    obtain ⟨ihlog, ihq⟩ := ih (replay env s o) h1
    simp only [List.foldl_cons]
    exact ⟨by rw [ihlog, hlog, h3]; simp, by rw [ihq, hq]⟩

/-- What a list of mutation calls does to an offline manager. -/
theorem issueAll_offline (env : Env V) (calls : List (Mutation V)) (s : Sys V)
    (hoff : s.mgr.isOnline = false) :
    (issueAll env calls s).mgr.isOnline = false ∧
    (issueAll env calls s).mgr.apiBaseUrl = s.mgr.apiBaseUrl ∧
    (issueAll env calls s).mgr.dataCache = s.mgr.dataCache ∧
    (issueAll env calls s).world.fetchLog = s.world.fetchLog ∧
    (issueAll env calls s).world.mutationCalls =
      s.world.mutationCalls ++ calls.map (fun m => (m.operation 0).call) ∧
    (issueAll env calls s).mgr.syncQueue.length = s.mgr.syncQueue.length + calls.length ∧
    (issueAll env calls s).mgr.syncQueue.map Operation.call =
      s.mgr.syncQueue.map Operation.call ++ calls.map (fun m => (m.operation 0).call) ∧
    (issueAll env calls s).mgr.syncQueue.map (Operation.request s.mgr.apiBaseUrl) =
      s.mgr.syncQueue.map (Operation.request s.mgr.apiBaseUrl) ++
        calls.map (fun m => (m.operation 0).request s.mgr.apiBaseUrl) := by
  induction calls generalizing s with
  | nil => simp [issueAll, hoff]
  | cons m rest ih =>
    have hstep : issueAll env (m :: rest) s = issueAll env rest (m.run env s).2 := rfl
    have hrun := mutate_offline env (m.operation 0).type (m.operation 0).endpoint
      (m.operation 0).payload (optionsFor (m.operation 0).type (m.operation 0).payload) s hoff
    rw [← Mutation.run_eq_mutate] at hrun
    have ho1 : (m.run env s).2.mgr.isOnline = false := by rw [hrun]; exact hoff
    have hb1 : (m.run env s).2.mgr.apiBaseUrl = s.mgr.apiBaseUrl := by rw [hrun]
    have hc1 : (m.run env s).2.mgr.dataCache = s.mgr.dataCache := by rw [hrun]
    have hl1 : (m.run env s).2.world.fetchLog = s.world.fetchLog := by rw [hrun]
    have hm1 : (m.run env s).2.world.mutationCalls =
        s.world.mutationCalls ++ [(m.operation 0).call] := by
      rw [hrun]
      cases m <;> rfl
    have hq1 : (m.run env s).2.mgr.syncQueue =
        s.mgr.syncQueue ++ [m.operation (env.now s.world.clockReads)] := by
      rw [hrun]
      cases m <;> rfl
    obtain ⟨h1, h2, h3, h4, h5, h6, h7, h8⟩ := ih (m.run env s).2 ho1
    rw [hb1] at h2 h8
    rw [hstep, h1, h2, h3, h4, h5, h6, h7, h8, hc1, hl1, hm1, hq1]
    refine ⟨rfl, rfl, rfl, rfl, ?_, ?_, ?_, ?_⟩
    · simp
    · simp; omega
    · cases m <;> simp [Mutation.operation, Operation.call, Operation.replayPayload]
    · cases m <;> simp [Mutation.operation, Operation.request]

/-! ## Lemmas on the drain, the cache and the notification -/

theorem drainFailures_sublist (env : Env V) (queue : List (Operation V)) (s : Sys V) :
    (drainFailures env queue s).Sublist queue := by
  induction queue generalizing s with
  | nil => simp [drainFailures]
  | cons o rest ih =>
    cases hres : (replayCall env o s).1 with
    | ok r =>
      rw [drainFailures_cons_ok env o rest s r hres]
      exact (ih _).cons _
    | error e =>
      rw [drainFailures_cons_error env o rest s e hres]
      exact (ih _).cons₂ _

theorem Mutation.run_eq (env : Env V) (m : Mutation V) (s : Sys V) :
    m.run env s =
      mutate env (m.operation 0).type m.endpoint (m.operation 0).payload m.options s := by
  cases m <;> rfl

theorem JsMap.has_filter_false {β : Type} (m : JsMap β) (p : String × β → Bool) (key : String)
    (h : ∀ v, p (key, v) = false) : JsMap.has (m.filter p) key = false := by
  induction m with
  | nil => rfl
  | cons e rest ih =>
    rcases e with ⟨k, v⟩
    by_cases hp : p (k, v) = true
    · have hk : (k == key) = false := by
        by_contra hcon
        have hkk : k = key := by simpa using hcon
        rw [hkk, h v] at hp
        exact Bool.false_ne_true hp
      simp only [List.filter_cons, hp, if_true]
      simp only [JsMap.has, JsMap.get, List.find?_cons, hk] at ih ⊢
      exact ih
    · simp only [List.filter_cons, hp]
      exact ih

theorem includes_append (a b c : String) : includes (a ++ b ++ c) b = true := by
  simp only [includes, decide_eq_true_eq, String.data_append]
  exact ⟨a.data, c.data, rfl⟩

theorem invokeCallback_quiet (c : Callback) (data : V) (s : Sys V)
    (h : c.unsubscribes = []) :
    (invokeCallback c data s).mgr = s.mgr ∧
    (invokeCallback c data s).world.delivered = s.world.delivered ++ [(c.id, data)] := by
  unfold invokeCallback
  simp only [h, callHandles]
  by_cases ht : c.throws = true <;> simp [ht, Sys.log]

theorem notifyLoop_quiet (endpoint : String) (data : V) (cbs : List Callback)
    (hquiet : ∀ c ∈ cbs, c.unsubscribes = []) (count k : Nat) (s : Sys V)
    (hget : s.mgr.listeners.get endpoint = some cbs) (hk : k + count ≤ cbs.length) :
    (notifyLoop endpoint data count k s).world.delivered =
      s.world.delivered ++ ((cbs.drop k).take count).map (fun c => (c.id, data)) ∧
    (notifyLoop endpoint data count k s).mgr.listeners = s.mgr.listeners := by
  induction count generalizing k s with
  | zero => simp [notifyLoop]
  | succ n ih =>
    have hlt : k < cbs.length := by omega
    have hidx : (s.mgr.listeners.get endpoint).bind (fun callbacks => callbacks[k]?) =
        some cbs[k] := by
      rw [hget]
      simp [List.getElem?_eq_getElem hlt]
    unfold notifyLoop
    rw [hidx]
    obtain ⟨hm, hd⟩ := invokeCallback_quiet cbs[k] data s (hquiet _ (List.getElem_mem hlt))
    obtain ⟨ih1, ih2⟩ := ih (k + 1) (invokeCallback cbs[k] data s) (by rw [hm]; exact hget)
      (by omega)
    simp only
    rw [ih1, ih2, hm, hd, List.append_assoc]
    refine ⟨?_, rfl⟩
    congr 1
    rw [List.drop_eq_getElem_cons hlt, List.take_succ_cons, List.map_cons]
    rfl

/-- With subscribers that call no unsubscribe handle, `notifyListeners` hands the data to
each of them once, in subscription order, and leaves the subscriptions as they are. -/
theorem notifyListeners_quiet (endpoint : String) (data : V) (s : Sys V)
    (hquiet : ∀ c ∈ (s.mgr.listeners.get endpoint).getD [], c.unsubscribes = []) :
    (notifyListeners endpoint data s).world.delivered =
      s.world.delivered ++
        ((s.mgr.listeners.get endpoint).getD []).map (fun c => (c.id, data)) ∧
    (notifyListeners endpoint data s).mgr.listeners = s.mgr.listeners := by
  unfold notifyListeners
  cases hget : s.mgr.listeners.get endpoint with
  | none => simp
  | some cbs =>
    rw [hget] at hquiet
    obtain ⟨h1, h2⟩ := notifyLoop_quiet endpoint data cbs hquiet cbs.length 0 s hget (by omega)
    simp only
    rw [h1, h2]
    simp

/-! ## Lemmas on the map, the reads, the keys and the storage -/

theorem JsMap.get_cons {β : Type} (e : String × β) (m : JsMap β) (key : String) :
    JsMap.get (e :: m) key = if e.1 == key then some e.2 else JsMap.get m key := by
  unfold JsMap.get
  rw [List.find?_cons]
  by_cases h : (e.1 == key) = true
  · simp [h]
  · simp [h]

theorem JsMap.get_eq_none_iff {β : Type} (m : JsMap β) (key : String) :
    JsMap.get m key = none ↔ key ∉ m.map Prod.fst := by
  induction m with
  | nil => simp [JsMap.get]
  | cons e rest ih =>
    rw [JsMap.get_cons]
    by_cases h : e.1 = key
    · simp [h]
    · have hb : (e.1 == key) = false := by simpa using h
      rw [hb]
      simp only [Bool.false_eq_true, if_false, ih, List.map_cons, List.mem_cons, not_or]
      exact ⟨fun hr => ⟨fun hk => h hk.symm, hr⟩, fun hr => hr.2⟩

theorem JsMap.get_map_replace {β : Type} (m : JsMap β) (key : String) (value : β) :
    JsMap.get (m.map (fun e => if e.1 == key then (key, value) else e)) key =
      (JsMap.get m key).map (fun _ => value) := by
  induction m with
  | nil => rfl
  | cons e rest ih =>
    rw [List.map_cons, JsMap.get_cons, JsMap.get_cons]
    by_cases h : (e.1 == key) = true
    · simp [h]
    · have hb : (e.1 == key) = false := by simpa using h
      simp only [hb, Bool.false_eq_true, if_false]
      exact ih

theorem JsMap.get_map_replace_other {β : Type} (m : JsMap β) (key other : String) (value : β)
    (hne : other ≠ key) :
    JsMap.get (m.map (fun e => if e.1 == key then (key, value) else e)) other =
      JsMap.get m other := by
  induction m with
  | nil => rfl
  | cons e rest ih =>
    rw [List.map_cons, JsMap.get_cons, JsMap.get_cons, ih]
    by_cases h : e.1 = key
    · have h1 : (e.1 == key) = true := by simpa using h
      have h2 : (key == other) = false := by simpa using fun hk : key = other => hne hk.symm
      have h3 : (e.1 == other) = false := by rw [h]; exact h2
      simp [h1, h2, h3]
    · have h1 : (e.1 == key) = false := by simpa using h
      simp [h1]

theorem JsMap.get_append {β : Type} (m n : JsMap β) (key : String) :
    JsMap.get (m ++ n) key = (JsMap.get m key).or (JsMap.get n key) := by
  induction m with
  | nil => simp [JsMap.get]
  | cons e rest ih =>
    rw [List.cons_append, JsMap.get_cons, JsMap.get_cons, ih]
    by_cases h : (e.1 == key) = true <;> simp [h]

/-- After `set(key, value)` the map gives `value` for `key`. -/
theorem JsMap.get_set_self {β : Type} (m : JsMap β) (key : String) (value : β) :
    JsMap.get (m.set key value) key = some value := by
  unfold JsMap.set
  by_cases h : m.has key = true
  · rw [if_pos h, JsMap.get_map_replace]
    obtain ⟨v, hv⟩ := Option.isSome_iff_exists.mp h
    rw [hv]
    rfl
  · rw [if_neg h, JsMap.get_append]
    have hn : JsMap.get m key = none := by
      simpa [JsMap.has] using h
    rw [hn, JsMap.get_cons]
    simp

/-- The call `set(key, value)` leaves what the map gives for every other key. -/
theorem JsMap.get_set_other {β : Type} (m : JsMap β) (key other : String) (value : β)
    (hne : other ≠ key) : JsMap.get (m.set key value) other = JsMap.get m other := by
  unfold JsMap.set
  by_cases h : m.has key = true
  · rw [if_pos h, JsMap.get_map_replace_other m key other value hne]
  · rw [if_neg h, JsMap.get_append, JsMap.get_cons]
    have h2 : (key == other) = false := by simpa using fun hk : key = other => hne hk.symm
    simp [h2, JsMap.get]

theorem JsMap.foldl_set_of_nodup {β : Type} (entries acc : List (String × β))
    (hnodup : (entries.map Prod.fst).Nodup)
    (hdisj : ∀ k ∈ entries.map Prod.fst, k ∉ acc.map Prod.fst) :
    entries.foldl (fun m e => JsMap.set m e.1 e.2) acc = acc ++ entries := by
  induction entries generalizing acc with
  | nil => simp
  | cons e rest ih =>
    have hk : e.1 ∉ acc.map Prod.fst := hdisj e.1 (by simp)
    have hset : JsMap.set acc e.1 e.2 = acc ++ [e] := by
      unfold JsMap.set
      have hn : JsMap.get acc e.1 = none := (JsMap.get_eq_none_iff acc e.1).mpr hk
      simp [JsMap.has, hn]
    rw [List.map_cons, List.nodup_cons] at hnodup
    rw [List.foldl_cons, hset, ih (acc ++ [e]) hnodup.2]
    · simp
    · intro k hkr
      rw [List.map_append, List.mem_append, not_or]
      refine ⟨hdisj k (by simp [hkr]), ?_⟩
      intro hmem
      have hke : k = e.1 := by simpa using hmem
      rw [hke] at hkr
      exact hnodup.1 hkr

/-- The call `new Map(entries)` on pairs with distinct keys gives the pairs in their order. -/
theorem JsMap.ofEntries_of_nodup {β : Type} (entries : List (String × β))
    (hnodup : (entries.map Prod.fst).Nodup) : JsMap.ofEntries entries = entries := by
  unfold JsMap.ofEntries
  rw [JsMap.foldl_set_of_nodup entries [] hnodup (by simp)]
  rfl

theorem getData_offline (env : Env V) (endpoint : String) (useCache : Bool) (s : Sys V)
    (hoff : s.mgr.isOnline = false) :
    getData env endpoint useCache s =
      match s.mgr.dataCache.get ("GET:" ++ endpoint) with
      | some v => (.ok v, if useCache then s else s.log (.offlineCached endpoint))
      | none => (.error .offline, s) := by
  unfold getData
  cases hget : s.mgr.dataCache.get ("GET:" ++ endpoint) with
  | none => simp [hoff, hget]
  | some v => cases useCache <;> simp [hoff, hget]

theorem getData_online (env : Env V) (endpoint : String) (useCache : Bool) (s : Sys V)
    (honline : s.mgr.isOnline = true)
    (hmiss : useCache = false ∨ s.mgr.dataCache.get ("GET:" ++ endpoint) = none) :
    getData env endpoint useCache s =
      match (retryOutcome env (requestOf (s.mgr.apiBaseUrl ++ endpoint) {})
          s.mgr.retryAttempts s.world.fetchLog.length).1 with
      | .ok response =>
        match response.body with
        | some data =>
          (.ok data, notifyListeners endpoint data (saveToLocalStorage env
            { afterRead env endpoint s with
              mgr := { s.mgr with dataCache := s.mgr.dataCache.set ("GET:" ++ endpoint) data } }))
        | none => getDataCatch endpoint .parse (afterRead env endpoint s)
      | .error error => getDataCatch endpoint error (afterRead env endpoint s) := by
  have hnone : (if useCache = true then s.mgr.dataCache.get ("GET:" ++ endpoint) else none)
      = none := by
    rcases hmiss with h | h
    · simp [h]
    · simp [h]
  have hon : ¬ (!s.mgr.isOnline) = true := by simp [honline]
  unfold getData
  simp only [hnone, if_neg hon, fetchWithRetry_eq_outcome, afterRead]
  cases (retryOutcome env (requestOf (s.mgr.apiBaseUrl ++ endpoint) {})
      s.mgr.retryAttempts s.world.fetchLog.length).1 with
  | error e => rfl
  | ok response => rcases response with ⟨status, statusText, _ | r⟩ <;> rfl

theorem getDataCatch_eq (endpoint : String) (error : Failure) (s : Sys V) :
    getDataCatch endpoint error s =
      (match s.mgr.dataCache.get ("GET:" ++ endpoint) with
        | some v => .ok v
        | none => .error error,
       s.log (.fetchError endpoint)) := by
  unfold getDataCatch
  simp only [Sys.log]
  cases s.mgr.dataCache.get ("GET:" ++ endpoint) <;> rfl

/-- A read that succeeds leaves its value in the cache under the key of the endpoint. -/
theorem getData_ok_cached (env : Env V) (endpoint : String) (useCache : Bool) (s : Sys V)
    (v : V) (hread : (getData env endpoint useCache s).1 = .ok v) :
    (getData env endpoint useCache s).2.mgr.dataCache.get ("GET:" ++ endpoint) = some v := by
  cases hhit : (if useCache = true then s.mgr.dataCache.get ("GET:" ++ endpoint) else none) with
  | some v1 =>
    have hrun : getData env endpoint useCache s = (.ok v1, s) := by
      unfold getData
      simp only [hhit]
    rw [hrun] at hread ⊢
    cases useCache with
    | false => simp at hhit
    | true =>
      simp only [if_true] at hhit
      simp only [Except.ok.injEq] at hread
      rw [hhit, hread]
  | none =>
    have hmiss : useCache = false ∨ s.mgr.dataCache.get ("GET:" ++ endpoint) = none := by
      cases useCache with
      | false => exact Or.inl rfl
      | true => exact Or.inr (by simpa using hhit)
    by_cases honline : s.mgr.isOnline = true
    · rw [getData_online env endpoint useCache s honline hmiss] at hread ⊢
      cases hout : (retryOutcome env (requestOf (s.mgr.apiBaseUrl ++ endpoint) {})
          s.mgr.retryAttempts s.world.fetchLog.length).1 with
      | error e =>
        rw [hout] at hread
        simp only [getDataCatch_eq] at hread ⊢
        cases hget : (afterRead env endpoint s).mgr.dataCache.get ("GET:" ++ endpoint) with
        | none => rw [hget] at hread; simp at hread
        | some v1 =>
          rw [hget] at hread
          simp only [Except.ok.injEq] at hread
          rw [← hread]
          exact hget
      | ok response =>
        rw [hout] at hread
        rcases response with ⟨status, statusText, _ | data⟩
        · simp only [getDataCatch_eq] at hread ⊢
          cases hget : (afterRead env endpoint s).mgr.dataCache.get ("GET:" ++ endpoint) with
          | none => rw [hget] at hread; simp at hread
          | some v1 =>
            rw [hget] at hread
            simp only [Except.ok.injEq] at hread
            rw [← hread]
            exact hget
        · simp only [Except.ok.injEq] at hread
          simp only [notifyListeners_dataCache, saveToLocalStorage_dataCache]
          rw [← hread]
          exact JsMap.get_set_self _ _ _
    · have hoff : s.mgr.isOnline = false := by simpa using honline
      rw [getData_offline env endpoint useCache s hoff] at hread ⊢
      cases hget : s.mgr.dataCache.get ("GET:" ++ endpoint) with
      | none => rw [hget] at hread; simp at hread
      | some v1 =>
        rw [hget] at hread
        simp only [Except.ok.injEq] at hread
        rw [← hread]
        cases useCache <;> exact hget

theorem splitChars_of_not_mem (sep : Char) (cs : List Char) (h : sep ∉ cs) :
    splitChars sep cs = [cs] := by
  induction cs with
  | nil => rfl
  | cons c rest ih =>
    have hc : c ≠ sep := fun hc => h (by simp [hc])
    have hrest : sep ∉ rest := fun hr => h (by simp [hr])
    simp [splitChars, hc, ih hrest]

theorem splitChars_append_sep (sep : Char) (pre rest : List Char) (h : sep ∉ pre) :
    splitChars sep (pre ++ sep :: rest) = pre :: splitChars sep rest := by
  induction pre with
  | nil => simp [splitChars]
  | cons c pre ih =>
    have hc : c ≠ sep := fun hc => h (by simp [hc])
    have hpre : sep ∉ pre := fun hr => h (by simp [hr])
    simp [splitChars, hc, ih hpre]

/-- The first piece of a split is a prefix of the text. -/
theorem splitChars_head_prefix (sep : Char) (cs : List Char) :
    ∃ seg tail, splitChars sep cs = seg :: tail ∧ seg <+: cs := by
  induction cs with
  | nil => exact ⟨[], [], rfl, List.prefix_refl _⟩
  | cons c rest ih =>
    obtain ⟨seg, tail, hsplit, hpre⟩ := ih
    by_cases hc : c = sep
    · exact ⟨[], splitChars sep rest, by simp [splitChars, hc], List.nil_prefix⟩
    · refine ⟨c :: seg, tail, by simp [splitChars, hc, hsplit], ?_⟩
      obtain ⟨t, ht⟩ := hpre
      exact ⟨t, by simp [ht]⟩

/-- The piece of a key that `invalidateCache` looks for in its argument is a prefix of the
text after the first colon. -/
theorem endpointSegment_prefix (method endpoint : String) (hm : ':' ∉ method.data) :
    (endpointSegment (method ++ ":" ++ endpoint)).data <+: endpoint.data := by
  obtain ⟨seg, tail, hsplit, hpre⟩ := splitChars_head_prefix ':' endpoint.data
  have hdata : (method ++ ":" ++ endpoint).data = method.data ++ ':' :: endpoint.data := by
    simp [String.data_append]
  unfold endpointSegment
  rw [hdata, splitChars_append_sep ':' _ _ hm, hsplit]
  exact hpre

/-- For a key `METHOD:endpoint` without further colon that piece is the whole endpoint. -/
theorem endpointSegment_eq (method endpoint : String) (hm : ':' ∉ method.data)
    (he : ':' ∉ endpoint.data) : endpointSegment (method ++ ":" ++ endpoint) = endpoint := by
  have hdata : (method ++ ":" ++ endpoint).data = method.data ++ ':' :: endpoint.data := by
    simp [String.data_append]
  unfold endpointSegment
  rw [hdata, splitChars_append_sep ':' _ _ hm, splitChars_of_not_mem ':' _ he]

theorem includes_of_prefix_left (a b c : String) (h : a.data <+: b.data) :
    includes (b ++ c) a = true := by
  simp only [includes, decide_eq_true_eq, String.data_append]
  obtain ⟨t, ht⟩ := h
  exact ⟨[], t ++ c.data, by simp [← ht]⟩

theorem saveToLocalStorage_storage (env : Env V) (s : Sys V)
    (hwrite : env.setItemThrows s.world.storageWrites = false) :
    (saveToLocalStorage env s).world.storage =
      some (.snapshot (snapshotOf env s.mgr.dataCache)) := by
  simp [saveToLocalStorage, hwrite]

/-- A cache of JSON-compatible values is stored as it is. -/
theorem snapshotOf_of_compatible (env : Env V) (cache : JsMap V)
    (hjson : ∀ e ∈ cache, env.jsonRoundTrip e.2 = e.2) : snapshotOf env cache = cache := by
  unfold snapshotOf
  rw [List.map_congr_left (g := id) (fun e he => by rw [hjson e he]; rfl), List.map_id]

theorem invalidateCache_storage (env : Env V) (argument : String) (s : Sys V)
    (hwrite : env.setItemThrows s.world.storageWrites = false) :
    (invalidateCache env argument s).world.storage =
      some (.snapshot (snapshotOf env (invalidateCache env argument s).mgr.dataCache)) := by
  unfold invalidateCache
  simp [saveToLocalStorage, hwrite]

/-- A read leaves the cache as it was unless it stores, and then the snapshot is written. -/
theorem getData_unchanged_or_written (env : Env V) (s : Sys V) (endpoint : String)
    (useCache : Bool) (hwrite : env.setItemThrows s.world.storageWrites = false) :
    (getData env endpoint useCache s).2.mgr.dataCache = s.mgr.dataCache ∨
    (getData env endpoint useCache s).2.world.storage =
      some (.snapshot (snapshotOf env (getData env endpoint useCache s).2.mgr.dataCache)) := by
  cases hhit : (if useCache = true then s.mgr.dataCache.get ("GET:" ++ endpoint) else none) with
  | some v1 =>
    have hrun : getData env endpoint useCache s = (.ok v1, s) := by
      unfold getData
      simp only [hhit]
    rw [hrun]
    exact Or.inl rfl
  | none =>
    have hmiss : useCache = false ∨ s.mgr.dataCache.get ("GET:" ++ endpoint) = none := by
      cases useCache with
      | false => exact Or.inl rfl
      | true => exact Or.inr (by simpa using hhit)
    by_cases honline : s.mgr.isOnline = true
    · rw [getData_online env endpoint useCache s honline hmiss]
      cases (retryOutcome env (requestOf (s.mgr.apiBaseUrl ++ endpoint) {})
          s.mgr.retryAttempts s.world.fetchLog.length).1 with
      | error e =>
        simp only [getDataCatch_eq]
        exact Or.inl rfl
      | ok response =>
        rcases response with ⟨status, statusText, _ | data⟩
        · simp only [getDataCatch_eq]
          exact Or.inl rfl
        · right
          simp only [notifyListeners_storage, notifyListeners_dataCache,
            saveToLocalStorage_dataCache]
          exact saveToLocalStorage_storage env _ hwrite
    · have hoff : s.mgr.isOnline = false := by simpa using honline
      rw [getData_offline env endpoint useCache s hoff]
      cases s.mgr.dataCache.get ("GET:" ++ endpoint) with
      | none => exact Or.inl rfl
      | some v1 => cases useCache <;> exact Or.inl rfl

/-- A mutation leaves the cache as it was unless it succeeds, and then the snapshot is
written. -/
theorem mutation_unchanged_or_written (env : Env V) (s : Sys V) (m : Mutation V)
    (hwrite : env.setItemThrows s.world.storageWrites = false) :
    ((m.run env s).2.mgr.dataCache = s.mgr.dataCache ∧ ∀ r, (m.run env s).1 ≠ .ok (.result r)) ∨
    (m.run env s).2.world.storage =
      some (.snapshot (snapshotOf env (m.run env s).2.mgr.dataCache)) := by
  rw [Mutation.run_eq]
  by_cases honline : s.mgr.isOnline = true
  · rw [mutate_online env _ _ _ _ s honline]
    cases (retryOutcome env (requestOf (s.mgr.apiBaseUrl ++ m.endpoint) m.options)
        s.mgr.retryAttempts s.world.fetchLog.length).1 with
    | error e => exact Or.inl ⟨rfl, fun r hr => by simp at hr⟩
    | ok response =>
      rcases response with ⟨status, statusText, _ | data⟩
      · exact Or.inl ⟨rfl, fun r hr => by simp at hr⟩
      · right
        simp only [notifyListeners_storage, notifyListeners_dataCache]
        exact invalidateCache_storage env _ _ hwrite
  · have hoff : s.mgr.isOnline = false := by simpa using honline
    rw [mutate_offline env _ _ _ _ s hoff]
    exact Or.inl ⟨rfl, fun r hr => by simp at hr⟩

theorem fetchRetrying_fail_bounded (env : Env V) (req : Request V) (delay n : Nat)
    (w : World V)
    (hfail : ∀ i, i ≤ n → (env.fetch (w.fetchLog.length + i) req).failure ≠ none) :
    ∃ e, (env.fetch (w.fetchLog.length + n) req).failure = some e ∧
      fetchRetrying env req delay n w =
        (.error e, { w with
          fetchLog := w.fetchLog ++ List.replicate (n + 1) req
          sleeps := w.sleeps ++ List.replicate n delay }) := by
  induction n generalizing w with
  | zero =>
    obtain ⟨e, he⟩ := Option.ne_none_iff_exists'.mp (hfail 0 (Nat.le_refl 0))
    exact ⟨e, he, by simp [fetchRetrying, attemptOnce_error env req w e he]⟩
  | succ n ih =>
    obtain ⟨e, he⟩ := Option.ne_none_iff_exists'.mp (hfail 0 (Nat.zero_le _))
    obtain ⟨e2, he2, hrun⟩ :=
      ih { w with fetchLog := w.fetchLog ++ [req], sleeps := w.sleeps ++ [delay] }
        (fun i hi => by
          have := hfail (i + 1) (by omega)
          simpa [Nat.add_assoc, Nat.add_comm 1 i] using this)
    refine ⟨e2, ?_, ?_⟩
    · simpa [Nat.add_assoc, Nat.add_comm 1 n] using he2
    · simp only [fetchRetrying, attemptOnce_error env req w e he, hrun]
      simp [List.replicate_succ, List.append_assoc]

/-! ## Lemmas on the flag, the subscriptions, the fetchers and the event loop -/

theorem loadFromLocalStorage_isOnline (s : Sys V) :
    (loadFromLocalStorage s).mgr.isOnline = s.mgr.isOnline := by
  unfold loadFromLocalStorage
  split
  · rfl
  · rfl
  · split <;> rfl
  · split <;> rfl

theorem getData_isOnline (env : Env V) (endpoint : String) (useCache : Bool) (s : Sys V) :
    (getData env endpoint useCache s).2.mgr.isOnline = s.mgr.isOnline := by
  unfold getData
  simp only
  split
  · rfl
  · split
    · split <;> rfl
    · split
      · rename_i response s1 hfetch
        have hs1 : s1.mgr = s.mgr := by
          have := congrArg (fun r => r.2.mgr) hfetch
          simpa [fetchWithRetry] using this.symm
        split
        · simp [hs1]
        · rw [getDataCatch_eq]
          simp [Sys.log, hs1]
      · rename_i error s1 hfetch
        have hs1 : s1.mgr = s.mgr := by
          have := congrArg (fun r => r.2.mgr) hfetch
          simpa [fetchWithRetry] using this.symm
        rw [getDataCatch_eq]
        simp [Sys.log, hs1]

theorem processSyncQueue_isOnline (env : Env V) (s : Sys V) :
    (processSyncQueue env s).mgr.isOnline = s.mgr.isOnline := by
  by_cases h : s.mgr.syncQueue = []
  · rw [processSyncQueue_empty env s h]
  · rw [processSyncQueue_nonempty env s h]
    have := (drain_trace env s.mgr.syncQueue (drainStart s)).2.1
    simpa [Sys.log, drainStart] using this

theorem callHandle_isOnline (endpoint : String) (id : Nat) (m m1 : ERPDataManager V)
    (h : callHandle endpoint id m = some m1) : m1.isOnline = m.isOnline := by
  unfold callHandle at h
  split at h
  · cases h
  · cases h; rfl

/-- What a callback that calls no unsubscribe handle does to the state. -/
theorem invokeCallback_eq_of_quiet (c : Callback) (data : V) (s : Sys V)
    (h : c.unsubscribes = []) :
    invokeCallback c data s =
      { s with world := { s.world with
          delivered := s.world.delivered ++ [(c.id, data)]
          console := s.world.console ++ if c.throws then [.listenerError] else [] } } := by
  unfold invokeCallback
  simp only [h, callHandles, Bool.false_or]
  cases c.throws <;> simp [Sys.log]

/-- The loop of `notifyListeners` from index `k` on, when the callbacks from that index on
call no unsubscribe handle: each is invoked once, in order, and each throwing one leaves one
console line. -/
theorem notifyLoop_quiet_from (endpoint : String) (data : V) (cbs : List Callback)
    (count k : Nat) (s : Sys V) (hget : s.mgr.listeners.get endpoint = some cbs)
    (hquiet : ∀ c ∈ cbs.drop k, c.unsubscribes = []) :
    notifyLoop endpoint data count k s =
      { s with world := { s.world with
          delivered := s.world.delivered ++
            ((cbs.drop k).take count).map (fun c => (c.id, data))
          console := s.world.console ++
            (((cbs.drop k).take count).filter (fun c => c.throws)).map
              (fun _ => ConsoleMsg.listenerError) } } := by
  induction count generalizing k s with
  | zero => simp [notifyLoop]
  | succ count ih =>
    unfold notifyLoop
    rw [hget]
    simp only [Option.some_bind]
    by_cases hk : k < cbs.length
    · have hc : cbs[k]? = some cbs[k] := List.getElem?_eq_getElem hk
      rw [hc]
      simp only
      have hdrop : cbs.drop k = cbs[k] :: cbs.drop (k + 1) := List.drop_eq_getElem_cons hk
      have hq : cbs[k].unsubscribes = [] := hquiet _ (by rw [hdrop]; exact List.mem_cons_self _ _)
      have hinv := invokeCallback_eq_of_quiet cbs[k] data s hq
      rw [ih (k + 1) (invokeCallback cbs[k] data s) (by rw [hinv]; exact hget)
        (fun c hc => hquiet c (by rw [hdrop]; exact List.mem_cons_of_mem _ hc))]
      rw [hinv, hdrop, List.take_succ_cons, List.map_cons]
      cases hthrows : cbs[k].throws <;>
        simp [List.filter_cons, hthrows, List.append_assoc]
    · have hnone : cbs[k]? = none := List.getElem?_eq_none (by omega)
      rw [hnone]
      simp only
      rw [ih (k + 1) s hget (fun c hc => by
        rw [List.drop_eq_nil_of_le (by omega)] at hc; cases hc)]
      rw [List.drop_eq_nil_of_le (Nat.le_of_not_lt hk), List.drop_eq_nil_of_le (by omega)]
      simp

/-- Calling unsubscribe handles adds no callback to any list. -/
theorem callHandles_subset (endpoint : String) (hs : List (String × Nat))
    (m : ERPDataManager V) :
    ∀ c ∈ ((callHandles hs m).2.listeners.get endpoint).getD [],
      c ∈ (m.listeners.get endpoint).getD [] := by
  induction hs generalizing m with
  | nil => intro c hc; simpa [callHandles] using hc
  | cons h hs ih =>
    intro c hc
    unfold callHandles at hc
    cases hcall : callHandle h.1 h.2 m with
    | none => rw [hcall] at hc; exact hc
    | some m1 =>
      rw [hcall] at hc
      have hc1 := ih m1 c hc
      unfold callHandle at hcall
      cases hget : m.listeners.get h.1 with
      | none => rw [hget] at hcall; cases hcall
      | some cbs =>
        rw [hget] at hcall
        simp only [Option.some.injEq] at hcall
        subst hcall
        simp only at hc1
        by_cases he : endpoint = h.1
        · subst he
          rw [JsMap.get_set_self] at hc1
          rw [hget]
          exact List.mem_of_mem_eraseP hc1
        · rw [JsMap.get_set_other _ _ _ _ he] at hc1
          exact hc1

theorem invokeCallback_delivered (c : Callback) (data : V) (s : Sys V) :
    (invokeCallback c data s).world.delivered = s.world.delivered ++ [(c.id, data)] := by
  unfold invokeCallback
  simp only
  split <;> rfl

theorem invokeCallback_subset (endpoint : String) (c : Callback) (data : V) (s : Sys V) :
    ∀ d ∈ ((invokeCallback c data s).mgr.listeners.get endpoint).getD [],
      d ∈ (s.mgr.listeners.get endpoint).getD [] := by
  intro d hd
  have h := callHandles_subset endpoint c.unsubscribes s.mgr d
  apply h
  unfold invokeCallback at hd
  simp only at hd
  split at hd <;> exact hd

/-- Every callback the loop of `notifyListeners` invokes is in the list of the endpoint when
the loop starts. -/
theorem notifyLoop_delivered_from (endpoint : String) (data : V) (count k : Nat) (s : Sys V) :
    ∃ D, (notifyLoop endpoint data count k s).world.delivered = s.world.delivered ++ D ∧
      ∀ p ∈ D, ∃ c ∈ (s.mgr.listeners.get endpoint).getD [], p = (c.id, data) := by
  induction count generalizing k s with
  | zero => exact ⟨[], by simp [notifyLoop], by simp⟩
  | succ count ih =>
    unfold notifyLoop
    cases hlook : (s.mgr.listeners.get endpoint).bind (fun callbacks => callbacks[k]?) with
    | none => exact ih (k + 1) s
    | some c =>
      simp only
      obtain ⟨D, hD, hfrom⟩ := ih (k + 1) (invokeCallback c data s)
      refine ⟨(c.id, data) :: D, ?_, ?_⟩
      · rw [hD, invokeCallback_delivered]
        simp
      · intro p hp
        rcases List.mem_cons.mp hp with rfl | hp
        · refine ⟨c, ?_, rfl⟩
          cases hget : s.mgr.listeners.get endpoint with
          | none => rw [hget] at hlook; cases hlook
          | some cbs =>
            rw [hget] at hlook
            simp only [Option.some_bind] at hlook
            exact List.getElem?_mem hlook
        · obtain ⟨d, hd, rfl⟩ := hfrom p hp
          exact ⟨d, invokeCallback_subset endpoint c data s d hd, rfl⟩

theorem notifyListeners_delivered_from (endpoint : String) (data : V) (s : Sys V) :
    ∃ D, (notifyListeners endpoint data s).world.delivered = s.world.delivered ++ D ∧
      ∀ p ∈ D, ∃ c ∈ (s.mgr.listeners.get endpoint).getD [], p = (c.id, data) := by
  unfold notifyListeners
  split
  · exact ⟨[], by simp, by simp⟩
  · exact notifyLoop_delivered_from endpoint data _ 0 s

theorem JsMap.set_set {β : Type} (m : JsMap β) (key : String) (x y : β) :
    (m.set key x).set key y = m.set key y := by
  have hhas : (m.set key x).has key = true := by
    simp [JsMap.has, JsMap.get_set_self]
  rw [JsMap.set, hhas, if_pos rfl]
  unfold JsMap.set
  by_cases h : m.has key = true
  · rw [if_pos h, if_pos h, List.map_map]
    apply List.map_congr_left
    intro e _
    by_cases he : (e.1 == key) = true
    · simp only [Function.comp, he, if_true, BEq.refl]
    · have hf : (e.1 == key) = false := by simpa using he
      simp only [Function.comp, hf, Bool.false_eq_true, if_false]
  · rw [if_neg h, if_neg h, List.map_append]
    have hnone : JsMap.get m key = none := by
      simpa [JsMap.has] using h
    have hnot : key ∉ m.map Prod.fst := (JsMap.get_eq_none_iff m key).mp hnone
    congr 1
    · rw [List.map_congr_left, List.map_id]
      intro e he
      have : ¬ (e.1 == key) = true := by
        intro hk
        apply hnot
        have hk1 : e.1 = key := by simpa using hk
        exact hk1 ▸ List.mem_map_of_mem Prod.fst he
      simp [this]
    · simp

/-- What `subscribe` does to the map of listeners. -/
theorem subscribe_listeners (endpoint : String) (callback : Callback) (s : Sys V) :
    (subscribe endpoint callback s).mgr.listeners.get endpoint =
      some ((s.mgr.listeners.get endpoint).getD [] ++ [callback]) ∧
    ∀ other, other ≠ endpoint →
      (subscribe endpoint callback s).mgr.listeners.get other = s.mgr.listeners.get other := by
  unfold subscribe
  simp only
  constructor
  · rw [JsMap.get_set_self]
    by_cases h : s.mgr.listeners.has endpoint = true
    · rw [if_pos h]
    · rw [if_neg h, JsMap.get_set_self]
      have hnone : s.mgr.listeners.get endpoint = none := by simpa [JsMap.has] using h
      rw [hnone]
      rfl
  · intro other hne
    rw [JsMap.get_set_other _ _ _ _ hne]
    by_cases h : s.mgr.listeners.has endpoint = true
    · rw [if_pos h]
    · rw [if_neg h, JsMap.get_set_other _ _ _ _ hne]

/-- The handle of a callback that is last in its list and has no earlier occurrence removes
it; a second call leaves the manager as it is. -/
theorem callHandle_last (endpoint : String) (callback : Callback) (before : List Callback)
    (m : ERPDataManager V) (hget : m.listeners.get endpoint = some (before ++ [callback]))
    (hfresh : ∀ c ∈ before, c.id ≠ callback.id) :
    callHandle endpoint callback.id m =
        some { m with listeners := m.listeners.set endpoint before } ∧
    callHandle endpoint callback.id { m with listeners := m.listeners.set endpoint before } =
        some { m with listeners := m.listeners.set endpoint before } := by
  have hnot : ∀ c ∈ before, ¬ (c.id == callback.id) = true := by
    intro c hc
    simpa using hfresh c hc
  constructor
  · unfold callHandle
    rw [hget]
    simp only
    rw [List.eraseP_append_right _ hnot]
    simp [List.eraseP_cons]
  · unfold callHandle
    simp only
    rw [JsMap.get_set_self]
    simp only
    rw [List.eraseP_of_forall_not hnot, JsMap.set_set]

/-- The retry recursion stops at the first call that succeeds, and only a recursion whose
calls all fail uses every retry. -/
theorem retryOutcome_spec (env : Env V) (req : Request V) (n start : Nat) :
    (retryOutcome env req n start).2 ≤ n ∧
    (retryOutcome env req n start).1 =
      (env.fetch (start + (retryOutcome env req n start).2) req).result ∧
    (∀ i, i < (retryOutcome env req n start).2 →
      ∃ e, (env.fetch (start + i) req).result = .error e) ∧
    (∀ e, (retryOutcome env req n start).1 = .error e →
      (retryOutcome env req n start).2 = n) := by
  induction n generalizing start with
  | zero => simp [retryOutcome]
  | succ n ih =>
    simp only [retryOutcome]
    cases hres : (env.fetch start req).result with
    | ok response => simp [hres]
    | error e0 =>
      obtain ⟨hle, hlast, hbefore, hall⟩ := ih (start + 1)
      simp only
      refine ⟨by omega, ?_, ?_, ?_⟩
      · rw [hlast]
        congr 2
        omega
      · intro i hi
        cases i with
        | zero => exact ⟨e0, hres⟩
        | succ i =>
          obtain ⟨e, he⟩ := hbefore i (by omega)
          refine ⟨e, ?_⟩
          rw [← he]
          congr 2
          omega
      · intro e he
        rw [hall e he]

/-- Only a response with the `ok` flag leaves the `try` block of `fetchWithRetry`. -/
theorem FetchOutcome.result_ok (outcome : FetchOutcome V) (response : Response V)
    (h : outcome.result = .ok response) : response.ok = true := by
  cases outcome with
  | rejected msg => simp [FetchOutcome.result] at h
  | resolved r =>
    simp only [FetchOutcome.result] at h
    split at h
    · rename_i hr
      cases h
      exact hr
    · cases h

/-- The requests of a drain of an online manager include the request of every operation of
the queue. -/
theorem drain_sends (env : Env V) (queue : List (Operation V)) (s : Sys V) (o : Operation V)
    (ho : o ∈ queue) (honline : s.mgr.isOnline = true) :
    o.request s.mgr.apiBaseUrl ∈
      ((queue.foldl (replay env) s).world.fetchLog).drop s.world.fetchLog.length := by
  obtain ⟨_, _, _, _, _, ks, hlen, hks, hlog⟩ := drain_trace env queue s
  rw [hlog, List.drop_left]
  obtain ⟨i, hi, rfl⟩ := List.getElem_of_mem ho
  rw [List.mem_flatten]
  have hik : i < ks.length := by omega
  refine ⟨List.replicate ks[i] (queue[i].request s.mgr.apiBaseUrl), ?_, ?_⟩
  · have hz : i < (List.zipWith (fun o k => List.replicate k (o.request s.mgr.apiBaseUrl))
        queue ks).length := by
      simp [List.length_zipWith]; omega
    have := List.getElem_mem hz
    simpa [List.getElem_zipWith] using this
  · have h1 := hks ks[i] (List.getElem_mem hik)
    rw [if_pos honline] at h1
    rw [List.mem_replicate]
    exact ⟨by omega, rfl⟩

theorem Fetcher.run_eq_fetchOrFallback (env : Env V) (emptyArray nullValue : V) (f : Fetcher)
    (params : String) (s : Sys V) :
    f.run env emptyArray nullValue params s =
      fetchOrFallback env f.what f.path (f.fallback emptyArray nullValue) params s := by
  cases f <;> rfl

theorem fetchOrFallback_eq (env : Env V) (what path : String) (fallback : V)
    (params : String) (s : Sys V) :
    fetchOrFallback env what path fallback params s =
      match (getData env (path ++ "?" ++ params) true s).1 with
      | .ok v => (v, (getData env (path ++ "?" ++ params) true s).2)
      | .error _ =>
        (fallback, (getData env (path ++ "?" ++ params) true s).2.log (.fetcherError what)) := by
  unfold fetchOrFallback
  cases h : getData env (path ++ "?" ++ params) true s with
  | mk r s1 => cases r <;> rfl

/-- A run of characters without `c` that occurs in a text with a `c` occurs before or after
that `c`. -/
theorem occurs_beside {α : Type} (c : α) (a x y : List α) (hc : c ∉ a)
    (h : a <:+: x ++ c :: y) : a <:+: x ∨ a <:+: y := by
  obtain ⟨s, t, h⟩ := h
  rw [List.append_assoc, List.append_eq_append_iff] at h
  rcases h with ⟨a1, hx, hat⟩ | ⟨c1, hs, hcy⟩
  · rw [List.append_eq_append_iff] at hat
    rcases hat with ⟨a2, ha1, _⟩ | ⟨c2, ha, hcy⟩
    · left
      exact ⟨s, a2, by rw [hx, ha1, List.append_assoc]⟩
    · cases c2 with
      | nil =>
        left
        refine ⟨s, [], ?_⟩
        rw [hx, ha]
        simp
      | cons d c2 =>
        exfalso
        simp only [List.cons_append, List.cons.injEq] at hcy
        apply hc
        rw [ha, hcy.1]
        simp
  · cases c1 with
    | nil =>
      cases a with
      | nil => left; exact ⟨[], x, rfl⟩
      | cons d a =>
        exfalso
        simp only [List.nil_append, List.cons_append, List.cons.injEq] at hcy
        apply hc
        rw [hcy.1]
        simp
    | cons d c1 =>
      right
      simp only [List.cons_append, List.cons.injEq] at hcy
      exact ⟨c1, t, by rw [hcy.2, List.append_assoc]⟩

/-- The test of `invalidateCache` does not match the key of the filterless query of a
collection when the argument is an item of that collection. -/
theorem invalidates_item_query (collection id : String)
    (hc1 : '?' ∉ collection.data) (hc2 : ':' ∉ collection.data)
    (hi1 : '?' ∉ id.data) (hi2 : ':' ∉ id.data) :
    invalidates (collection ++ "/" ++ id) ("GET:" ++ collection ++ "?") = false := by
  have hA : (collection ++ "/" ++ id).data = collection.data ++ '/' :: id.data := by
    simp [String.data_append]
  have hcolon : ':' ∉ (collection ++ "/" ++ id).data := by
    rw [hA]; simp [hc2, hi2]
  have hquery : '?' ∉ (collection ++ "/" ++ id).data := by
    rw [hA]; simp [hc1, hi1]
  have hslash : '/' ∈ (collection ++ "/" ++ id).data := by
    rw [hA]; simp
  have hseg : endpointSegment ("GET:" ++ collection ++ "?") = collection ++ "?" := by
    have := endpointSegment_eq "GET" (collection ++ "?") (by decide)
      (by simp [String.data_append, hc2])
    rw [← this]
    congr 1
  unfold invalidates
  rw [hseg, Bool.or_eq_false_iff]
  constructor
  · unfold includes
    rw [decide_eq_false_iff_not]
    intro hin
    have hkey : ("GET:" ++ collection ++ "?").data =
        ['G', 'E', 'T'] ++ ':' :: (collection.data ++ '?' :: []) := by
      simp [String.data_append]
    rw [hkey] at hin
    rcases occurs_beside ':' _ _ _ hcolon hin with h | h
    · have := h.subset hslash
      revert this
      decide
    · rcases occurs_beside '?' _ _ _ hquery h with h | h
      · have hlen := h.length_le
        rw [hA] at hlen
        simp at hlen
      · have := h.subset hslash
        simp at this
  · unfold includes
    rw [decide_eq_false_iff_not]
    intro hin
    apply hquery
    apply hin.subset
    simp [String.data_append]

theorem JsMap.get_filter_of_keep {β : Type} (m : JsMap β) (p : String × β → Bool)
    (key : String) (h : ∀ v, p (key, v) = true) :
    JsMap.get (m.filter p) key = JsMap.get m key := by
  induction m with
  | nil => rfl
  | cons e m ih =>
    by_cases hk : (e.1 == key) = true
    · have hek : e.1 = key := by simpa using hk
      have hp : p e = true := by
        have := h e.2
        rw [← hek] at this
        exact this
      rw [List.filter_cons_of_pos hp, JsMap.get_cons, JsMap.get_cons, if_pos hk, if_pos hk]
    · by_cases hp : p e = true
      · rw [List.filter_cons_of_pos hp, JsMap.get_cons, JsMap.get_cons, if_neg hk, if_neg hk, ih]
      · rw [List.filter_cons_of_neg hp, JsMap.get_cons, if_neg hk, ih]

/-- A mutation method leaves the cache as it was or as `invalidateCache` on its endpoint
leaves it. -/
theorem mutate_dataCache (env : Env V) (type : OpType) (endpoint : String)
    (payload : Option V) (options : FetchOptions V) (s : Sys V) :
    (mutate env type endpoint payload options s).2.mgr.dataCache = s.mgr.dataCache ∨
    (mutate env type endpoint payload options s).2.mgr.dataCache =
      s.mgr.dataCache.filter (fun e => !invalidates endpoint e.1) := by
  cases honline : s.mgr.isOnline with
  | false =>
    left
    rw [mutate_offline env _ _ _ _ s honline]
  | true =>
    rw [mutate_online env _ _ _ _ s honline]
    split
    · split
      · right
        simp [afterFetch]
      · left
        rfl
    · left
      rfl

theorem processSyncQueueStart_eq (env : Env V) (s : Sys V) (honline : s.mgr.isOnline = true) :
    processSyncQueueStart env s =
      match s.mgr.syncQueue with
      | [] => (s, none)
      | o :: rest =>
        ({ mgr := { s.mgr with syncQueue := [] }
           world := { s.world with
             console := s.world.console ++ [.processing (rest.length + 1)]
             mutationCalls := s.world.mutationCalls ++ [o.call]
             clockReads := s.world.clockReads + 1
             fetchLog := s.world.fetchLog ++ [o.request s.mgr.apiBaseUrl] } },
         some ⟨o, rest⟩) := by
  unfold processSyncQueueStart
  cases hq : s.mgr.syncQueue with
  | nil => rfl
  | cons o rest =>
    simp only
    rcases o with ⟨type, endpoint, payload, timestamp⟩
    cases type <;>
      simp [replayStart, mutateStart, Sys.log, honline, dateNow, Operation.call,
        Operation.request, Operation.replayPayload, optionsFor, requestOf, hq]

/-- The request the turn of an `online` signal sends is the first request of the drain that
`processSyncQueue` runs to its end. -/
theorem processSyncQueueStart_prefix (env : Env V) (s : Sys V)
    (honline : s.mgr.isOnline = true) :
    (processSyncQueueStart env s).1.world.fetchLog <+: (processSyncQueue env s).world.fetchLog
    := by
  rw [processSyncQueueStart_eq env s honline]
  cases hq : s.mgr.syncQueue with
  | nil => rw [processSyncQueue_empty env s hq]
  | cons o rest =>
    have hne : s.mgr.syncQueue ≠ [] := by rw [hq]; simp
    rw [processSyncQueue_nonempty env s hne]
    obtain ⟨_, _, _, _, _, ks, hlen, hks, hlog⟩ := drain_trace env s.mgr.syncQueue (drainStart s)
    have hfl : ∀ (t : Sys V) (msg : ConsoleMsg), (t.log msg).world.fetchLog = t.world.fetchLog :=
      fun _ _ => rfl
    rw [hfl, hlog, hq]
    rw [hq] at hlen
    cases ks with
    | nil => simp at hlen
    | cons k ks =>
      have hk := hks k (List.mem_cons_self _ _)
      have hon : (drainStart s).mgr.isOnline = true := honline
      rw [if_pos hon] at hk
      obtain ⟨j, rfl⟩ : ∃ j, k = j + 1 := ⟨k - 1, by omega⟩
      simp only [List.zipWith_cons_cons, List.flatten_cons, List.replicate_succ]
      refine ⟨List.replicate j (o.request (drainStart s).mgr.apiBaseUrl) ++
        (List.zipWith (fun o k => List.replicate k (o.request (drainStart s).mgr.apiBaseUrl))
          rest ks).flatten, ?_⟩
      simp [drainStart, Sys.log]

/-- The request a replay sends, field by field. -/
theorem Operation.request_fields (apiBaseUrl : String) (o : Operation V) :
    o.request apiBaseUrl =
      { url := apiBaseUrl ++ o.endpoint
        options :=
          match o.type with
          | .POST =>
            { method := .POST, headers := [("Content-Type", "application/json")],
              body := o.payload }
          | .PUT =>
            { method := .PUT, headers := [("Content-Type", "application/json")],
              body := o.payload }
          | .DELETE => { method := .DELETE, headers := [], body := none }
        timeout := 5000 } := by
  rcases o with ⟨type, endpoint, payload, timestamp⟩
  cases type <;> rfl

theorem key_ne_of_endpoint_ne (other endpoint : String) (h : other ≠ endpoint) :
    "GET:" ++ endpoint ≠ "GET:" ++ other := by
  intro heq
  apply h
  have hd := congrArg String.data heq
  simp only [String.data_append] at hd
  have := List.append_cancel_left hd
  exact (String.ext this).symm

/-- A read of one endpoint leaves what the cache holds for another one. -/
theorem getData_get_other (env : Env V) (other endpoint : String) (useCache : Bool)
    (s : Sys V) (h : other ≠ endpoint) :
    (getData env other useCache s).2.mgr.dataCache.get ("GET:" ++ endpoint) =
      s.mgr.dataCache.get ("GET:" ++ endpoint) := by
  cases hhit : (if useCache = true then s.mgr.dataCache.get ("GET:" ++ other) else none) with
  | some v1 =>
    have hrun : getData env other useCache s = (.ok v1, s) := by
      unfold getData
      simp only [hhit]
    rw [hrun]
  | none =>
    have hmiss : useCache = false ∨ s.mgr.dataCache.get ("GET:" ++ other) = none := by
      cases useCache with
      | false => exact Or.inl rfl
      | true => exact Or.inr (by simpa using hhit)
    by_cases honline : s.mgr.isOnline = true
    · rw [getData_online env other useCache s honline hmiss]
      cases (retryOutcome env (requestOf (s.mgr.apiBaseUrl ++ other) {})
          s.mgr.retryAttempts s.world.fetchLog.length).1 with
      | error e =>
        simp only [getDataCatch_eq]
        rfl
      | ok response =>
        rcases response with ⟨status, statusText, _ | data⟩
        · simp only [getDataCatch_eq]
          rfl
        · simp only [notifyListeners_dataCache, saveToLocalStorage_dataCache]
          exact JsMap.get_set_other _ _ _ _ (key_ne_of_endpoint_ne other endpoint h)
    · have hoff : s.mgr.isOnline = false := by simpa using honline
      rw [getData_offline env other useCache s hoff]
      cases s.mgr.dataCache.get ("GET:" ++ other) with
      | none => rfl
      | some v1 => cases useCache <;> rfl

/-- A mutation that does not return a result of the server leaves the cache as it was. -/
theorem mutation_dataCache_of_no_result (env : Env V) (s : Sys V) (m : Mutation V)
    (h : ∀ r, (m.run env s).1 ≠ .ok (.result r)) :
    (m.run env s).2.mgr.dataCache = s.mgr.dataCache := by
  rw [Mutation.run_eq] at h ⊢
  by_cases honline : s.mgr.isOnline = true
  · rw [mutate_online env _ _ _ _ s honline] at h ⊢
    cases hout : (retryOutcome env (requestOf (s.mgr.apiBaseUrl ++ m.endpoint) m.options)
        s.mgr.retryAttempts s.world.fetchLog.length).1 with
    | error e => rfl
    | ok response =>
      rcases response with ⟨status, statusText, _ | data⟩
      · rfl
      · rw [hout] at h
        exact absurd rfl (h data)
  · have hoff : s.mgr.isOnline = false := by simpa using honline
    rw [mutate_offline env _ _ _ _ s hoff]

/-- An operation that spares the entry of an endpoint leaves a value cached for it in
place. -/
theorem Action.run_spares (env : Env V) (endpoint : String) (v : V) (a : Action V)
    (s : Sys V) (hget : s.mgr.dataCache.get ("GET:" ++ endpoint) = some v)
    (h : a.spares env endpoint s = true) :
    (a.run env s).mgr.dataCache.get ("GET:" ++ endpoint) = some v := by
  cases a with
  | getData other useCache =>
    simp only [Action.run]
    by_cases hne : other = endpoint
    · subst hne
      have huse : useCache = true := by
        simpa [Action.spares] using h
      subst huse
      have hrun : ERP.getData env other true s = (.ok v, s) := by
        unfold ERP.getData
        simp only [if_true, hget]
      rw [hrun]
      exact hget
    · rw [getData_get_other env other endpoint useCache s hne]
      exact hget
  | mutation m =>
    simp only [Action.run]
    rw [mutation_dataCache_of_no_result env s m]
    · exact hget
    · intro r hr
      simp [Action.spares, hr] at h
  | subscribe e callback => exact hget
  | unsubscribe e callbackId =>
    simp only [Action.run]
    cases hcall : callHandle e callbackId s.mgr with
    | none => exact hget
    | some m1 =>
      unfold callHandle at hcall
      split at hcall
      · cases hcall
      · cases hcall
        exact hget
  | notifyListeners e data =>
    simp only [Action.run, notifyListeners_dataCache]
    exact hget
  | getStatus => exact hget
  | online =>
    have hq : s.mgr.syncQueue = [] := by
      simpa [Action.spares] using h
    simp only [Action.run, onOnline]
    rw [processSyncQueue_empty _ _ (by simpa [Sys.log] using hq)]
    exact hget
  | offline => exact hget

theorem runAll_spares (env : Env V) (endpoint : String) (v : V) (actions : List (Action V))
    (s : Sys V) (hget : s.mgr.dataCache.get ("GET:" ++ endpoint) = some v)
    (h : allSpare env endpoint actions s = true) :
    (runAll env actions s).mgr.dataCache.get ("GET:" ++ endpoint) = some v := by
  induction actions generalizing s with
  | nil => exact hget
  | cons a rest ih =>
    simp only [allSpare, Bool.and_eq_true] at h
    exact ih (a.run env s) (Action.run_spares env endpoint v a s hget h.1) h.2

/-! ## C1: retry bound -/

/-- C1, as stated, fails: a manager built by the constructor (retry limit 3) whose transport
rejects every call makes 4 transport calls, not 3, before it raises the network error. -/
theorem retry_bound_three_calls_refuted :
    (ERPDataManager.new ({} : World Nat)).mgr.retryAttempts = 3 ∧
    (fetchWithRetry (envAlwaysRejects Nat "down") "/api/x" {} 0
        (ERPDataManager.new {})).1 = .error (.network "down") ∧
    (fetchWithRetry (envAlwaysRejects Nat "down") "/api/x" {} 0
        (ERPDataManager.new {})).2.world.fetchLog.length = 4 ∧
    ¬ (fetchWithRetry (envAlwaysRejects Nat "down") "/api/x" {} 0
        (ERPDataManager.new {})).2.world.fetchLog.length = 3 := by
  decide

/-- C1, amended: with the retry limit 3 and a transport that rejects every call with a
network error, `fetchWithRetry` called with `attempt = 0` makes exactly 4 transport calls
(the first and 3 retries), all of the same request, waits `retryDelay` 3 times, changes
nothing else, and raises the network error of the fourth call. -/
theorem fetchWithRetry_network_failure_four_calls (env : Env V) (url : String)
    (options : FetchOptions V) (s : Sys V) (hlimit : s.mgr.retryAttempts = 3)
    (hfail : ∀ i r, ∃ msg, env.fetch i r = .rejected msg) :
    ∃ msg, env.fetch (s.world.fetchLog.length + 3) (requestOf url options) = .rejected msg ∧
      fetchWithRetry env url options 0 s =
        (.error (.network msg), { s with world := { s.world with
          fetchLog := s.world.fetchLog ++ List.replicate 4 (requestOf url options)
          sleeps := s.world.sleeps ++ List.replicate 3 s.mgr.retryDelay } }) := by
  have hne : ∀ i, (env.fetch i (requestOf url options)).failure ≠ none := by
    intro i
    obtain ⟨msg, hmsg⟩ := hfail i (requestOf url options)
    simp [hmsg, FetchOutcome.failure]
  obtain ⟨e, he, hrun⟩ := fetchWithRetry_all_fail env url options s hne
  obtain ⟨msg, hmsg⟩ := hfail (s.world.fetchLog.length + 3) (requestOf url options)
  rw [hlimit] at he hrun
  rw [hmsg] at he
  simp only [FetchOutcome.failure, Option.some.injEq] at he
  exact ⟨msg, hmsg, by rw [hrun, ← he]⟩

/-- C1, amended, at the manager the constructor builds and a transport that is always
down. -/
theorem fetchWithRetry_network_failure_four_calls_witness :
    ∃ msg, (envAlwaysRejects Nat "down").fetch
        ((ERPDataManager.new ({} : World Nat)).world.fetchLog.length + 3)
        (requestOf "/api/x" {}) = .rejected msg ∧
      fetchWithRetry (envAlwaysRejects Nat "down") "/api/x" {} 0 (ERPDataManager.new {}) =
        (.error (.network msg), { (ERPDataManager.new ({} : World Nat)) with
          world := { (ERPDataManager.new ({} : World Nat)).world with
            fetchLog := (ERPDataManager.new ({} : World Nat)).world.fetchLog ++
              List.replicate 4 (requestOf "/api/x" {})
            sleeps := (ERPDataManager.new ({} : World Nat)).world.sleeps ++
              List.replicate 3 (ERPDataManager.new ({} : World Nat)).mgr.retryDelay } }) :=
  fetchWithRetry_network_failure_four_calls (envAlwaysRejects Nat "down") "/api/x" {}
    (ERPDataManager.new {}) (by decide) (fun _ _ => ⟨"down", rfl⟩)

/-! ## C2: HTTP errors -/

/-- C2, as stated, fails: when the transport answers 404 to every call, `fetchWithRetry`
makes 4 transport calls and waits 3 times before it raises the HTTP error. -/
theorem http_error_single_call_refuted :
    (fetchWithRetry (envAlwaysResponds ⟨404, "Not Found", (none : Option Nat)⟩)
        "/api/sales/customers/XX" {} 0 (ERPDataManager.new {})).1
      = .error (.http 404 "Not Found") ∧
    (fetchWithRetry (envAlwaysResponds ⟨404, "Not Found", (none : Option Nat)⟩)
        "/api/sales/customers/XX" {} 0 (ERPDataManager.new {})).2.world.fetchLog.length = 4 ∧
    (fetchWithRetry (envAlwaysResponds ⟨404, "Not Found", (none : Option Nat)⟩)
        "/api/sales/customers/XX" {} 0 (ERPDataManager.new {})).2.world.sleeps
      = [1000, 1000, 1000] ∧
    ¬ (fetchWithRetry (envAlwaysResponds ⟨404, "Not Found", (none : Option Nat)⟩)
        "/api/sales/customers/XX" {} 0 (ERPDataManager.new {})).2.world.fetchLog.length = 1 := by
  decide

/-- C2, amended: for every URL, when the transport answers every call with a response that
is not 2xx, `fetchWithRetry` treats it like any other failure: it makes
`retryAttempts + 1` transport calls of the same request, waits `retryDelay` between them,
changes nothing else, and raises the HTTP error of the last response. -/
theorem fetchWithRetry_http_error_retried (env : Env V) (url : String)
    (options : FetchOptions V) (s : Sys V)
    (hfail : ∀ i r, ∃ response, env.fetch i r = .resolved response ∧ response.ok = false) :
    ∃ response,
      env.fetch (s.world.fetchLog.length + s.mgr.retryAttempts) (requestOf url options)
        = .resolved response ∧
      response.ok = false ∧
      fetchWithRetry env url options 0 s =
        (.error (.http response.status response.statusText), { s with world := { s.world with
          fetchLog := s.world.fetchLog ++
            List.replicate (s.mgr.retryAttempts + 1) (requestOf url options)
          sleeps := s.world.sleeps ++ List.replicate s.mgr.retryAttempts s.mgr.retryDelay } }) := by
  have hne : ∀ i, (env.fetch i (requestOf url options)).failure ≠ none := by
    intro i
    obtain ⟨response, hresp, hok⟩ := hfail i (requestOf url options)
    simp [hresp, FetchOutcome.failure, hok]
  obtain ⟨e, he, hrun⟩ := fetchWithRetry_all_fail env url options s hne
  obtain ⟨response, hresp, hok⟩ :=
    hfail (s.world.fetchLog.length + s.mgr.retryAttempts) (requestOf url options)
  rw [hresp] at he
  simp only [FetchOutcome.failure, hok, Bool.false_eq_true, if_false, Option.some.injEq] at he
  exact ⟨response, hresp, hok, by rw [hrun, ← he]⟩

/-- C2, amended, at the constructor's manager and a transport that always answers 404. -/
theorem fetchWithRetry_http_error_retried_witness :
    ∃ response : Response Nat,
      (envAlwaysResponds ⟨404, "Not Found", (none : Option Nat)⟩).fetch
          ((ERPDataManager.new ({} : World Nat)).world.fetchLog.length +
            (ERPDataManager.new ({} : World Nat)).mgr.retryAttempts)
          (requestOf "/api/sales/customers/XX" {})
        = .resolved response ∧
      response.ok = false ∧
      fetchWithRetry (envAlwaysResponds ⟨404, "Not Found", (none : Option Nat)⟩)
          "/api/sales/customers/XX" {} 0 (ERPDataManager.new {}) =
        (.error (.http response.status response.statusText),
          { (ERPDataManager.new ({} : World Nat)) with
            world := { (ERPDataManager.new ({} : World Nat)).world with
              fetchLog := (ERPDataManager.new ({} : World Nat)).world.fetchLog ++
                List.replicate ((ERPDataManager.new ({} : World Nat)).mgr.retryAttempts + 1)
                  (requestOf "/api/sales/customers/XX" {})
              sleeps := (ERPDataManager.new ({} : World Nat)).world.sleeps ++
                List.replicate (ERPDataManager.new ({} : World Nat)).mgr.retryAttempts
                  (ERPDataManager.new ({} : World Nat)).mgr.retryDelay } }) :=
  fetchWithRetry_http_error_retried (envAlwaysResponds ⟨404, "Not Found", none⟩)
    "/api/sales/customers/XX" {} (ERPDataManager.new {})
    (fun _ _ => ⟨⟨404, "Not Found", none⟩, rfl, by decide⟩)

/-! ## C3: a drain replays every queued operation once, in order -/

/-- C3: for every queue at the start of `processSyncQueue` and every behaviour of the
transport, the drain calls the mutation method of every queued operation exactly once, in
queue order, with the type, endpoint and payload of the operation (the trace grows by the
queue itself; `deleteData` is called without a payload); and the transport receives, in
queue order, one block of identical requests per operation: between 1 and
`retryAttempts + 1` requests when the manager is online (the attempts of `fetchWithRetry`),
none when it is offline.  Each request of the block of an operation goes to the base URL
followed by the endpoint of the operation, with the method of the operation; for `POST` and
`PUT` it has the header `Content-Type: application/json` and the payload of the operation as
its body, for `DELETE` no header and no body.  No failure stops the loop. -/
theorem processSyncQueue_replays_each_once_in_order (env : Env V) (s : Sys V) :
    (processSyncQueue env s).world.mutationCalls =
        s.world.mutationCalls ++
          s.mgr.syncQueue.map (fun o =>
            { type := o.type
              endpoint := o.endpoint
              payload :=
                match o.type with
                | .POST => o.payload
                | .PUT => o.payload
                | .DELETE => none }) ∧
    ∃ ks : List Nat, ks.length = s.mgr.syncQueue.length ∧
      (∀ k ∈ ks, if s.mgr.isOnline then 1 ≤ k ∧ k ≤ s.mgr.retryAttempts + 1 else k = 0) ∧
      (processSyncQueue env s).world.fetchLog = s.world.fetchLog ++
        (List.zipWith (fun o k => List.replicate k
            ({ url := s.mgr.apiBaseUrl ++ o.endpoint
               options :=
                 match o.type with
                 | .POST =>
                   { method := .POST, headers := [("Content-Type", "application/json")],
                     body := o.payload }
                 | .PUT =>
                   { method := .PUT, headers := [("Content-Type", "application/json")],
                     body := o.payload }
                 | .DELETE => { method := .DELETE, headers := [], body := none }
               timeout := 5000 } : Request V))
          s.mgr.syncQueue ks).flatten := by
  have hcall : (fun o : Operation V =>
      ({ type := o.type
         endpoint := o.endpoint
         payload :=
           match o.type with
           | .POST => o.payload
           | .PUT => o.payload
           | .DELETE => none } : MutationCall V)) = Operation.call := by
    funext o
    rcases o with ⟨type, endpoint, payload, timestamp⟩
    cases type <;> rfl
  have hreq : (fun (o : Operation V) (k : Nat) => List.replicate k
      ({ url := s.mgr.apiBaseUrl ++ o.endpoint
         options :=
           match o.type with
           | .POST =>
             { method := .POST, headers := [("Content-Type", "application/json")],
               body := o.payload }
           | .PUT =>
             { method := .PUT, headers := [("Content-Type", "application/json")],
               body := o.payload }
           | .DELETE => { method := .DELETE, headers := [], body := none }
         timeout := 5000 } : Request V)) =
      (fun o k => List.replicate k (o.request s.mgr.apiBaseUrl)) := by
    funext o k
    rw [Operation.request_fields]
  rw [hcall, hreq]
  by_cases hq : s.mgr.syncQueue = []
  · rw [processSyncQueue_empty env s hq, hq]
    exact ⟨by simp, [], rfl, by simp, by simp⟩
  · obtain ⟨hcalls, -, -, -, -, ks, hlen, hks, hlog⟩ :=
      drain_trace env s.mgr.syncQueue (drainStart s)
    rw [processSyncQueue_nonempty env s hq]
    exact ⟨hcalls, ks, hlen, hks, hlog⟩

/-! ## C4: at-least-once replay -/

/-- C4: an operation of the queue whose replay raises during a drain is in the queue when
the drain completes, and the next drain, whatever the transport then does, calls its
mutation method again. -/
theorem failed_replay_stays_queued (env env2 : Env V) (s : Sys V) (o : Operation V)
    (hfail : o ∈ drainFailures env s.mgr.syncQueue (drainStart s)) :
    o ∈ s.mgr.syncQueue ∧
    o ∈ (processSyncQueue env s).mgr.syncQueue ∧
    o.call ∈ (processSyncQueue env2 (processSyncQueue env s)).world.mutationCalls.drop
      (processSyncQueue env s).world.mutationCalls.length := by
  have hin : o ∈ s.mgr.syncQueue :=
    (drainFailures_sublist env s.mgr.syncQueue (drainStart s)).subset hfail
  have hq : s.mgr.syncQueue ≠ [] := List.ne_nil_of_mem hin
  have hstay : o ∈ (processSyncQueue env s).mgr.syncQueue := by
    rw [processSyncQueue_nonempty env s hq]
    exact drainFailures_subset env s.mgr.syncQueue (drainStart s) o hfail
  refine ⟨hin, hstay, ?_⟩
  have hq2 : (processSyncQueue env s).mgr.syncQueue ≠ [] := List.ne_nil_of_mem hstay
  obtain ⟨hcalls, -⟩ := drain_trace env2 (processSyncQueue env s).mgr.syncQueue
    (drainStart (processSyncQueue env s))
  rw [processSyncQueue_nonempty env2 _ hq2]
  have hcalls2 : ((List.foldl (replay env2) (drainStart (processSyncQueue env s))
      (processSyncQueue env s).mgr.syncQueue).log
        (if (List.foldl (replay env2) (drainStart (processSyncQueue env s))
            (processSyncQueue env s).mgr.syncQueue).mgr.syncQueue.length > 0 then
          ConsoleMsg.stillPending (List.foldl (replay env2) (drainStart (processSyncQueue env s))
            (processSyncQueue env s).mgr.syncQueue).mgr.syncQueue.length
        else ConsoleMsg.allSynced)).world.mutationCalls =
      (processSyncQueue env s).world.mutationCalls ++
        (processSyncQueue env s).mgr.syncQueue.map Operation.call := hcalls
  rw [hcalls2, List.drop_left]
  exact List.mem_map_of_mem _ hstay

/-- C4 at the queued order, drained while the transport is down. -/
theorem failed_replay_stays_queued_witness :
    (⟨.POST, "/sales/orders", some 100, 0⟩ : Operation Nat) ∈
      (onOnline (envAlwaysRejects Nat "down") queuedOrder).mgr.syncQueue ∧
    (⟨.POST, "/sales/orders", some 100⟩ : MutationCall Nat) ∈
      (processSyncQueue (envAlwaysRejects Nat "down")
        (onOnline (envAlwaysRejects Nat "down") queuedOrder)).world.mutationCalls.drop
        (onOnline (envAlwaysRejects Nat "down") queuedOrder).world.mutationCalls.length :=
  (failed_replay_stays_queued (envAlwaysRejects Nat "down") (envAlwaysRejects Nat "down")
    (({ queuedOrder with mgr := { queuedOrder.mgr with isOnline := true } } : Sys Nat).log
      .onlineSyncing)
    ⟨.POST, "/sales/orders", some 100, 0⟩ (by decide)).2

/-! ## C5: what a drain leaves in the queue -/

/-- C5 fails on the code: one order queued offline and replayed once while the transport is
down leaves two entries in the queue, not one, and the console reports 2 operations
pending. -/
theorem drain_requeues_failed_operation_twice :
    queuedOrder.mgr.syncQueue = [⟨.POST, "/sales/orders", some 100, 0⟩] ∧
    drainFailures (envAlwaysRejects Nat "down") queuedOrder.mgr.syncQueue
        (drainStart (({ queuedOrder with mgr := { queuedOrder.mgr with isOnline := true } }
          : Sys Nat).log .onlineSyncing))
      = [⟨.POST, "/sales/orders", some 100, 0⟩] ∧
    (onOnline (envAlwaysRejects Nat "down") queuedOrder).mgr.syncQueue =
      [⟨.POST, "/sales/orders", some 100, 2⟩, ⟨.POST, "/sales/orders", some 100, 0⟩] ∧
    (onOnline (envAlwaysRejects Nat "down") queuedOrder).mgr.syncQueue.length = 2 ∧
    (onOnline (envAlwaysRejects Nat "down") queuedOrder).world.console.getLast? =
      some (.stillPending 2) := by
  decide

/-! ## C6: offline, then reconnect -/

/-- C6: after any list of mutation calls made while offline on a manager whose queue was
empty, no request has been sent and the queue holds one entry per call; the `online` signal
then sets the manager online and runs one drain, which calls the mutation method of every
queued operation once; if the transport answers every request with a parseable 2xx
response, it receives exactly one request per call, in order, and the queue is empty
afterwards.  The request of a call goes to the base URL followed by the endpoint of the
call; for `createData` it is a `POST` and for `updateData` a `PUT`, with the header
`Content-Type: application/json` and the payload of the call as its body; for `deleteData`
it is a `DELETE` without header and body. -/
theorem offline_queue_then_reconnect (env : Env V) (s : Sys V) (calls : List (Mutation V))
    (hoff : s.mgr.isOnline = false) (hempty : s.mgr.syncQueue = [])
    (hok : ∀ i r, ∃ response, env.fetch i r = .resolved response ∧ response.ok = true ∧
      response.body ≠ none) :
    (issueAll env calls s).world.fetchLog = s.world.fetchLog ∧
    (issueAll env calls s).mgr.syncQueue.length = calls.length ∧
    (onOnline env (issueAll env calls s)).mgr.isOnline = true ∧
    (onOnline env (issueAll env calls s)).world.mutationCalls =
      (issueAll env calls s).world.mutationCalls ++
        calls.map (fun m => (m.operation 0).call) ∧
    (onOnline env (issueAll env calls s)).world.fetchLog =
      s.world.fetchLog ++
        calls.map (fun m =>
          match m with
          | .create endpoint payload =>
            { url := s.mgr.apiBaseUrl ++ endpoint
              options :=
                { method := .POST, headers := [("Content-Type", "application/json")],
                  body := payload }
              timeout := 5000 }
          | .update endpoint payload =>
            { url := s.mgr.apiBaseUrl ++ endpoint
              options :=
                { method := .PUT, headers := [("Content-Type", "application/json")],
                  body := payload }
              timeout := 5000 }
          | .remove endpoint =>
            { url := s.mgr.apiBaseUrl ++ endpoint
              options := { method := .DELETE, headers := [], body := none }
              timeout := 5000 }) ∧
    (onOnline env (issueAll env calls s)).world.fetchLog.length =
      s.world.fetchLog.length + calls.length ∧
    (onOnline env (issueAll env calls s)).mgr.syncQueue = [] := by
  obtain ⟨h1, h2, -, h4, -, h6, h7, h8⟩ := issueAll_offline env calls s hoff
  have hreq : calls.map (fun m => (m.operation 0).request s.mgr.apiBaseUrl) =
      calls.map (fun m =>
        match m with
        | .create endpoint payload =>
          ({ url := s.mgr.apiBaseUrl ++ endpoint
             options :=
               { method := .POST, headers := [("Content-Type", "application/json")],
                 body := payload }
             timeout := 5000 } : Request V)
        | .update endpoint payload =>
          { url := s.mgr.apiBaseUrl ++ endpoint
            options :=
              { method := .PUT, headers := [("Content-Type", "application/json")],
                body := payload }
            timeout := 5000 }
        | .remove endpoint =>
          { url := s.mgr.apiBaseUrl ++ endpoint
            options := { method := .DELETE, headers := [], body := none }
            timeout := 5000 }) := by
    apply List.map_congr_left
    intro m _
    cases m <;> rfl
  rw [hempty] at h6 h7 h8
  simp only [List.length_nil, Nat.zero_add, List.map_nil, List.nil_append] at h6 h7 h8
  refine ⟨h4, h6, ?_⟩
  unfold onOnline
  by_cases hq : (issueAll env calls s).mgr.syncQueue = []
  · have hcalls : calls = [] := by
      rw [hq] at h6
      exact List.length_eq_zero.mp h6.symm
    subst hcalls
    rw [processSyncQueue_empty _ _ (by simpa [Sys.log] using hq)]
    simp [Sys.log, issueAll, hempty]
  · rw [processSyncQueue_nonempty _ _ (by simpa [Sys.log] using hq)]
    obtain ⟨hlog, hqueue⟩ := drain_success env (issueAll env calls s).mgr.syncQueue
      (drainStart (({ issueAll env calls s with
        mgr := { (issueAll env calls s).mgr with isOnline := true } } : Sys V).log
          .onlineSyncing)) rfl hok
    obtain ⟨hcalls, hon, -⟩ := drain_trace env (issueAll env calls s).mgr.syncQueue
      (drainStart (({ issueAll env calls s with
        mgr := { (issueAll env calls s).mgr with isOnline := true } } : Sys V).log
          .onlineSyncing))
    simp only [Sys.log, drainStart] at hlog hqueue hcalls hon ⊢
    rw [hlog, hqueue, hcalls, hon, h2, h8, h7, h4, hreq]
    simp

/-- C6 at two calls made offline on the manager the constructor builds. -/
theorem offline_queue_then_reconnect_witness :
    (onOnline envAlwaysOk (issueAll envAlwaysOk
        [.create "/sales/orders" (some 100), .remove "/sales/orders/7"]
        offlineManager)).world.fetchLog =
      [{ url := "http://localhost:5000/api/sales/orders"
         options :=
           { method := .POST, headers := [("Content-Type", "application/json")],
             body := some 100 }
         timeout := 5000 },
       { url := "http://localhost:5000/api/sales/orders/7"
         options := { method := .DELETE, headers := [], body := none }
         timeout := 5000 }] ∧
    (onOnline envAlwaysOk (issueAll envAlwaysOk
        [.create "/sales/orders" (some 100), .remove "/sales/orders/7"]
        offlineManager)).mgr.syncQueue = [] :=
  ⟨(offline_queue_then_reconnect envAlwaysOk offlineManager
      [.create "/sales/orders" (some 100), .remove "/sales/orders/7"] (by decide) (by decide)
      (fun _ _ => ⟨⟨200, "OK", some 7⟩, rfl, by decide, by decide⟩)).2.2.2.2.1,
   (offline_queue_then_reconnect envAlwaysOk offlineManager
      [.create "/sales/orders" (some 100), .remove "/sales/orders/7"] (by decide) (by decide)
      (fun _ _ => ⟨⟨200, "OK", some 7⟩, rfl, by decide, by decide⟩)).2.2.2.2.2.2⟩

/-! ## C7: mutations while offline -/

/-- C7: on an offline manager each of `createData`, `updateData` and `deleteData` returns
the acknowledgement `queued` and changes the state only by appending one operation of its
type, endpoint and payload to the end of the queue (besides the clock reads, the console
line and the trace): the transport log and the cache are as before.  Nothing is
deduplicated: `k` identical calls add `k` entries. -/
theorem offline_mutation_is_queued (env : Env V) (s : Sys V) (endpoint : String)
    (payload : Option V) (k : Nat) (hoff : s.mgr.isOnline = false) :
    createData env endpoint payload s =
      (.ok (.queued (env.now (s.world.clockReads + 1))),
        { mgr := { s.mgr with
            syncQueue := s.mgr.syncQueue ++ [⟨.POST, endpoint, payload, env.now s.world.clockReads⟩] }
          world := { s.world with
            mutationCalls := s.world.mutationCalls ++ [⟨.POST, endpoint, payload⟩]
            clockReads := s.world.clockReads + 2
            console := s.world.console ++ [.queuedOffline endpoint] } }) ∧
    updateData env endpoint payload s =
      (.ok (.queued (env.now (s.world.clockReads + 1))),
        { mgr := { s.mgr with
            syncQueue := s.mgr.syncQueue ++ [⟨.PUT, endpoint, payload, env.now s.world.clockReads⟩] }
          world := { s.world with
            mutationCalls := s.world.mutationCalls ++ [⟨.PUT, endpoint, payload⟩]
            clockReads := s.world.clockReads + 2
            console := s.world.console ++ [.queuedOffline endpoint] } }) ∧
    deleteData env endpoint s =
      (.ok (.queued (env.now (s.world.clockReads + 1))),
        { mgr := { s.mgr with
            syncQueue := s.mgr.syncQueue ++ [⟨.DELETE, endpoint, none, env.now s.world.clockReads⟩] }
          world := { s.world with
            mutationCalls := s.world.mutationCalls ++ [⟨.DELETE, endpoint, none⟩]
            clockReads := s.world.clockReads + 2
            console := s.world.console ++ [.queuedOffline endpoint] } }) ∧
    ∀ m : Mutation V,
      (issueAll env (List.replicate k m) s).mgr.syncQueue.length = s.mgr.syncQueue.length + k ∧
      (issueAll env (List.replicate k m) s).mgr.syncQueue.map Operation.call =
        s.mgr.syncQueue.map Operation.call ++ List.replicate k (m.operation 0).call ∧
      (issueAll env (List.replicate k m) s).world.fetchLog = s.world.fetchLog ∧
      (issueAll env (List.replicate k m) s).mgr.dataCache = s.mgr.dataCache := by
  refine ⟨mutate_offline env .POST endpoint payload _ s hoff,
    mutate_offline env .PUT endpoint payload _ s hoff,
    mutate_offline env .DELETE endpoint none _ s hoff, ?_⟩
  intro m
  obtain ⟨-, -, h3, h4, -, h6, h7, -⟩ := issueAll_offline env (List.replicate k m) s hoff
  exact ⟨by simpa using h6, by simpa using h7, h4, h3⟩

/-- C7 at three identical `createData` calls on the offline manager. -/
theorem offline_mutation_is_queued_witness :
    (createData envAlwaysOk "/sales/orders" (some 100) offlineManager).1 = .ok (.queued 1) ∧
    (issueAll envAlwaysOk (List.replicate 3 (.create "/sales/orders" (some 100)))
      offlineManager).mgr.syncQueue.length = 3 :=
  ⟨congrArg Prod.fst (offline_mutation_is_queued envAlwaysOk offlineManager "/sales/orders"
      (some 100) 3 (by decide)).1,
   ((offline_mutation_is_queued envAlwaysOk offlineManager "/sales/orders"
      (some 100) 3 (by decide)).2.2.2 (.create "/sales/orders" (some 100))).1⟩

/-! ## C8: a mutation that fails while online -/

/-- C8: when the manager is online and the request of a mutation method fails (the
`fetchWithRetry` call it makes raises `e`), the method raises `e`, the queue afterwards is
the old queue with the one operation of that call appended, and the cache, the
subscriptions and the connectivity flag are unchanged.  This holds for `createData`,
`updateData` and `deleteData` (the three cases of `m`). -/
theorem online_mutation_failure_queues_and_raises (env : Env V) (s : Sys V) (m : Mutation V)
    (e : Failure) (honline : s.mgr.isOnline = true)
    (hfail : (fetchWithRetry env (s.mgr.apiBaseUrl ++ m.endpoint) m.options 0 s).1 = .error e) :
    (m.run env s).1 = .error e ∧
    (m.run env s).2.mgr.syncQueue =
      s.mgr.syncQueue ++ [m.operation (env.now s.world.clockReads)] ∧
    (m.run env s).2.mgr.dataCache = s.mgr.dataCache ∧
    (m.run env s).2.mgr.listeners = s.mgr.listeners ∧
    (m.run env s).2.mgr.isOnline = true := by
  rw [fetchWithRetry_eq_outcome] at hfail
  simp only at hfail
  rw [Mutation.run_eq, mutate_online env _ _ _ _ s honline, hfail]
  refine ⟨rfl, ?_, rfl, rfl, honline⟩
  cases m <;> rfl

/-- C8 at `deleteData` on the constructor's manager with the transport down. -/
theorem online_mutation_failure_queues_and_raises_witness :
    (deleteData (envAlwaysRejects Nat "down") "/sales/orders/7" (ERPDataManager.new {})).1
      = .error (.network "down") ∧
    (deleteData (envAlwaysRejects Nat "down") "/sales/orders/7"
      (ERPDataManager.new {})).2.mgr.syncQueue = [⟨.DELETE, "/sales/orders/7", none, 0⟩] ∧
    (deleteData (envAlwaysRejects Nat "down") "/sales/orders/7"
      (ERPDataManager.new {})).2.mgr.dataCache = [] :=
  ⟨(online_mutation_failure_queues_and_raises (envAlwaysRejects Nat "down")
      (ERPDataManager.new {}) (.remove "/sales/orders/7") (.network "down") (by decide)
      (by decide)).1,
   (online_mutation_failure_queues_and_raises (envAlwaysRejects Nat "down")
      (ERPDataManager.new {}) (.remove "/sales/orders/7") (.network "down") (by decide)
      (by decide)).2.1,
   (online_mutation_failure_queues_and_raises (envAlwaysRejects Nat "down")
      (ERPDataManager.new {}) (.remove "/sales/orders/7") (.network "down") (by decide)
      (by decide)).2.2.1⟩

/-! ## C9: a mutation that succeeds while online -/

/-- C9, as stated, fails on the notification: with two subscribers of
`/inventory/materials`, the first of which calls its own unsubscribe handle when notified,
a successful `createData` on that endpoint returns the result and removes the cached query
entry, but invokes only the first subscriber; the second, still subscribed afterwards, is
not notified. -/
theorem second_subscriber_not_notified :
    twoSubscribers.mgr.listeners.get "/inventory/materials" =
      some [selfRemoving "/inventory/materials" 1, { id := 2 }] ∧
    (createData envAlwaysOk "/inventory/materials" (some 5) twoSubscribers).1 =
      .ok (.result 7) ∧
    (createData envAlwaysOk "/inventory/materials" (some 5) twoSubscribers).2.world.delivered =
      [(1, 7)] ∧
    (2, 7) ∉
      (createData envAlwaysOk "/inventory/materials" (some 5) twoSubscribers).2.world.delivered ∧
    (createData envAlwaysOk "/inventory/materials" (some 5)
      twoSubscribers).2.mgr.listeners.get "/inventory/materials" = some [{ id := 2 }] ∧
    (createData envAlwaysOk "/inventory/materials" (some 5) twoSubscribers).2.mgr.dataCache =
      [("GET:/sales/orders", 4)] := by
  decide

/-- C9, amended: when the manager is online and the request of `createData`, `updateData`
or `deleteData` (the three cases of `m`) on endpoint E succeeds with result `r`, the call
returns `r`, the sync queue is unchanged, the cache keeps exactly the entries that
`invalidateCache(E)` does not match, so every entry whose key contains E is removed, in
particular the one under `'GET:' + E + q` for every suffix `q`; and, provided no callback
subscribed to E calls an unsubscribe handle while it is notified, every callback subscribed
to E is invoked once with `r`, in subscription order. -/
theorem online_mutation_success (env : Env V) (s : Sys V) (m : Mutation V)
    (response : Response V) (r : V) (honline : s.mgr.isOnline = true)
    (hfetch : (fetchWithRetry env (s.mgr.apiBaseUrl ++ m.endpoint) m.options 0 s).1 =
      .ok response)
    (hbody : response.body = some r) :
    (m.run env s).1 = .ok (.result r) ∧
    (m.run env s).2.mgr.syncQueue = s.mgr.syncQueue ∧
    (m.run env s).2.mgr.dataCache =
      s.mgr.dataCache.filter (fun e => !invalidates m.endpoint e.1) ∧
    (∀ key, includes key m.endpoint = true → (m.run env s).2.mgr.dataCache.has key = false) ∧
    (∀ q, (m.run env s).2.mgr.dataCache.has ("GET:" ++ m.endpoint ++ q) = false) ∧
    ((∀ c ∈ (s.mgr.listeners.get m.endpoint).getD [], c.unsubscribes = []) →
      (m.run env s).2.world.delivered =
        s.world.delivered ++
          ((s.mgr.listeners.get m.endpoint).getD []).map (fun c => (c.id, r))) := by
  rw [fetchWithRetry_eq_outcome] at hfetch
  simp only at hfetch
  rcases response with ⟨status, statusText, body⟩
  simp only at hbody
  subst hbody
  have hrun : m.run env s = (.ok (.result r), notifyListeners m.endpoint r
      (invalidateCache env m.endpoint (afterFetch env (m.operation 0).type m.endpoint
        (m.operation 0).payload m.options s))) := by
    rw [Mutation.run_eq, mutate_online env _ _ _ _ s honline, hfetch]
  have hcache : (m.run env s).2.mgr.dataCache =
      s.mgr.dataCache.filter (fun e => !invalidates m.endpoint e.1) := by
    rw [hrun]
    simp only [notifyListeners_dataCache, invalidateCache_dataCache]
    rfl
  have hkey : ∀ key, includes key m.endpoint = true →
      (m.run env s).2.mgr.dataCache.has key = false := by
    intro key hkey
    rw [hcache]
    apply JsMap.has_filter_false
    intro v
    simp [invalidates, hkey]
  refine ⟨by rw [hrun], ?_, hcache, hkey,
    fun q => hkey _ (includes_append "GET:" m.endpoint q), ?_⟩
  · rw [hrun]
    simp only [notifyListeners_syncQueue, invalidateCache_syncQueue]
    rfl
  · intro hquiet
    have hl : (invalidateCache env m.endpoint (afterFetch env (m.operation 0).type m.endpoint
        (m.operation 0).payload m.options s)).mgr.listeners = s.mgr.listeners := by
      rw [invalidateCache_listeners]
      rfl
    obtain ⟨hd, -⟩ := notifyListeners_quiet m.endpoint r
      (invalidateCache env m.endpoint (afterFetch env (m.operation 0).type m.endpoint
        (m.operation 0).payload m.options s)) (by rw [hl]; exact hquiet)
    rw [hrun]
    simp only
    rw [hd, hl, invalidateCache_delivered]
    rfl

/-- C9, amended, at `updateData` on a manager with one subscriber. -/
theorem online_mutation_success_witness :
    (updateData envAlwaysOk "/inventory/materials" (some 5) oneSubscriber).1 =
      .ok (.result 7) ∧
    (updateData envAlwaysOk "/inventory/materials" (some 5) oneSubscriber).2.mgr.dataCache.has
      ("GET:" ++ "/inventory/materials" ++ "?category=fabric") = false ∧
    (updateData envAlwaysOk "/inventory/materials" (some 5) oneSubscriber).2.world.delivered =
      [(2, 7)] :=
  ⟨(online_mutation_success envAlwaysOk oneSubscriber (.update "/inventory/materials" (some 5))
      ⟨200, "OK", some 7⟩ 7 (by decide) (by decide) rfl).1,
   (online_mutation_success envAlwaysOk oneSubscriber (.update "/inventory/materials" (some 5))
      ⟨200, "OK", some 7⟩ 7 (by decide) (by decide) rfl).2.2.2.2.1 "?category=fabric",
   (online_mutation_success envAlwaysOk oneSubscriber (.update "/inventory/materials" (some 5))
      ⟨200, "OK", some 7⟩ 7 (by decide) (by decide) rfl).2.2.2.2.2 (by decide)⟩

/-! ## C10: cache hit -/

/-- C10: whenever the cache holds the key `'GET:' + E`, online or offline,
`getData(E, useCache = true)` returns the cached value and leaves the whole state as it was:
no transport call, no callback invoked, cache, queue and connectivity flag unchanged. -/
theorem getData_cache_hit (env : Env V) (s : Sys V) (endpoint : String)
    (hhit : s.mgr.dataCache.has ("GET:" ++ endpoint) = true) :
    ∃ v, s.mgr.dataCache.get ("GET:" ++ endpoint) = some v ∧
      getData env endpoint true s = (.ok v, s) := by
  obtain ⟨v, hv⟩ := Option.isSome_iff_exists.mp hhit
  exact ⟨v, hv, by simp [getData, hv]⟩

/-- C10 at a cached key of a manager that is offline. -/
theorem getData_cache_hit_witness :
    ∃ v, (onOffline oneSubscriber).mgr.dataCache.get ("GET:" ++ "/sales/orders") = some v ∧
      getData (envAlwaysRejects Nat "down") "/sales/orders" true (onOffline oneSubscriber) =
        (.ok v, onOffline oneSubscriber) :=
  getData_cache_hit (envAlwaysRejects Nat "down") (onOffline oneSubscriber) "/sales/orders"
    (by decide)

/-! ## C11: cache fallback -/

/-- C11, as stated, fails: a read of `/inventory/materials` succeeds online with the value
7; no `invalidateCache`, `clearCache` or mutation runs afterwards, but a second read of the
endpoint bypasses the cache (`useCache = false`), is answered 8 and stores it.  After the
`offline` signal `getData` on the endpoint returns 8, not 7, for both values of
`useCache`. -/
theorem bypassing_read_replaces_cached_value :
    (getData envChanging "/inventory/materials" true (ERPDataManager.new {})).1 = .ok 7 ∧
    (getData envChanging "/inventory/materials" false
      (getData envChanging "/inventory/materials" true (ERPDataManager.new {})).2).1 = .ok 8 ∧
    (getData envChanging "/inventory/materials" true
      (onOffline (getData envChanging "/inventory/materials" false
        (getData envChanging "/inventory/materials" true (ERPDataManager.new {})).2).2)).1 =
      .ok 8 ∧
    (getData envChanging "/inventory/materials" false
      (onOffline (getData envChanging "/inventory/materials" false
        (getData envChanging "/inventory/materials" true (ERPDataManager.new {})).2).2)).1 =
      .ok 8 := by
  decide

/-- C11, amended: if `getData(E)` succeeded with value `v` (online in particular) and only
operations that spare the cached entry of E ran afterwards (reads of other endpoints, reads
of E with `useCache = true`, mutations that are queued or raise, `online` signals that find
the queue empty, `offline` signals, and calls of `subscribe`, of an unsubscribe handle, of
`notifyListeners` and of `getStatus`), then after the `offline` signal `getData(E, useCache)`
returns `v` for `useCache = true` and for `useCache = false`; it does not fail, makes no
transport call and changes nothing but the console line written when the cache is
bypassed. -/
theorem cache_fallback_after_read (env env2 : Env V) (s : Sys V) (endpoint : String)
    (useCache useCache2 : Bool) (v : V) (actions : List (Action V))
    (hread : (getData env endpoint useCache s).1 = .ok v)
    (hspare : allSpare env endpoint actions (getData env endpoint useCache s).2 = true) :
    getData env2 endpoint useCache2
        (onOffline (runAll env actions (getData env endpoint useCache s).2)) =
      (.ok v,
        if useCache2 then onOffline (runAll env actions (getData env endpoint useCache s).2)
        else (onOffline (runAll env actions (getData env endpoint useCache s).2)).log
          (.offlineCached endpoint)) ∧
    (getData env2 endpoint useCache2
        (onOffline (runAll env actions (getData env endpoint useCache s).2))).2.world.fetchLog =
      (runAll env actions (getData env endpoint useCache s).2).world.fetchLog := by
  have hcached := getData_ok_cached env endpoint useCache s v hread
  have hkeep := runAll_spares env endpoint v actions _ hcached hspare
  have hget : (onOffline (runAll env actions
      (getData env endpoint useCache s).2)).mgr.dataCache.get ("GET:" ++ endpoint) = some v :=
    hkeep
  rw [getData_offline env2 endpoint useCache2 _ rfl, hget]
  refine ⟨rfl, ?_⟩
  cases useCache2 <;> rfl

/-- C11, amended, at a first read answered by the server, followed by the operations of
`sparingActions`, the `offline` signal and a read that bypasses the cache while the transport
is down. -/
theorem cache_fallback_after_read_witness :
    allSpare envAlwaysOk "/inventory/materials" sparingActions
      (getData envAlwaysOk "/inventory/materials" true (ERPDataManager.new {})).2 = true ∧
    getData (envAlwaysRejects Nat "down") "/inventory/materials" false
        (onOffline (runAll envAlwaysOk sparingActions
          (getData envAlwaysOk "/inventory/materials" true (ERPDataManager.new {})).2)) =
      (.ok 7,
        (onOffline (runAll envAlwaysOk sparingActions
          (getData envAlwaysOk "/inventory/materials" true (ERPDataManager.new {})).2)).log
          (.offlineCached "/inventory/materials")) ∧
    (getData (envAlwaysRejects Nat "down") "/inventory/materials" false
        (onOffline (runAll envAlwaysOk sparingActions
          (getData envAlwaysOk "/inventory/materials" true
            (ERPDataManager.new {})).2))).2.world.fetchLog =
      (runAll envAlwaysOk sparingActions
        (getData envAlwaysOk "/inventory/materials" true
          (ERPDataManager.new {})).2).world.fetchLog :=
  ⟨by decide,
   cache_fallback_after_read envAlwaysOk (envAlwaysRejects Nat "down") (ERPDataManager.new {})
    "/inventory/materials" true false 7 sparingActions (by decide) (by decide)⟩

/-! ## C12: offline read without cache -/

/-- C12: when the manager is offline and the cache has no entry under `'GET:' + E`,
`getData(E, useCache)` fails with the offline failure for either value of `useCache` and
leaves the whole state as it was: no transport call, cache and queue unchanged. -/
theorem offline_read_without_cache (env : Env V) (s : Sys V) (endpoint : String)
    (useCache : Bool) (hoff : s.mgr.isOnline = false)
    (hnone : s.mgr.dataCache.has ("GET:" ++ endpoint) = false) :
    getData env endpoint useCache s = (.error .offline, s) := by
  have hget : s.mgr.dataCache.get ("GET:" ++ endpoint) = none := by
    simpa [JsMap.has] using hnone
  rw [getData_offline env endpoint useCache s hoff, hget]

/-- C12 at the offline manager, whose cache is empty, with the cache bypassed. -/
theorem offline_read_without_cache_witness :
    getData envAlwaysOk "/sales/customers" false offlineManager =
      (.error .offline, offlineManager) :=
  offline_read_without_cache envAlwaysOk offlineManager "/sales/customers" false
    (by decide) (by decide)

/-! ## C13: online read success -/

/-- C13, as stated, fails on the notification: with two subscribers of
`/inventory/materials`, the first of which calls its own unsubscribe handle when notified,
a successful `getData` on that endpoint returns the value and stores it, but invokes only
the first subscriber; the second, still subscribed afterwards, is not notified. -/
theorem read_second_subscriber_not_notified :
    twoSubscribers.mgr.listeners.get "/inventory/materials" =
      some [selfRemoving "/inventory/materials" 1, { id := 2 }] ∧
    (getData envAlwaysOk "/inventory/materials" false twoSubscribers).1 = .ok 7 ∧
    (getData envAlwaysOk "/inventory/materials" false twoSubscribers).2.mgr.dataCache.get
      "GET:/inventory/materials" = some 7 ∧
    (getData envAlwaysOk "/inventory/materials" false twoSubscribers).2.world.delivered =
      [(1, 7)] ∧
    (2, 7) ∉
      (getData envAlwaysOk "/inventory/materials" false twoSubscribers).2.world.delivered ∧
    (getData envAlwaysOk "/inventory/materials" false
      twoSubscribers).2.mgr.listeners.get "/inventory/materials" = some [{ id := 2 }] := by
  decide

/-- C13, amended: when the manager is online, the cache is bypassed or has no entry under
`'GET:' + E`, and the network GET succeeds with value `v`, `getData(E, useCache)` returns
`v`; the cache afterwards is the old cache after `set('GET:' + E, v)`, so it gives `v` for
that key and what it gave before for every other key; the sync queue is unchanged; and,
provided no callback subscribed to E calls an unsubscribe handle while it is notified,
exactly the callbacks subscribed to E are invoked, once each with `v`, in subscription
order. -/
theorem online_read_success (env : Env V) (s : Sys V) (endpoint : String) (useCache : Bool)
    (response : Response V) (v : V) (honline : s.mgr.isOnline = true)
    (hmiss : useCache = false ∨ s.mgr.dataCache.get ("GET:" ++ endpoint) = none)
    (hfetch : (fetchWithRetry env (s.mgr.apiBaseUrl ++ endpoint) {} 0 s).1 = .ok response)
    (hbody : response.body = some v) :
    (getData env endpoint useCache s).1 = .ok v ∧
    (getData env endpoint useCache s).2.mgr.dataCache =
      s.mgr.dataCache.set ("GET:" ++ endpoint) v ∧
    (getData env endpoint useCache s).2.mgr.dataCache.get ("GET:" ++ endpoint) = some v ∧
    (∀ key, key ≠ "GET:" ++ endpoint →
      (getData env endpoint useCache s).2.mgr.dataCache.get key = s.mgr.dataCache.get key) ∧
    (getData env endpoint useCache s).2.mgr.syncQueue = s.mgr.syncQueue ∧
    ((∀ c ∈ (s.mgr.listeners.get endpoint).getD [], c.unsubscribes = []) →
      (getData env endpoint useCache s).2.world.delivered =
        s.world.delivered ++
          ((s.mgr.listeners.get endpoint).getD []).map (fun c => (c.id, v))) := by
  rw [fetchWithRetry_eq_outcome] at hfetch
  simp only at hfetch
  rcases response with ⟨status, statusText, body⟩
  simp only at hbody
  subst hbody
  have hrun : getData env endpoint useCache s =
      (.ok v, notifyListeners endpoint v (saveToLocalStorage env
        { afterRead env endpoint s with
          mgr := { s.mgr with dataCache := s.mgr.dataCache.set ("GET:" ++ endpoint) v } })) := by
    rw [getData_online env endpoint useCache s honline hmiss, hfetch]
  have hcache : (getData env endpoint useCache s).2.mgr.dataCache =
      s.mgr.dataCache.set ("GET:" ++ endpoint) v := by
    rw [hrun]
    simp only [notifyListeners_dataCache, saveToLocalStorage_dataCache]
  refine ⟨by rw [hrun], hcache, ?_, ?_, ?_, ?_⟩
  · rw [hcache]
    exact JsMap.get_set_self _ _ _
  · intro key hkey
    rw [hcache]
    exact JsMap.get_set_other _ _ _ _ hkey
  · rw [hrun]
    simp only [notifyListeners_syncQueue, saveToLocalStorage_syncQueue]
  · intro hquiet
    have hl : (saveToLocalStorage env
        { afterRead env endpoint s with
          mgr := { s.mgr with dataCache := s.mgr.dataCache.set ("GET:" ++ endpoint) v } }
        ).mgr.listeners = s.mgr.listeners := by
      rw [saveToLocalStorage_listeners]
    obtain ⟨hd, -⟩ := notifyListeners_quiet endpoint v
      (saveToLocalStorage env
        { afterRead env endpoint s with
          mgr := { s.mgr with dataCache := s.mgr.dataCache.set ("GET:" ++ endpoint) v } })
      (by rw [hl]; exact hquiet)
    rw [hrun]
    simp only
    rw [hd, hl, saveToLocalStorage_delivered]
    rfl

/-- C13, amended, at a read that bypasses the cache on a manager with one subscriber. -/
theorem online_read_success_witness :
    (getData envAlwaysOk "/sales/orders" false
      (subscribe "/sales/orders" { id := 5 } oneSubscriber)).1 = .ok 7 ∧
    (getData envAlwaysOk "/sales/orders" false
      (subscribe "/sales/orders" { id := 5 } oneSubscriber)).2.mgr.dataCache.get
        ("GET:" ++ "/sales/orders") = some 7 ∧
    (getData envAlwaysOk "/sales/orders" false
      (subscribe "/sales/orders" { id := 5 } oneSubscriber)).2.world.delivered = [(5, 7)] :=
  ⟨(online_read_success envAlwaysOk (subscribe "/sales/orders" { id := 5 } oneSubscriber)
      "/sales/orders" false ⟨200, "OK", some 7⟩ 7 (by decide) (Or.inl rfl) (by decide) rfl).1,
   (online_read_success envAlwaysOk (subscribe "/sales/orders" { id := 5 } oneSubscriber)
      "/sales/orders" false ⟨200, "OK", some 7⟩ 7 (by decide) (Or.inl rfl) (by decide)
      rfl).2.2.1,
   (online_read_success envAlwaysOk (subscribe "/sales/orders" { id := 5 } oneSubscriber)
      "/sales/orders" false ⟨200, "OK", some 7⟩ 7 (by decide) (Or.inl rfl) (by decide)
      rfl).2.2.2.2.2 (by decide)⟩

/-! ## C14: online read failure -/

/-- C14: when the manager is online and the network GET of `getData(E, useCache = false)`
fails with `e` (the `fetchWithRetry` call raises `e`, or it returns a response whose body
cannot be parsed and `e` is the parse failure), the call returns the cached value under
`'GET:' + E` if there is one and raises `e` otherwise; in both cases the cache, the sync
queue and the subscriptions are unchanged and no callback is invoked. -/
theorem online_read_failure (env : Env V) (s : Sys V) (endpoint : String) (e : Failure)
    (honline : s.mgr.isOnline = true)
    (hfail : (fetchWithRetry env (s.mgr.apiBaseUrl ++ endpoint) {} 0 s).1 = .error e ∨
      ∃ response, (fetchWithRetry env (s.mgr.apiBaseUrl ++ endpoint) {} 0 s).1 = .ok response ∧
        response.body = none ∧ e = .parse) :
    (getData env endpoint false s).1 =
      (match s.mgr.dataCache.get ("GET:" ++ endpoint) with
        | some v => .ok v
        | none => .error e) ∧
    (getData env endpoint false s).2.mgr.dataCache = s.mgr.dataCache ∧
    (getData env endpoint false s).2.mgr.syncQueue = s.mgr.syncQueue ∧
    (getData env endpoint false s).2.mgr.listeners = s.mgr.listeners ∧
    (getData env endpoint false s).2.world.delivered = s.world.delivered := by
  rw [fetchWithRetry_eq_outcome] at hfail
  simp only at hfail
  have hrun : getData env endpoint false s = getDataCatch endpoint e (afterRead env endpoint s) := by
    rw [getData_online env endpoint false s honline (Or.inl rfl)]
    rcases hfail with h | ⟨response, h, hbody, he⟩
    · rw [h]
    · rw [h]
      rcases response with ⟨status, statusText, body⟩
      simp only at hbody
      subst hbody
      subst he
      rfl
  rw [hrun, getDataCatch_eq]
  exact ⟨rfl, rfl, rfl, rfl, rfl⟩

/-- C14 at a cached endpoint and at an endpoint without cache entry, transport down. -/
theorem online_read_failure_witness :
    (getData (envAlwaysRejects Nat "down") "/sales/orders" false oneSubscriber).1 = .ok 4 ∧
    (getData (envAlwaysRejects Nat "down") "/sales/customers" false oneSubscriber).1 =
      .error (.network "down") :=
  ⟨(online_read_failure (envAlwaysRejects Nat "down") oneSubscriber "/sales/orders"
      (.network "down") (by decide) (Or.inl (by decide))).1,
   (online_read_failure (envAlwaysRejects Nat "down") oneSubscriber "/sales/customers"
      (.network "down") (by decide) (Or.inl (by decide))).1⟩

/-! ## C15: which entries `invalidateCache` removes -/

/-- C15, as stated, fails when an endpoint contains a colon: the entry under
`GET:/reports/daily?at=10:30` is removed by `invalidateCache('/reports/daily?at=10&shift=2')`
although its key does not contain the argument and its endpoint (the whole text after
`GET:`) is not a substring of the argument; only the piece up to the next colon is. -/
theorem colon_endpoint_removed :
    includes "GET:/reports/daily?at=10:30" "/reports/daily?at=10&shift=2" = false ∧
    includes "/reports/daily?at=10&shift=2" "/reports/daily?at=10:30" = false ∧
    endpointSegment "GET:/reports/daily?at=10:30" = "/reports/daily?at=10" ∧
    timedReport.mgr.dataCache = [("GET:/reports/daily?at=10:30", 1)] ∧
    (invalidateCache envAlwaysOk "/reports/daily?at=10&shift=2" timedReport).mgr.dataCache
      = [] := by
  decide

/-- C15, amended: for every argument A, `invalidateCache(A)` keeps, in their order and with
their values, exactly the entries whose key neither contains A nor has its piece between
the first and the second colon (`key.split(':')[1]`) contained in A.  For a key of the form
`METHOD:endpoint` with no colon in the method and none in the endpoint, that piece is the
whole endpoint, so the entry is removed exactly when the key contains A or the endpoint is a
substring of A, and is otherwise still present with its value. -/
theorem invalidateCache_removes_exactly (env : Env V) (s : Sys V) (argument : String) :
    (invalidateCache env argument s).mgr.dataCache =
      s.mgr.dataCache.filter
        (fun e => !(includes e.1 argument || includes argument (endpointSegment e.1))) ∧
    ∀ (method endpoint : String) (v : V), ':' ∉ method.data → ':' ∉ endpoint.data →
      ((method ++ ":" ++ endpoint, v) ∈ (invalidateCache env argument s).mgr.dataCache ↔
        (method ++ ":" ++ endpoint, v) ∈ s.mgr.dataCache ∧
          includes (method ++ ":" ++ endpoint) argument = false ∧
          includes argument endpoint = false) := by
  refine ⟨by rw [invalidateCache_dataCache]; rfl, ?_⟩
  intro method endpoint v hm he
  rw [invalidateCache_dataCache, List.mem_filter]
  simp only [invalidates, endpointSegment_eq method endpoint hm he, Bool.not_eq_true',
    Bool.or_eq_false_iff]

/-- C15, amended, at a cache with a collection and an unrelated entry. -/
theorem invalidateCache_removes_exactly_witness :
    (("GET" ++ ":" ++ "/sales/orders", 4) ∈
        (invalidateCache envAlwaysOk "/inventory/materials" oneSubscriber).mgr.dataCache ↔
      ("GET" ++ ":" ++ "/sales/orders", 4) ∈ oneSubscriber.mgr.dataCache ∧
        includes ("GET" ++ ":" ++ "/sales/orders") "/inventory/materials" = false ∧
        includes "/inventory/materials" "/sales/orders" = false) ∧
    ("GET" ++ ":" ++ "/sales/orders", 4) ∈
      (invalidateCache envAlwaysOk "/inventory/materials" oneSubscriber).mgr.dataCache :=
  ⟨(invalidateCache_removes_exactly envAlwaysOk oneSubscriber "/inventory/materials").2
      "GET" "/sales/orders" 4 (by decide) (by decide),
   ((invalidateCache_removes_exactly envAlwaysOk oneSubscriber "/inventory/materials").2
      "GET" "/sales/orders" 4 (by decide) (by decide)).mpr (by decide)⟩

/-! ## C16: a collection and its items invalidate each other -/

/-- C16: for every collection endpoint C and item id, after `invalidateCache(C + '/' + id)`
the cache has no entry under `'GET:' + C`, and after `invalidateCache(C)` it has no entry
under `'GET:' + C + '/' + id`. -/
theorem collection_and_item_invalidate_each_other (env : Env V) (s : Sys V)
    (collection id : String) :
    (invalidateCache env (collection ++ "/" ++ id) s).mgr.dataCache.has
      ("GET:" ++ collection) = false ∧
    (invalidateCache env collection s).mgr.dataCache.has
      ("GET:" ++ collection ++ "/" ++ id) = false := by
  constructor
  · rw [invalidateCache_dataCache]
    apply JsMap.has_filter_false
    intro v
    have hpre : (endpointSegment ("GET" ++ ":" ++ collection)).data <+: collection.data :=
      endpointSegment_prefix "GET" collection (by decide)
    have hinc : includes (collection ++ "/" ++ id) (endpointSegment ("GET:" ++ collection))
        = true := by
      rw [String.append_assoc]
      exact includes_of_prefix_left _ collection ("/" ++ id) hpre
    simp [invalidates, hinc]
  · rw [invalidateCache_dataCache]
    apply JsMap.has_filter_false
    intro v
    have hinc : includes ("GET:" ++ collection ++ "/" ++ id) collection = true := by
      rw [String.append_assoc]
      exact includes_append "GET:" collection ("/" ++ id)
    simp [invalidates, hinc]

/-! ## C17: corrupt or missing snapshot -/

/-- C17, as stated, fails: the stored text `[["GET:/inventory/materials", 1, 2]]` is valid
JSON and not an array of pairs, yet `new Map` reads an entry from it, so the manager is
constructed with a cache that is not empty. -/
theorem padded_snapshot_is_loaded :
    Parsed.isPairArray (.array [.row "GET:/inventory/materials" (1 : Nat) [2]]) = false ∧
    (ERPDataManager.new paddedStorage).mgr.dataCache = [("GET:/inventory/materials", 1)] ∧
    (ERPDataManager.new paddedStorage).mgr.dataCache ≠ [] := by
  decide

/-- C17, amended: when the stored content is absent, is a text that is empty or that
`JSON.parse` or `new Map` rejects, or is valid JSON from which `new Map` reads no entry
(`null`, the empty string, the empty array), `loadFromLocalStorage` (a total function: what
the source raises is caught inside it) leaves the cache as it was or empties it, and the
constructor builds a manager with an empty cache. -/
theorem unusable_snapshot_gives_empty_cache (s : Sys V) (apiBaseUrl : String)
    (hcontent : s.world.storage = none ∨ (∃ text, s.world.storage = some (.other text)) ∨
      ∃ value, s.world.storage = some (.parsed value) ∧
        (newMap value = none ∨ newMap value = some [])) :
    ((loadFromLocalStorage s).mgr.dataCache = s.mgr.dataCache ∨
      (loadFromLocalStorage s).mgr.dataCache = []) ∧
    (ERPDataManager.new s.world apiBaseUrl).mgr.dataCache = [] := by
  unfold ERPDataManager.new loadFromLocalStorage
  rcases hcontent with h | ⟨text, h⟩ | ⟨value, h, hmap | hmap⟩
  · simp [h]
  · by_cases ht : text = "" <;> simp [h, ht, Sys.log]
  · simp [h, hmap, Sys.log]
  · simp [h, hmap]

/-- C17, amended, at the stored texts `5` and `null`. -/
theorem unusable_snapshot_gives_empty_cache_witness :
    (ERPDataManager.new ({ storage := some (.parsed .scalar) } : World Nat)).mgr.dataCache = [] ∧
    (ERPDataManager.new ({ storage := some (.parsed .null) } : World Nat)).mgr.dataCache = [] :=
  ⟨(unusable_snapshot_gives_empty_cache
      ⟨oneSubscriber.mgr, { storage := some (.parsed .scalar) }⟩ "http://localhost:5000/api"
      (Or.inr (Or.inr ⟨.scalar, rfl, Or.inl rfl⟩))).2,
   (unusable_snapshot_gives_empty_cache
      ⟨oneSubscriber.mgr, { storage := some (.parsed .null) }⟩ "http://localhost:5000/api"
      (Or.inr (Or.inr ⟨.null, rfl, Or.inr rfl⟩))).2⟩

/-! ## C18: snapshot round trip -/

/-- C18: for every cache (a map, so with distinct keys) of JSON-compatible values (each
reads back from its JSON text as itself), when the write of `saveToLocalStorage` succeeds
the stored snapshot is the array of the entries of the cache, a manager constructed on that
storage has a cache with the same keys, values and order, and on it
`getData(E, useCache = true)` returns the stored value for every stored key `'GET:' + E` and
leaves the state as it is, so without any transport call. -/
theorem snapshot_round_trip (env env2 : Env V) (s : Sys V) (w : World V)
    (apiBaseUrl : String) (hkeys : (s.mgr.dataCache.map Prod.fst).Nodup)
    (hjson : ∀ e ∈ s.mgr.dataCache, env.jsonRoundTrip e.2 = e.2)
    (hwrite : env.setItemThrows s.world.storageWrites = false)
    (hstore : w.storage = (saveToLocalStorage env s).world.storage) :
    (saveToLocalStorage env s).world.storage = some (.snapshot s.mgr.dataCache) ∧
    (ERPDataManager.new w apiBaseUrl).mgr.dataCache = s.mgr.dataCache ∧
    ∀ endpoint v, s.mgr.dataCache.get ("GET:" ++ endpoint) = some v →
      getData env2 endpoint true (ERPDataManager.new w apiBaseUrl) =
        (.ok v, ERPDataManager.new w apiBaseUrl) := by
  have hsave : (saveToLocalStorage env s).world.storage = some (.snapshot s.mgr.dataCache) := by
    rw [saveToLocalStorage_storage env s hwrite, snapshotOf_of_compatible env _ hjson]
  rw [hsave] at hstore
  have hcache : (ERPDataManager.new w apiBaseUrl).mgr.dataCache = s.mgr.dataCache := by
    unfold ERPDataManager.new loadFromLocalStorage
    simp only [hstore]
    exact JsMap.ofEntries_of_nodup _ hkeys
  refine ⟨hsave, hcache, ?_⟩
  intro endpoint v hv
  unfold getData
  simp only [if_true, hcache, hv]

/-- C18 at the cache of the manager with one subscriber, restored in a fresh world. -/
theorem snapshot_round_trip_witness :
    (ERPDataManager.new
      ({ storage := (saveToLocalStorage envAlwaysOk oneSubscriber).world.storage }
        : World Nat)).mgr.dataCache = oneSubscriber.mgr.dataCache ∧
    getData (envAlwaysRejects Nat "down") "/sales/orders" true
        (ERPDataManager.new
          { storage := (saveToLocalStorage envAlwaysOk oneSubscriber).world.storage }) =
      (.ok 4, ERPDataManager.new
        { storage := (saveToLocalStorage envAlwaysOk oneSubscriber).world.storage }) :=
  ⟨(snapshot_round_trip envAlwaysOk (envAlwaysRejects Nat "down") oneSubscriber
      { storage := (saveToLocalStorage envAlwaysOk oneSubscriber).world.storage }
      "http://localhost:5000/api" (by decide) (by decide) (by decide) rfl).2.1,
   (snapshot_round_trip envAlwaysOk (envAlwaysRejects Nat "down") oneSubscriber
      { storage := (saveToLocalStorage envAlwaysOk oneSubscriber).world.storage }
      "http://localhost:5000/api" (by decide) (by decide) (by decide) rfl).2.2
      "/sales/orders" 4 (by decide)⟩

/-! ## C19: write-through -/

/-- C19, as stated, fails: the server answers a read with the number `1e999`, which
`response.json()` reads as `Infinity`.  The read succeeds, the cache holds `Infinity` under
the key of the endpoint and the storage write succeeds, but `JSON.stringify` writes
`Infinity` as `null`: the stored snapshot decodes to an entry with the value `null`, which is
not the in-memory cache, and a manager constructed on that storage has `null` in its
cache. -/
theorem infinity_is_stored_as_null :
    (getData envInfinity "/reports/daily" true (ERPDataManager.new {})).1 = .ok .infinity ∧
    (getData envInfinity "/reports/daily" true (ERPDataManager.new {})).2.mgr.dataCache =
      [("GET:/reports/daily", .infinity)] ∧
    (getData envInfinity "/reports/daily" true (ERPDataManager.new {})).2.world.storageWrites
      = 1 ∧
    (getData envInfinity "/reports/daily" true (ERPDataManager.new {})).2.world.console = [] ∧
    (getData envInfinity "/reports/daily" true (ERPDataManager.new {})).2.world.storage =
      some (.snapshot [("GET:/reports/daily", .null)]) ∧
    (getData envInfinity "/reports/daily" true (ERPDataManager.new {})).2.world.storage ≠
      some (.snapshot
        (getData envInfinity "/reports/daily" true (ERPDataManager.new {})).2.mgr.dataCache) ∧
    (ERPDataManager.new
      { storage := (getData envInfinity "/reports/daily" true
          (ERPDataManager.new {})).2.world.storage }).mgr.dataCache =
      [("GET:/reports/daily", .null)] := by
  decide

/-- C19, amended: provided the storage write succeeds, the stored snapshot decodes to the
entries of the in-memory cache, in their order, with every value as it reads back from its
JSON text, after `invalidateCache`, after `clearCache` (where both are empty), after a
`getData` that stores a value, and after a successful mutation; a `getData` or a mutation
that does not leave the snapshot so leaves the cache as it was; and for a cache whose values
are all JSON-compatible those entries are exactly the cache. -/
theorem write_through (env : Env V) (s : Sys V)
    (hwrite : env.setItemThrows s.world.storageWrites = false) :
    (∀ argument, (invalidateCache env argument s).world.storage =
      some (.snapshot (snapshotOf env (invalidateCache env argument s).mgr.dataCache))) ∧
    ((clearCache env s).mgr.dataCache = [] ∧
      (clearCache env s).world.storage = some (.snapshot [])) ∧
    (∀ endpoint useCache response v, s.mgr.isOnline = true →
      (useCache = false ∨ s.mgr.dataCache.get ("GET:" ++ endpoint) = none) →
      (fetchWithRetry env (s.mgr.apiBaseUrl ++ endpoint) {} 0 s).1 = .ok response →
      response.body = some v →
      (getData env endpoint useCache s).2.world.storage =
        some (.snapshot (snapshotOf env (getData env endpoint useCache s).2.mgr.dataCache))) ∧
    (∀ endpoint useCache,
      (getData env endpoint useCache s).2.mgr.dataCache = s.mgr.dataCache ∨
      (getData env endpoint useCache s).2.world.storage =
        some (.snapshot (snapshotOf env (getData env endpoint useCache s).2.mgr.dataCache))) ∧
    (∀ (m : Mutation V) r, (m.run env s).1 = .ok (.result r) →
      (m.run env s).2.world.storage =
        some (.snapshot (snapshotOf env (m.run env s).2.mgr.dataCache))) ∧
    (∀ m : Mutation V,
      (m.run env s).2.mgr.dataCache = s.mgr.dataCache ∨
      (m.run env s).2.world.storage =
        some (.snapshot (snapshotOf env (m.run env s).2.mgr.dataCache))) ∧
    (∀ cache : JsMap V, (∀ e ∈ cache, env.jsonRoundTrip e.2 = e.2) →
      snapshotOf env cache = cache) ∧
    (∀ cache : JsMap V, snapshotOf env cache =
      cache.map (fun e => (e.1, env.jsonRoundTrip e.2))) := by
  refine ⟨fun argument => invalidateCache_storage env argument s hwrite, ?_, ?_,
    fun endpoint useCache => getData_unchanged_or_written env s endpoint useCache hwrite,
    ?_, ?_, fun cache hjson => snapshotOf_of_compatible env cache hjson, fun _ => rfl⟩
  · unfold clearCache
    exact ⟨by rw [saveToLocalStorage_dataCache], saveToLocalStorage_storage env _ hwrite⟩
  · intro endpoint useCache response v honline hmiss hfetch hbody
    rw [fetchWithRetry_eq_outcome] at hfetch
    simp only at hfetch
    rcases response with ⟨status, statusText, body⟩
    simp only at hbody
    subst hbody
    rw [getData_online env endpoint useCache s honline hmiss, hfetch]
    simp only [notifyListeners_storage, notifyListeners_dataCache,
      saveToLocalStorage_dataCache]
    exact saveToLocalStorage_storage env _ hwrite
  · intro m r hr
    rcases mutation_unchanged_or_written env s m hwrite with ⟨-, hne⟩ | h
    · exact absurd hr (hne r)
    · exact h
  · intro m
    rcases mutation_unchanged_or_written env s m hwrite with ⟨h, -⟩ | h
    · exact Or.inl h
    · exact Or.inr h

/-- C19, amended, at `clearCache` and at a successful `createData` on a manager with two
cached entries of JSON-compatible values. -/
theorem write_through_witness :
    (clearCache envAlwaysOk oneSubscriber).world.storage = some (.snapshot []) ∧
    (createData envAlwaysOk "/inventory/materials" (some 5) oneSubscriber).2.world.storage =
      some (.snapshot [("GET:/sales/orders", 4)]) :=
  ⟨(write_through envAlwaysOk oneSubscriber (by decide)).2.1.2,
   (write_through envAlwaysOk oneSubscriber (by decide)).2.2.2.2.1
      (.create "/inventory/materials" (some 5)) 7 (by decide)⟩

/-! ## C20: the last failure is surfaced -/

/-- C20: whenever every attempt of `fetchWithRetry` fails (the first call and each of the
`retryAttempts - attempt` retries), it makes exactly these calls and the value it raises is
the failure of its final attempt, as that attempt threw it. -/
theorem last_failure_surfaced (env : Env V) (url : String) (options : FetchOptions V)
    (attempt : Nat) (s : Sys V)
    (hfail : ∀ i, i ≤ s.mgr.retryAttempts - attempt →
      (env.fetch (s.world.fetchLog.length + i) (requestOf url options)).failure ≠ none) :
    ∃ e, (env.fetch (s.world.fetchLog.length + (s.mgr.retryAttempts - attempt))
        (requestOf url options)).failure = some e ∧
      (fetchWithRetry env url options attempt s).1 = .error e ∧
      (fetchWithRetry env url options attempt s).2.world.fetchLog =
        s.world.fetchLog ++
          List.replicate (s.mgr.retryAttempts - attempt + 1) (requestOf url options) := by
  obtain ⟨e, he, hrun⟩ := fetchRetrying_fail_bounded env (requestOf url options)
    s.mgr.retryDelay (s.mgr.retryAttempts - attempt) s.world hfail
  refine ⟨e, he, ?_, ?_⟩
  · unfold fetchWithRetry
    unfold requestOf at hrun
    rw [hrun]
  · unfold fetchWithRetry
    unfold requestOf at hrun
    rw [hrun]
    rfl

/-- C20 at a transport that rejects three calls and then answers 503: the error raised
is the HTTP error of the fourth call, not the network error of the earlier ones. -/
theorem last_failure_surfaced_witness :
    (fetchWithRetry envDegrading "/api/x" {} 0 (ERPDataManager.new {})).1 =
      .error (.http 503 "Service Unavailable") ∧
    (fetchWithRetry envDegrading "/api/x" {} 0 (ERPDataManager.new {})).2.world.fetchLog.length
      = 4 := by
  obtain ⟨e, he, hrun, hlog⟩ :=
    last_failure_surfaced envDegrading "/api/x" {} 0 (ERPDataManager.new {}) (by decide)
  have he2 : some (Failure.http 503 "Service Unavailable") = some e := he
  rw [hrun, hlog, ← Option.some.inj he2]
  exact ⟨rfl, by decide⟩

/-! ## C21: the connectivity flag -/

/-- C21: the connectivity flag is `true` in the manager the constructor builds; the listener
of the `online` event leaves it `true` and the listener of the `offline` event leaves it
`false`; and `getData`, `createData`, `updateData`, `deleteData`, `processSyncQueue`,
`fetchWithRetry`, `invalidateCache`, `clearCache`, `subscribe`, an unsubscribe handle,
`notifyListeners` and `getStatus` leave it as it was, whatever the transport answers, so also
when a mutation fails while online and is queued. -/
theorem connectivity_flag (env : Env V) (w : World V) (apiBaseUrl : String) (s : Sys V) :
    (ERPDataManager.new w apiBaseUrl).mgr.isOnline = true ∧
    (onOnline env s).mgr.isOnline = true ∧
    (onOffline s).mgr.isOnline = false ∧
    (∀ endpoint useCache, (getData env endpoint useCache s).2.mgr.isOnline = s.mgr.isOnline) ∧
    (∀ endpoint payload, (createData env endpoint payload s).2.mgr.isOnline = s.mgr.isOnline) ∧
    (∀ endpoint payload, (updateData env endpoint payload s).2.mgr.isOnline = s.mgr.isOnline) ∧
    (∀ endpoint, (deleteData env endpoint s).2.mgr.isOnline = s.mgr.isOnline) ∧
    (processSyncQueue env s).mgr.isOnline = s.mgr.isOnline ∧
    (∀ url options attempt,
      (fetchWithRetry env url options attempt s).2.mgr.isOnline = s.mgr.isOnline) ∧
    (∀ endpoint, (invalidateCache env endpoint s).mgr.isOnline = s.mgr.isOnline) ∧
    (clearCache env s).mgr.isOnline = s.mgr.isOnline ∧
    (∀ endpoint callback, (subscribe endpoint callback s).mgr.isOnline = s.mgr.isOnline) ∧
    (∀ endpoint id,
      ((callHandle endpoint id s.mgr).getD s.mgr).isOnline = s.mgr.isOnline) ∧
    (∀ endpoint data, (notifyListeners endpoint data s).mgr.isOnline = s.mgr.isOnline) ∧
    (getStatusStep env s).2.mgr.isOnline = s.mgr.isOnline := by
  refine ⟨?_, ?_, ?_, ?_, ?_, ?_, ?_, ?_, ?_, ?_, ?_, ?_, ?_, ?_, ?_⟩
  · unfold ERPDataManager.new
    rw [loadFromLocalStorage_isOnline]
  · unfold onOnline
    rw [processSyncQueue_isOnline]
    rfl
  · rfl
  · exact fun endpoint useCache => getData_isOnline env endpoint useCache s
  · intro endpoint payload
    obtain ⟨k, t, h⟩ := mutate_summary env .POST endpoint payload (jsonOptions .POST payload) s
    exact h.2.2.2.2.2.2.1
  · intro endpoint payload
    obtain ⟨k, t, h⟩ := mutate_summary env .PUT endpoint payload (jsonOptions .PUT payload) s
    exact h.2.2.2.2.2.2.1
  · intro endpoint
    obtain ⟨k, t, h⟩ := mutate_summary env .DELETE endpoint none { method := .DELETE } s
    exact h.2.2.2.2.2.2.1
  · exact processSyncQueue_isOnline env s
  · intro url options attempt
    rfl
  · intro endpoint
    simp
  · unfold clearCache
    simp
  · intro endpoint callback
    rfl
  · intro endpoint id
    cases h : callHandle endpoint id s.mgr with
    | none => rfl
    | some m1 => exact callHandle_isOnline endpoint id s.mgr m1 h
  · intro endpoint data
    simp
  · rfl

/-! ## C22: notification isolation -/

/-- C22, as stated, fails: with two callbacks subscribed to `/inventory/materials`, the first
of which calls its own unsubscribe handle when invoked, `notifyListeners` invokes the first
only; the second is not invoked, and the subscription list of the endpoint has changed. -/
theorem notification_skips_successor :
    twoSubscribers.mgr.listeners.get "/inventory/materials" =
      some [selfRemoving "/inventory/materials" 1, { id := 2 }] ∧
    (notifyListeners "/inventory/materials" 7 twoSubscribers).world.delivered = [(1, 7)] ∧
    (2, 7) ∉ (notifyListeners "/inventory/materials" 7 twoSubscribers).world.delivered ∧
    (notifyListeners "/inventory/materials" 7 twoSubscribers).mgr.listeners.get
      "/inventory/materials" = some [{ id := 2 }] := by
  decide

/-- C22, amended: for every endpoint E and value v, provided no callback subscribed to E calls
an unsubscribe handle while it is notified, `notifyListeners(E, v)` invokes each callback
subscribed to E once with v, in subscription order, also when some of them throw (each throw
gives one console line and nothing else); the call returns normally and leaves the whole
manager, so the cache, the queue and the subscription lists, as it was. -/
theorem notifyListeners_isolation (endpoint : String) (data : V) (s : Sys V)
    (hquiet : ∀ c ∈ (s.mgr.listeners.get endpoint).getD [], c.unsubscribes = []) :
    (notifyListeners endpoint data s).world.delivered =
      s.world.delivered ++
        ((s.mgr.listeners.get endpoint).getD []).map (fun c => (c.id, data)) ∧
    (notifyListeners endpoint data s).world.console =
      s.world.console ++
        (((s.mgr.listeners.get endpoint).getD []).filter (fun c => c.throws)).map
          (fun _ => ConsoleMsg.listenerError) ∧
    (notifyListeners endpoint data s).mgr = s.mgr := by
  unfold notifyListeners
  cases hget : s.mgr.listeners.get endpoint with
  | none => simp
  | some cbs =>
    rw [hget] at hquiet
    simp only [Option.getD_some] at hquiet ⊢
    rw [notifyLoop_quiet_from endpoint data cbs cbs.length 0 s hget (by simpa using hquiet)]
    simp

/-- C22, amended, at three subscribers the second of which throws: all three are invoked in
order and one console line is written. -/
theorem notifyListeners_isolation_witness :
    (∀ c ∈ (throwingSubscribers.mgr.listeners.get "/inventory/materials").getD [],
      c.unsubscribes = []) ∧
    (notifyListeners "/inventory/materials" 7 throwingSubscribers).world.delivered =
      [(1, 7), (2, 7), (3, 7)] ∧
    (notifyListeners "/inventory/materials" 7 throwingSubscribers).world.console =
      [ConsoleMsg.listenerError] ∧
    (notifyListeners "/inventory/materials" 7 throwingSubscribers).mgr =
      throwingSubscribers.mgr :=
  ⟨by decide,
   (notifyListeners_isolation "/inventory/materials" 7 throwingSubscribers (by decide)).1,
   (notifyListeners_isolation "/inventory/materials" 7 throwingSubscribers (by decide)).2.1,
   (notifyListeners_isolation "/inventory/materials" 7 throwingSubscribers (by decide)).2.2⟩

/-! ## C23: the unsubscribe handle -/

/-- C23: `subscribe(E, cb)` puts `cb` at the end of the list of E and leaves the lists of the
other endpoints as they are.  When `cb` was not in the list of E before, calling the handle
returned gives back the list of E as it was before the subscription, in its order, with the
lists of the other endpoints unchanged, so that a following `notifyListeners(E, v)` invokes
no callback with the identity of `cb`; and calling the handle again leaves the manager as it
is. -/
theorem subscribe_then_unsubscribe (endpoint : String) (callback : Callback) (data : V)
    (s : Sys V)
    (hfresh : ∀ c ∈ (s.mgr.listeners.get endpoint).getD [], c.id ≠ callback.id) :
    (subscribe endpoint callback s).mgr.listeners.get endpoint =
      some ((s.mgr.listeners.get endpoint).getD [] ++ [callback]) ∧
    (∀ other, other ≠ endpoint →
      (subscribe endpoint callback s).mgr.listeners.get other = s.mgr.listeners.get other) ∧
    ∃ m1, callHandle endpoint callback.id (subscribe endpoint callback s).mgr = some m1 ∧
      m1.listeners.get endpoint = some ((s.mgr.listeners.get endpoint).getD []) ∧
      (∀ other, other ≠ endpoint → m1.listeners.get other = s.mgr.listeners.get other) ∧
      (∃ D, (notifyListeners endpoint data { mgr := m1, world := s.world }).world.delivered =
          s.world.delivered ++ D ∧ ∀ p ∈ D, p.1 ≠ callback.id) ∧
      callHandle endpoint callback.id m1 = some m1 := by
  obtain ⟨hsub, hother⟩ := subscribe_listeners endpoint callback s
  obtain ⟨hfirst, hsecond⟩ := callHandle_last endpoint callback
    ((s.mgr.listeners.get endpoint).getD []) (subscribe endpoint callback s).mgr hsub hfresh
  refine ⟨hsub, hother, _, hfirst, ?_, ?_, ?_, hsecond⟩
  · exact JsMap.get_set_self _ _ _
  · intro other hne
    show JsMap.get (JsMap.set _ _ _) other = _
    rw [JsMap.get_set_other _ _ _ _ hne]
    exact hother other hne
  · obtain ⟨D, hD, hfrom⟩ := notifyListeners_delivered_from endpoint data
      ({ mgr := { (subscribe endpoint callback s).mgr with
            listeners := (subscribe endpoint callback s).mgr.listeners.set endpoint
              ((s.mgr.listeners.get endpoint).getD []) },
         world := s.world } : Sys V)
    refine ⟨D, hD, ?_⟩
    intro p hp
    obtain ⟨c, hc, rfl⟩ := hfrom p hp
    simp only [JsMap.get_set_self, Option.getD_some] at hc
    exact hfresh c hc

/-- C23 at a manager with one subscriber of `/inventory/materials` and a second callback
that subscribes and then calls its handle twice. -/
theorem subscribe_then_unsubscribe_witness :
    (∀ c ∈ (oneSubscriber.mgr.listeners.get "/inventory/materials").getD [], c.id ≠ 5) ∧
    (subscribe "/inventory/materials" { id := 5 } oneSubscriber).mgr.listeners.get
      "/inventory/materials" = some [{ id := 2 }, { id := 5 }] ∧
    ∃ m1, callHandle "/inventory/materials" 5
        (subscribe "/inventory/materials" { id := 5 } oneSubscriber).mgr = some m1 ∧
      m1.listeners.get "/inventory/materials" = some [{ id := 2 }] ∧
      callHandle "/inventory/materials" 5 m1 = some m1 :=
  ⟨by decide,
   (subscribe_then_unsubscribe "/inventory/materials" { id := 5 } 7 oneSubscriber
      (by decide)).1,
   (subscribe_then_unsubscribe "/inventory/materials" { id := 5 } 7 oneSubscriber
      (by decide)).2.2.elim (fun m1 h => ⟨m1, h.1, h.2.1, h.2.2.2.2⟩)⟩

/-! ## C24: status -/

/-- C24: for every manager state `getStatus()` returns the connectivity flag, the number of
entries of the cache as `cacheSize` and the length of the sync queue as `queuedOperations`;
it leaves the manager, so the cache, the queue, the subscriptions and the flag, as it was, and
its only effect on the world is to read the clock for the timestamp. -/
theorem getStatus_reports (env : Env V) (s : Sys V) :
    (getStatusStep env s).1.1.isOnline = s.mgr.isOnline ∧
    (getStatusStep env s).1.1.cacheSize = s.mgr.dataCache.length ∧
    (getStatusStep env s).1.1.queuedOperations = s.mgr.syncQueue.length ∧
    (getStatusStep env s).1.1 = getStatus s ∧
    (getStatusStep env s).2.mgr = s.mgr ∧
    (getStatusStep env s).2.world = { s.world with clockReads := s.world.clockReads + 1 } :=
  ⟨rfl, rfl, rfl, rfl, rfl, rfl⟩

/-! ## C25: two signals, two drains -/

/-- C25, as stated, fails: the source has no single-flight guard.  A manager with one queued
order receives an `online` signal, which starts a drain that is suspended on the request of
that order; then come an `offline` signal, an offline `createData('/sales/customers', 200)`,
which is queued, and a second `online` signal, all before the first request is answered.
The second signal starts a second drain: two drains are suspended at the same time, and both
requests have been sent. -/
theorem second_signal_starts_second_drain :
    (EventLoop.online envAlwaysOk ⟨queuedOrder, []⟩).drains =
      [⟨⟨.POST, "/sales/orders", some 100, 0⟩, []⟩] ∧
    twoSignals.drains =
      [⟨⟨.POST, "/sales/orders", some 100, 0⟩, []⟩,
       ⟨⟨.POST, "/sales/customers", some 200, 3⟩, []⟩] ∧
    twoSignals.sys.world.fetchLog =
      [requestOf "http://localhost:5000/api/sales/orders" (jsonOptions .POST (some 100)),
       requestOf "http://localhost:5000/api/sales/customers" (jsonOptions .POST (some 200))]
    := by
  decide

/-- C25, amended: whatever drains are suspended, the turn of an `online` signal sets the flag
and, when the queue is not empty at that moment, starts one more drain, whose snapshot is the
whole queue at that moment and which is suspended on the request of the first operation of
the snapshot; the queue is empty after the turn.  A signal that finds the queue empty starts
no drain.  So a second signal starts a drain that runs concurrently with the first whenever
an operation was queued in between, and the second drain holds only operations queued after
the first one took its snapshot.  The request the turn sends is the first one of the run of
the listener to its end. -/
theorem online_signal_starts_a_drain (env : Env V) (l : EventLoop V) :
    (l.online env).drains =
      l.drains ++
        (match l.sys.mgr.syncQueue with
          | [] => []
          | o :: rest => [⟨o, rest⟩]) ∧
    (l.online env).sys.mgr.syncQueue = [] ∧
    (l.online env).sys.mgr.isOnline = true ∧
    (l.online env).sys.world.fetchLog =
      l.sys.world.fetchLog ++
        (match l.sys.mgr.syncQueue with
          | [] => []
          | o :: _ => [o.request l.sys.mgr.apiBaseUrl]) ∧
    (l.online env).sys.world.fetchLog <+: (onOnline env l.sys).world.fetchLog := by
  have hpre := processSyncQueueStart_prefix env
    (({ l.sys with mgr := { l.sys.mgr with isOnline := true } } : Sys V).log .onlineSyncing) rfl
  have heq := processSyncQueueStart_eq env
    (({ l.sys with mgr := { l.sys.mgr with isOnline := true } } : Sys V).log .onlineSyncing) rfl
  refine ⟨?_, ?_, ?_, ?_, hpre⟩
  · unfold EventLoop.online
    simp only
    rw [heq]
    cases hq : l.sys.mgr.syncQueue <;> simp [Sys.log, hq]
  · unfold EventLoop.online
    simp only
    rw [heq]
    cases hq : l.sys.mgr.syncQueue <;> simp [Sys.log, hq]
  · unfold EventLoop.online
    simp only
    rw [heq]
    cases hq : l.sys.mgr.syncQueue <;> simp [Sys.log, hq]
  · unfold EventLoop.online
    simp only
    rw [heq]
    cases hq : l.sys.mgr.syncQueue <;> simp [Sys.log, hq]

/-- C25, amended, at a second `online` signal that follows the first with nothing queued in
between: the queue is empty after the first signal, so the second starts no drain. -/
theorem online_signal_starts_a_drain_witness :
    (EventLoop.online envAlwaysOk (EventLoop.online envAlwaysOk ⟨queuedOrder, []⟩)).drains =
      (EventLoop.online envAlwaysOk ⟨queuedOrder, []⟩).drains ++
        (match (EventLoop.online envAlwaysOk ⟨queuedOrder, []⟩).sys.mgr.syncQueue with
          | [] => []
          | o :: rest => [⟨o, rest⟩]) ∧
    (EventLoop.online envAlwaysOk ⟨queuedOrder, []⟩).sys.mgr.syncQueue = [] :=
  ⟨(online_signal_starts_a_drain envAlwaysOk
      (EventLoop.online envAlwaysOk ⟨queuedOrder, []⟩)).1,
   (online_signal_starts_a_drain envAlwaysOk ⟨queuedOrder, []⟩).2.1⟩

/-! ## C26: the number of transport calls of `fetchWithRetry` -/

/-- C26: for every retry limit `n = retryAttempts`, every attempt index `a` and every
transport, `fetchWithRetry(url, options, a)` returns or raises after `k + 1` transport calls
with `k ≤ n - a` (the subtraction of natural numbers, which is 0 when `a` exceeds `n`) and
`k` waits; its outcome is that of the last call, every earlier call failed, so a response it
returns is the first successful one and no call follows it, and it raises only after
`n - a + 1` calls. -/
theorem fetchWithRetry_call_bound (env : Env V) (url : String) (options : FetchOptions V)
    (attempt : Nat) (s : Sys V) :
    ∃ k, k ≤ s.mgr.retryAttempts - attempt ∧
      (fetchWithRetry env url options attempt s).2.world.fetchLog =
        s.world.fetchLog ++ List.replicate (k + 1) (requestOf url options) ∧
      (fetchWithRetry env url options attempt s).2.world.sleeps =
        s.world.sleeps ++ List.replicate k s.mgr.retryDelay ∧
      (fetchWithRetry env url options attempt s).1 =
        (env.fetch (s.world.fetchLog.length + k) (requestOf url options)).result ∧
      (∀ i, i < k →
        ∃ e, (env.fetch (s.world.fetchLog.length + i) (requestOf url options)).result =
          .error e) ∧
      (∀ e, (fetchWithRetry env url options attempt s).1 = .error e →
        k = s.mgr.retryAttempts - attempt) := by
  obtain ⟨hle, hlast, hbefore, hall⟩ := retryOutcome_spec env (requestOf url options)
    (s.mgr.retryAttempts - attempt) s.world.fetchLog.length
  refine ⟨(retryOutcome env (requestOf url options) (s.mgr.retryAttempts - attempt)
    s.world.fetchLog.length).2, hle, ?_, ?_, ?_, hbefore, ?_⟩
  · unfold fetchWithRetry
    simp only
    rw [show ({ url := url, options := options } : Request V) = requestOf url options from rfl,
      fetchRetrying_eq]
  · unfold fetchWithRetry
    simp only
    rw [show ({ url := url, options := options } : Request V) = requestOf url options from rfl,
      fetchRetrying_eq]
  · unfold fetchWithRetry
    simp only
    rw [show ({ url := url, options := options } : Request V) = requestOf url options from rfl,
      fetchRetrying_eq]
    exact hlast
  · intro e he
    apply hall e
    unfold fetchWithRetry at he
    simp only at he
    rw [show ({ url := url, options := options } : Request V) = requestOf url options from rfl,
      fetchRetrying_eq] at he
    exact he

/-- C26 at a transport that rejects twice and then answers: the instance for the
constructor's manager. -/
theorem fetchWithRetry_call_bound_witness :
    ∃ k, k ≤ (ERPDataManager.new ({} : World Nat)).mgr.retryAttempts - 0 ∧
      (fetchWithRetry envRecovering "http://localhost:5000/api/sales/orders" {} 0
        (ERPDataManager.new {})).2.world.fetchLog =
        (ERPDataManager.new ({} : World Nat)).world.fetchLog ++ List.replicate (k + 1)
          (requestOf "http://localhost:5000/api/sales/orders" {}) ∧
      (fetchWithRetry envRecovering "http://localhost:5000/api/sales/orders" {} 0
        (ERPDataManager.new {})).2.world.sleeps =
        (ERPDataManager.new ({} : World Nat)).world.sleeps ++ List.replicate k
          (ERPDataManager.new ({} : World Nat)).mgr.retryDelay ∧
      (fetchWithRetry envRecovering "http://localhost:5000/api/sales/orders" {} 0
        (ERPDataManager.new {})).1 =
        (envRecovering.fetch ((ERPDataManager.new ({} : World Nat)).world.fetchLog.length + k)
          (requestOf "http://localhost:5000/api/sales/orders" {})).result ∧
      (∀ i, i < k →
        ∃ e, (envRecovering.fetch
          ((ERPDataManager.new ({} : World Nat)).world.fetchLog.length + i)
          (requestOf "http://localhost:5000/api/sales/orders" {})).result = .error e) ∧
      (∀ e, (fetchWithRetry envRecovering "http://localhost:5000/api/sales/orders" {} 0
        (ERPDataManager.new {})).1 = .error e →
        k = (ERPDataManager.new ({} : World Nat)).mgr.retryAttempts - 0) :=
  fetchWithRetry_call_bound envRecovering "http://localhost:5000/api/sales/orders" {} 0
    (ERPDataManager.new {})

/-! ## C27: the filterless query of a collection survives the invalidation of an item -/

/-- C27: for every collection path C and item id that contain neither `?` nor `:`,
`invalidateCache(C + '/' + id)` leaves what the cache holds under `'GET:' + C + '?'` as it
was.  That is the key of `fetchSalesOrders()` without filters: when its read of
`/sales/orders?` succeeds with `v` it returns `v` and the cache holds `v` under
`GET:/sales/orders?`.  So `createData`, `updateData` or `deleteData` on `C + '/' + id` (the
cases of `m`) leaves that entry as it was, whether or not the request succeeds. -/
theorem item_invalidation_keeps_query (env : Env V) (s : Sys V) (collection id : String)
    (hc1 : '?' ∉ collection.data) (hc2 : ':' ∉ collection.data)
    (hi1 : '?' ∉ id.data) (hi2 : ':' ∉ id.data) :
    (invalidateCache env (collection ++ "/" ++ id) s).mgr.dataCache.get
        ("GET:" ++ collection ++ "?") =
      s.mgr.dataCache.get ("GET:" ++ collection ++ "?") ∧
    (∀ (emptyArray v : V), (getData env "/sales/orders?" true s).1 = .ok v →
      (fetchSalesOrders env emptyArray "" s).1 = v ∧
      (fetchSalesOrders env emptyArray "" s).2.mgr.dataCache.get
        ("GET:" ++ "/sales/orders" ++ "?") = some v) ∧
    (∀ m : Mutation V, m.endpoint = collection ++ "/" ++ id →
      (m.run env s).2.mgr.dataCache.get ("GET:" ++ collection ++ "?") =
        s.mgr.dataCache.get ("GET:" ++ collection ++ "?")) := by
  have hkeep : JsMap.get
      (s.mgr.dataCache.filter (fun e => !invalidates (collection ++ "/" ++ id) e.1))
      ("GET:" ++ collection ++ "?") = JsMap.get s.mgr.dataCache ("GET:" ++ collection ++ "?") :=
    JsMap.get_filter_of_keep _ _ _ (fun _ => by
      simp [invalidates_item_query collection id hc1 hc2 hi1 hi2])
  refine ⟨?_, ?_, ?_⟩
  · rw [invalidateCache_dataCache]
    exact hkeep
  · intro emptyArray v hread
    have hrun : fetchSalesOrders env emptyArray "" s =
        (v, (getData env "/sales/orders?" true s).2) := by
      unfold fetchSalesOrders
      rw [fetchOrFallback_eq]
      show (match (getData env "/sales/orders?" true s).1 with
        | .ok v => (v, (getData env "/sales/orders?" true s).2)
        | .error _ => (emptyArray,
            (getData env "/sales/orders?" true s).2.log (.fetcherError "sales orders"))) = _
      rw [hread]
    rw [hrun]
    exact ⟨rfl, getData_ok_cached env "/sales/orders?" true s v hread⟩
  · intro m hm
    rw [Mutation.run_eq]
    rcases mutate_dataCache env (m.operation 0).type m.endpoint (m.operation 0).payload
      m.options s with h | h
    · rw [h]
    · rw [h, hm]
      exact hkeep

/-- C27 at the manager that has read `/sales/orders?`: a successful
`updateData('/sales/orders/42', 1)` leaves the cached query in place. -/
theorem item_invalidation_keeps_query_witness :
    afterSalesQuery.mgr.dataCache = [("GET:/sales/orders?", 7)] ∧
    (updateData envAlwaysOk "/sales/orders/42" (some 1) afterSalesQuery).1 =
      .ok (.result 7) ∧
    (updateData envAlwaysOk "/sales/orders/42" (some 1) afterSalesQuery).2.mgr.dataCache.get
        ("GET:" ++ "/sales/orders" ++ "?") =
      afterSalesQuery.mgr.dataCache.get ("GET:" ++ "/sales/orders" ++ "?") ∧
    (invalidateCache envAlwaysOk ("/sales/orders" ++ "/" ++ "42")
        afterSalesQuery).mgr.dataCache.get ("GET:" ++ "/sales/orders" ++ "?") =
      afterSalesQuery.mgr.dataCache.get ("GET:" ++ "/sales/orders" ++ "?") :=
  ⟨by decide, by decide,
   (item_invalidation_keeps_query envAlwaysOk afterSalesQuery "/sales/orders" "42"
      (by decide) (by decide) (by decide) (by decide)).2.2
      (.update "/sales/orders/42" (some 1)) (by decide),
   (item_invalidation_keeps_query envAlwaysOk afterSalesQuery "/sales/orders" "42"
      (by decide) (by decide) (by decide) (by decide)).1⟩

/-! ## C28: a result that cannot be parsed -/

/-- C28: when the manager is online and the request of `createData`, `updateData` or
`deleteData` (the cases of `m`) is answered with a response that has the `ok` flag but whose
body cannot be read as JSON, the call raises the parse failure and appends its operation to
the sync queue; the cache, the stored snapshot and the number of storage writes are as before
(no invalidation ran), no callback was invoked and the subscriptions are unchanged; and the
next drain sends the same request again. -/
theorem unparseable_result_is_queued (env : Env V) (s : Sys V) (m : Mutation V)
    (response : Response V) (honline : s.mgr.isOnline = true)
    (hfetch : (fetchWithRetry env (s.mgr.apiBaseUrl ++ m.endpoint) m.options 0 s).1 =
      .ok response)
    (hbody : response.body = none) :
    response.ok = true ∧
    (m.run env s).1 = .error .parse ∧
    (m.run env s).2.mgr.syncQueue =
      s.mgr.syncQueue ++ [m.operation (env.now s.world.clockReads)] ∧
    (m.run env s).2.mgr.dataCache = s.mgr.dataCache ∧
    (m.run env s).2.world.storage = s.world.storage ∧
    (m.run env s).2.world.storageWrites = s.world.storageWrites ∧
    (m.run env s).2.world.delivered = s.world.delivered ∧
    (m.run env s).2.mgr.listeners = s.mgr.listeners ∧
    requestOf (s.mgr.apiBaseUrl ++ m.endpoint) m.options ∈
      ((processSyncQueue env (m.run env s).2).world.fetchLog).drop
        (m.run env s).2.world.fetchLog.length := by
  have hok : response.ok = true := by
    rw [fetchWithRetry_eq_outcome] at hfetch
    simp only at hfetch
    rw [(retryOutcome_spec env _ _ _).2.1] at hfetch
    exact FetchOutcome.result_ok _ response hfetch
  have hrun : m.run env s =
      (.error .parse,
        ((afterFetch env (m.operation 0).type m.endpoint (m.operation 0).payload m.options
          s).log (.mutationError (m.operation 0).type m.endpoint)).push
          ⟨(m.operation 0).type, m.endpoint, (m.operation 0).payload,
            env.now s.world.clockReads⟩) := by
    rw [fetchWithRetry_eq_outcome] at hfetch
    simp only at hfetch
    rw [Mutation.run_eq, mutate_online env _ _ _ _ s honline, hfetch]
    simp only [hbody]
  have hop : (⟨(m.operation 0).type, m.endpoint, (m.operation 0).payload,
      env.now s.world.clockReads⟩ : Operation V) = m.operation (env.now s.world.clockReads) := by
    cases m <;> rfl
  have hreq : (m.operation (env.now s.world.clockReads)).request s.mgr.apiBaseUrl =
      requestOf (s.mgr.apiBaseUrl ++ m.endpoint) m.options := by
    cases m <;> rfl
  rw [hrun, hop]
  refine ⟨hok, rfl, rfl, rfl, rfl, rfl, rfl, rfl, ?_⟩
  rw [processSyncQueue_nonempty env _ (by simp [Sys.push])]
  have hsend := drain_sends env
    (s.mgr.syncQueue ++ [m.operation (env.now s.world.clockReads)])
    (drainStart (((afterFetch env (m.operation 0).type m.endpoint (m.operation 0).payload
      m.options s).log (.mutationError (m.operation 0).type m.endpoint)).push
      (m.operation (env.now s.world.clockReads))))
    (m.operation (env.now s.world.clockReads)) (by simp) honline
  rw [← hreq]
  split <;> exact hsend

/-- C28 at `createData('/sales/orders', 100)` on the constructor's manager with a transport
that answers 200 with a body that is no JSON. -/
theorem unparseable_result_is_queued_witness :
    (createData envUnparseable "/sales/orders" (some 100) (ERPDataManager.new {})).1 =
      .error .parse ∧
    (createData envUnparseable "/sales/orders" (some 100)
      (ERPDataManager.new {})).2.mgr.syncQueue = [⟨.POST, "/sales/orders", some 100, 0⟩] ∧
    (createData envUnparseable "/sales/orders" (some 100)
      (ERPDataManager.new {})).2.world.delivered = [] :=
  ⟨(unparseable_result_is_queued envUnparseable (ERPDataManager.new {})
      (.create "/sales/orders" (some 100)) ⟨200, "OK", none⟩ (by decide) (by decide) rfl).2.1,
   (unparseable_result_is_queued envUnparseable (ERPDataManager.new {})
      (.create "/sales/orders" (some 100)) ⟨200, "OK", none⟩ (by decide) (by decide)
      rfl).2.2.1,
   (unparseable_result_is_queued envUnparseable (ERPDataManager.new {})
      (.create "/sales/orders" (some 100)) ⟨200, "OK", none⟩ (by decide) (by decide)
      rfl).2.2.2.2.2.2.1⟩

/-! ## C29: a callback that unsubscribes itself hides its successor -/

/-- C29: when the callbacks subscribed to E are `c1, c2, rest` in that order, `c1` calls the
unsubscribe handle of its own subscription when invoked, and the callbacks of `rest` call no
handle, `notifyListeners(E, v)` invokes `c1` and then the callbacks of `rest`, but not `c2`;
afterwards the list of E is `c2, rest`, so `c2` is still subscribed. -/
theorem self_unsubscribe_skips_next (endpoint : String) (data : V) (s : Sys V)
    (c1 c2 : Callback) (rest : List Callback)
    (hlist : s.mgr.listeners.get endpoint = some (c1 :: c2 :: rest))
    (hself : c1.unsubscribes = [(endpoint, c1.id)])
    (hquiet : ∀ c ∈ rest, c.unsubscribes = []) :
    (notifyListeners endpoint data s).world.delivered =
      s.world.delivered ++ (c1.id, data) :: rest.map (fun c => (c.id, data)) ∧
    (notifyListeners endpoint data s).mgr.listeners.get endpoint = some (c2 :: rest) := by
  have hinv : (invokeCallback c1 data s).mgr.listeners.get endpoint = some (c2 :: rest) := by
    unfold invokeCallback
    simp only [hself, callHandles, callHandle, hlist, List.eraseP_cons, BEq.refl, if_true]
    split <;> exact JsMap.get_set_self _ _ _
  have hstep : notifyLoop endpoint data (rest.length + 1 + 1) 0 s =
      notifyLoop endpoint data (rest.length + 1) 1 (invokeCallback c1 data s) := by
    rw [notifyLoop]
    simp [hlist]
  unfold notifyListeners
  rw [hlist]
  simp only [List.length_cons]
  rw [hstep, notifyLoop_quiet_from endpoint data (c2 :: rest) (rest.length + 1) 1
    (invokeCallback c1 data s) hinv (by simpa using hquiet)]
  refine ⟨?_, hinv⟩
  simp [invokeCallback_delivered, List.take_of_length_le]

/-- C29 at three subscribers of `/inventory/materials`, the first of which removes itself:
the first and the third are invoked, the second and the third remain subscribed. -/
theorem self_unsubscribe_skips_next_witness :
    threeSubscribers.mgr.listeners.get "/inventory/materials" =
      some (selfRemoving "/inventory/materials" 1 :: { id := 2 } :: [{ id := 3 }]) ∧
    (notifyListeners "/inventory/materials" 7 threeSubscribers).world.delivered =
      threeSubscribers.world.delivered ++
        ((selfRemoving "/inventory/materials" 1).id, 7) ::
          [({ id := 3 } : Callback)].map (fun c => (c.id, 7)) ∧
    (notifyListeners "/inventory/materials" 7 threeSubscribers).mgr.listeners.get
      "/inventory/materials" = some ({ id := 2 } :: [{ id := 3 }]) :=
  ⟨by decide,
   self_unsubscribe_skips_next "/inventory/materials" 7 threeSubscribers
     (selfRemoving "/inventory/materials" 1) { id := 2 } [{ id := 3 }]
     (by decide) rfl (by decide)⟩

/-! ## C30: the high-level fetchers never raise -/

/-- C30: for every manager state, transport and text of the query parameters, each of
`fetchPurchaseOrders`, `fetchInventory`, `fetchWorkOrders`, `fetchCustomers`,
`fetchSalesOrders`, `fetchQCData` and `fetchReports` (the cases of `f`) returns a value: the
value of `getData` on its path followed by `?` and the parameters when that read succeeds,
and otherwise the empty array (`null` for `fetchReports`), after one console line.  So a read
that fails and a read that succeeds with the empty array give the caller the same value. -/
theorem fetcher_swallows_failure (env : Env V) (emptyArray nullValue : V) (f : Fetcher)
    (params : String) (s : Sys V) :
    f.run env emptyArray nullValue params s =
      (match (getData env (f.path ++ "?" ++ params) true s).1 with
        | .ok v => (v, (getData env (f.path ++ "?" ++ params) true s).2)
        | .error _ =>
          (f.fallback emptyArray nullValue,
            (getData env (f.path ++ "?" ++ params) true s).2.log (.fetcherError f.what))) ∧
    (∀ e, (getData env (f.path ++ "?" ++ params) true s).1 = .error e →
      (f.run env emptyArray nullValue params s).1 = f.fallback emptyArray nullValue) ∧
    ((getData env (f.path ++ "?" ++ params) true s).1 = .ok (f.fallback emptyArray nullValue) →
      (f.run env emptyArray nullValue params s).1 = f.fallback emptyArray nullValue) := by
  have h := fetchOrFallback_eq env f.what f.path (f.fallback emptyArray nullValue) params s
  rw [Fetcher.run_eq_fetchOrFallback]
  refine ⟨h, ?_, ?_⟩
  · intro e he
    rw [h, he]
  · intro he
    rw [h, he]

/-- C30 at `fetchSalesOrders()` on the constructor's manager: the empty array (here `0`) is
returned both when the transport is down and when the server answers with it; and
`fetchReports` returns `null` (here `1`) when the transport is down. -/
theorem fetcher_swallows_failure_witness :
    (fetchSalesOrders (envAlwaysRejects Nat "down") 0 "" (ERPDataManager.new {})).1 = 0 ∧
    (fetchSalesOrders (envAlwaysResponds ⟨200, "OK", some 0⟩) 0 ""
      (ERPDataManager.new {})).1 = 0 ∧
    (fetchReports (envAlwaysRejects Nat "down") 1 "sales" "" (ERPDataManager.new {})).1 = 1 :=
  ⟨(fetcher_swallows_failure (envAlwaysRejects Nat "down") 0 1 .salesOrders ""
      (ERPDataManager.new {})).2.1 (.network "down") (by decide),
   (fetcher_swallows_failure (envAlwaysResponds ⟨200, "OK", some 0⟩) 0 1 .salesOrders ""
      (ERPDataManager.new {})).2.2 (by decide),
   (fetcher_swallows_failure (envAlwaysRejects Nat "down") 0 1 (.reports "sales") ""
      (ERPDataManager.new {})).2.1 (.network "down") (by decide)⟩

end ERP
